import Mathlib

/-! Document-to-quiz pipeline of the study application.

A shallow embedding of the string-processing core of `src/src/App.jsx`
(chunking, reply parsing, scoring) together with the properties that its
specification states about it.

JavaScript strings are modelled as lists of characters.  The regular
expressions of the source are modelled by the scanning functions below; each
one documents the pattern it stands for.
-/

namespace StudyApp

/-- A JavaScript string, seen as the list of its characters. -/
abbrev Str := List Char

/-! ## Constants (`App.jsx`, lines 24-27) -/

/-- Maximum chunk size. -/
def CHUNK_SIZE : Nat := 2000

/-- Number of retries of a remote call after a retryable failure. -/
def MAX_RETRIES : Nat := 3

/-- Delay between two attempts, in milliseconds. -/
def RATE_LIMIT_DELAY : Nat := 1000

/-! ## Platform string operations -/

/-- The characters that `String.prototype.trim` strips: the WhiteSpace and
LineTerminator code points of ECMAScript. -/
def isTrimSpace (c : Char) : Bool :=
  [0x09, 0x0A, 0x0B, 0x0C, 0x0D, 0x20, 0xA0, 0x1680, 0x2028, 0x2029, 0x202F, 0x205F,
    0x3000, 0xFEFF].contains c.toNat
  || (0x2000 ≤ c.toNat && c.toNat ≤ 0x200A)

/-- The method `String.prototype.trim`: strip white space from both ends. -/
def trim (s : Str) : Str :=
  ((s.dropWhile isTrimSpace).reverse.dropWhile isTrimSpace).reverse

/-- The method `String.prototype.match` with a global pattern that never matches the empty
string: the successive leftmost matches.  `matchAt s` is the length of the match
of the pattern anchored at the start of the suffix `s`, if there is one; the
counter `skip` is the number of characters of the last match still to be passed
over.  A `null` result of `match` is the empty list here. -/
def matchAllFrom (matchAt : Str → Option Nat) : Str → Nat → List Str
  | [], _ => []
  | _ :: rest, skip + 1 => matchAllFrom matchAt rest skip
  | c :: rest, 0 =>
    match matchAt (c :: rest) with
    | some n => (c :: rest).take n :: matchAllFrom matchAt rest (n - 1)
    | none => matchAllFrom matchAt rest 0

/-- The method `String.prototype.split` with a separator that never matches the empty
string.  `matchAt` is as in `matchAllFrom`; `cur` holds, reversed, the characters
of the piece being read. -/
def splitFrom (matchAt : Str → Option Nat) : Str → Nat → Str → List Str
  | [], _, cur => [cur.reverse]
  | _ :: rest, skip + 1, cur => splitFrom matchAt rest skip cur
  | c :: rest, 0, cur =>
    match matchAt (c :: rest) with
    | some n => cur.reverse :: splitFrom matchAt rest (n - 1) []
    | none => splitFrom matchAt rest 0 (c :: cur)

/-- The match of a literal string `sep` at the start of `s`. -/
def literalAt (sep : Str) (s : Str) : Option Nat :=
  if sep.isPrefixOf s then some sep.length else none

/-- The call `s.split(sep)` for a non-empty literal separator. -/
def splitOnStr (sep : Str) (s : Str) : List Str :=
  splitFrom (literalAt sep) s 0 []

/-! ## `atob` -/

/-- Value of a character of the base64 alphabet. -/
def base64Value (c : Char) : Option Nat :=
  if 'A'.toNat ≤ c.toNat ∧ c.toNat ≤ 'Z'.toNat then some (c.toNat - 65)
  else if 'a'.toNat ≤ c.toNat ∧ c.toNat ≤ 'z'.toNat then some (c.toNat - 97 + 26)
  else if '0'.toNat ≤ c.toNat ∧ c.toNat ≤ '9'.toNat then some (c.toNat - 48 + 52)
  else if c = '+' then some 62
  else if c = '/' then some 63
  else none

/-- ASCII white space, which `atob` ignores. -/
def isAsciiWhitespace (c : Char) : Bool :=
  [0x09, 0x0A, 0x0C, 0x0D, 0x20].contains c.toNat

/-- Turn 6-bit values into bytes: four values give three bytes; a final group of
three gives two bytes and a final group of two gives one. -/
def decodeSextets : List Nat → Str
  | a :: b :: c :: d :: rest =>
    Char.ofNat ((a * 64 + b) / 16) :: Char.ofNat ((b % 16) * 16 + c / 4)
      :: Char.ofNat ((c % 4) * 64 + d) :: decodeSextets rest
  | [a, b, c] => [Char.ofNat ((a * 64 + b) / 16), Char.ofNat ((b % 16) * 16 + c / 4)]
  | [a, b] => [Char.ofNat ((a * 64 + b) / 16)]
  | _ => []

/-- Remove one or two trailing `=` signs. -/
def stripPadding (data : Str) : Str :=
  match data.reverse with
  | '=' :: '=' :: rest => rest.reverse
  | '=' :: rest => rest.reverse
  | _ => data

/-- The platform function `atob` (forgiving base64 decoding of the HTML
standard); `none` stands for the `InvalidCharacterError` it throws. -/
def atob (data : Str) : Option Str :=
  let data := data.filter (fun c => !isAsciiWhitespace c)
  let data := if data.length % 4 = 0 then stripPadding data else data
  if data.length % 4 = 1 then none
  else (data.mapM base64Value).map decodeSextets

/-! ## Chunker (`chunkContent`, `App.jsx` lines 137-156) -/

/-- The characters of the class `[.!?]`. -/
def isTerminator (c : Char) : Bool :=
  c = '.' || c = '!' || c = '?'

/-- The pattern `[^.!?]+[.!?]+` anchored at the start of `s`: both groups are
greedy, the first stops at the first terminator and the second at the first
character that is not one, and no shorter first group can be followed by a
terminator, so there is a match exactly when both maximal runs are non-empty. -/
def sentenceAt (s : Str) : Option Nat :=
  let body := s.takeWhile (fun c => !isTerminator c)
  let marks := (s.drop body.length).takeWhile isTerminator
  if body.isEmpty || marks.isEmpty then none else some (body.length + marks.length)

/-- The array `decodedContent.match(/[^.!?]+[.!?]+/g) || []`. -/
def sentencesOf (decodedContent : Str) : List Str :=
  matchAllFrom sentenceAt decodedContent 0

/-- The `for` loop of `chunkContent` over the remaining sentences, with the
buffer `currentChunk`, followed by the final flush; the result lists the pushed
chunks in the order of the pushes. -/
def chunkLoop : List Str → Str → List Str
  | [], currentChunk => if currentChunk.isEmpty then [] else [trim currentChunk]
  | sentence :: rest, currentChunk =>
    if (currentChunk ++ sentence).length ≤ CHUNK_SIZE then
      chunkLoop rest (currentChunk ++ sentence)
    else
      trim currentChunk :: chunkLoop rest sentence

/-- The function `chunkContent`: decode the base64 argument, cut the text into
sentences and pack them into chunks.  `none` is the error thrown by `atob`. -/
def chunkContent (content : Str) : Option (List Str) :=
  match atob content with
  | none => none
  | some decodedContent => some (chunkLoop (sentencesOf decodedContent) [])

/-- The sentences buffered in each chunk of `chunkLoop`: the same loop, keeping
the list of sentences of the buffer instead of their concatenation. -/
def chunkRuns : List Str → List Str → List (List Str)
  | [], run => if run.isEmpty then [] else [run]
  | sentence :: rest, run =>
    if (run.flatten ++ sentence).length ≤ CHUNK_SIZE then
      chunkRuns rest (run ++ [sentence])
    else
      run :: chunkRuns rest [sentence]

/-- A buffer is within the limit, or holds one sentence that is itself over it. -/
def RunBounded (run : List Str) : Prop :=
  run.flatten.length ≤ CHUNK_SIZE ∨ ∃ s, run = [s] ∧ CHUNK_SIZE < s.length

/-! ## Response parser (`parseResponse`, `App.jsx` lines 253-285) -/

/-- A question record.  A field that the record does not carry (or carries as
`undefined`) is `none`. -/
structure Question where
  question : Str
  options : Option (List Str)
  correctAnswer : Option Str
  expectedAnswer : Option Str
  keyPoints : Option (List Str)
  deriving DecidableEq, Repr

/-- The class `\d` (without the unicode flag): the ASCII digits. -/
def isDigit (c : Char) : Bool :=
  '0'.toNat ≤ c.toNat && c.toNat ≤ '9'.toNat

/-- The pattern `\d+\.` anchored at the start of `s`: the greedy digit run must
be non-empty and followed by a dot (a shorter digit run is followed by a digit,
so backtracking finds nothing more). -/
def markerAt (s : Str) : Option Nat :=
  let digits := s.takeWhile isDigit
  if digits.isEmpty then none
  else
    match s.drop digits.length with
    | '.' :: _ => some (digits.length + 1)
    | _ => none

/-- The array `response.split(/\d+\./g).filter(Boolean)`: the pieces between the
markers, without the pieces that are the empty string. -/
def blocksOf (response : Str) : List Str :=
  (splitFrom markerAt response 0 []).filter (fun block => !block.isEmpty)

/-- The array `s.split('\n')`. -/
def splitLines (s : Str) : List Str :=
  splitOnStr ['\n'] s

/-- The pattern `Correct: ([A-D])` anchored at the start of `s`; the result is
the captured letter. -/
def correctAt (s : Str) : Option Char :=
  if "Correct: ".toList.isPrefixOf s then
    match s.drop "Correct: ".toList.length with
    | c :: _ => if c = 'A' ∨ c = 'B' ∨ c = 'C' ∨ c = 'D' then some c else none
    | [] => none
  else none

/-- The capture `line.match(/Correct: ([A-D])/)?.[1]`: the letter of the leftmost
match, `none` for `undefined`. -/
def matchCorrect : Str → Option Char
  | [] => none
  | c :: rest =>
    match correctAt (c :: rest) with
    | some letter => some letter
    | none => matchCorrect rest

/-- The callback of the `multiple` parser for one block. -/
def parseMultipleBlock (block : Str) : Question :=
  match splitLines (trim block) with
  | [] => ⟨[], some [], some [], none, none⟩  -- not reached: `split` gives at least one piece
  | question :: optionsAndAnswer =>
    let options := optionsAndAnswer.take 4
    let correctAnswer :=
      match (optionsAndAnswer.get? 4).bind matchCorrect with
      | some letter => [letter]
      | none => []
    ⟨question, some options, some correctAnswer, none, none⟩

/-- The callback of the `short` parser for one block. -/
def parseShortBlock (block : Str) : Question :=
  match (splitOnStr "Answer:".toList block).map trim with
  | [] => ⟨[], none, none, none, none⟩  -- not reached
  | question :: rest => ⟨question, none, none, rest.head?, none⟩

/-- The callback of the `long` parser for one block. -/
def parseLongBlock (block : Str) : Question :=
  match (splitOnStr "Key Points:".toList block).map trim with
  | [] => ⟨[], none, none, none, some []⟩  -- not reached
  | question :: rest =>
    let keyPoints :=
      match rest.head? with
      | some keyPoints => (splitLines keyPoints).map trim
      | none => []
    ⟨question, none, none, none, some keyPoints⟩

/-- The values that `parseResponse` can return. -/
inductive JsValue where
  /-- An array of question records. -/
  | array (questions : List Question)
  | string (s : Str)
  | boolean (b : Bool)
  | undefined
  /-- A `String` wrapper object. -/
  | stringObject (s : Str)
  /-- The object `parsers` itself. -/
  | parsersObject
  /-- A built-in function object. -/
  | builtin (name : Str)
  deriving DecidableEq, Repr

/-- The errors that `parseResponse` can throw. -/
inductive JsError where
  | typeError
  deriving DecidableEq, Repr

deriving instance DecidableEq for Except

/-- The own keys of the object literal `parsers`. -/
def parsersOwnKeys : List Str :=
  ["multiple".toList, "short".toList, "long".toList]

/-- The function properties that `parsers`, an object literal, inherits from
`Object.prototype`. -/
def objectPrototypeFunctions : List Str :=
  ["constructor".toList, "hasOwnProperty".toList, "isPrototypeOf".toList,
    "propertyIsEnumerable".toList, "toLocaleString".toList, "toString".toList,
    "valueOf".toList, "__defineGetter__".toList, "__defineSetter__".toList,
    "__lookupGetter__".toList, "__lookupSetter__".toList]

/-- The call `parsers[type](response)` when `parsers[type]` is the function
`name` inherited from `Object.prototype`, with `parsers` as receiver and the
string `response` as only argument. -/
def callInherited (name response : Str) : Except JsError JsValue :=
  if name = "constructor".toList then .ok (.stringObject response)
  else if name = "toString".toList ∨ name = "toLocaleString".toList then
    .ok (.string "[object Object]".toList)
  else if name = "valueOf".toList then .ok .parsersObject
  else if name = "hasOwnProperty".toList ∨ name = "propertyIsEnumerable".toList then
    .ok (.boolean (parsersOwnKeys.contains response))
  else if name = "isPrototypeOf".toList then .ok (.boolean false)
  else if name = "__lookupGetter__".toList then
    .ok (if response = "__proto__".toList then .builtin "get __proto__".toList else .undefined)
  else if name = "__lookupSetter__".toList then
    .ok (if response = "__proto__".toList then .builtin "set __proto__".toList else .undefined)
  else .error .typeError  -- `__defineGetter__`, `__defineSetter__`: the accessor argument is missing

/-- The function `parseResponse`.  The property access `parsers[type]` finds the
three own parsers and, through the prototype chain, the members of
`Object.prototype`: its functions, which are truthy and are then called, and the
accessor `__proto__`, whose value is an object that is truthy but not callable.
Any other key gives `undefined` and hence the empty array. -/
def parseResponse (response type : Str) : Except JsError JsValue :=
  if type = "multiple".toList then .ok (.array ((blocksOf response).map parseMultipleBlock))
  else if type = "short".toList then .ok (.array ((blocksOf response).map parseShortBlock))
  else if type = "long".toList then .ok (.array ((blocksOf response).map parseLongBlock))
  else if objectPrototypeFunctions.contains type then callInherited type response
  else if type = "__proto__".toList then .error .typeError
  else .ok (.array [])

/-! ## Scorer (`calculateScore`, `App.jsx` lines 366-416) -/

/-- The method `String.prototype.toUpperCase` on a string of ASCII characters
(code below 128): the letters a-z become A-Z and every other character is kept.
The mapping of the platform for the other characters is not modelled; the
properties stated with it are stated for ASCII strings. -/
def toUpperCase (s : Str) : Str :=
  s.map Char.toUpper

/-- The expression `a || b` for a string `a` that may be `undefined`: `a` when it
is a non-empty string, `b` otherwise. -/
def orElse (a : Option Str) (b : Str) : Str :=
  match a with
  | some s => if s.isEmpty then b else s
  | none => b

/-- A number (an IEEE 754 double): `value q` is the finite number whose exact
value is the rational `q`; the two zeros are both `value 0` (nothing here
divides by a zero that could be negative, and no comparison tells them apart). -/
inductive JsNumber where
  | nan
  | infinity
  | negInfinity
  | value (q : ℚ)
  deriving DecidableEq

/-- The exponent of the spacing of the doubles around `q`: `floor (log2 |q|) - 52`
for a number in the normal range, `-1074` below it. -/
def ulpExponent (q : ℚ) : ℤ :=
  max (Int.log 2 |q|) (-1022) - 52

/-- The integer nearest to `x`; a tie goes to the even one. -/
def roundTiesEven (x : ℚ) : ℤ :=
  if x - ⌊x⌋ < 1 / 2 then ⌊x⌋
  else if x - ⌊x⌋ > 1 / 2 then ⌊x⌋ + 1
  else if ⌊x⌋ % 2 = 0 then ⌊x⌋ else ⌊x⌋ + 1

/-- The double that an arithmetic operation returns when its exact result is
`q`: the nearest multiple of the spacing, ties to even, and an infinity when that
is `2^1024` or more in magnitude. -/
def roundDouble (q : ℚ) : JsNumber :=
  let r : ℚ := (roundTiesEven (q / 2 ^ ulpExponent q) : ℚ) * 2 ^ ulpExponent q
  if r ≥ 2 ^ (1024 : ℕ) then .infinity
  else if r ≤ -2 ^ (1024 : ℕ) then .negInfinity
  else .value r

/-- The quotient `a / b` of two counts (array lengths and counters, which are
exact as numbers): `0 / 0` is `NaN`; otherwise the exact quotient rounded to a
double. -/
def jsDiv (a b : Nat) : JsNumber :=
  if b = 0 then (if a = 0 then .nan else .infinity) else roundDouble ((a : ℚ) / (b : ℚ))

/-- The product `x * 100`, rounded to a double. -/
def jsTimes100 : JsNumber → JsNumber
  | .nan => .nan
  | .infinity => .infinity
  | .negInfinity => .negInfinity
  | .value q => roundDouble (q * 100)

/-- The sum `a + b` of two numbers, rounded to a double; the sum of the two
infinities of opposite sign is `NaN`. -/
def jsAdd : JsNumber → JsNumber → JsNumber
  | .nan, _ => .nan
  | _, .nan => .nan
  | .infinity, .negInfinity => .nan
  | .negInfinity, .infinity => .nan
  | .infinity, _ => .infinity
  | _, .infinity => .infinity
  | .negInfinity, _ => .negInfinity
  | _, .negInfinity => .negInfinity
  | .value a, .value b => roundDouble (a + b)

/-- The quotient `x / n` of a number by a count, rounded to a double. -/
def jsOver : JsNumber → Nat → JsNumber
  | .nan, _ => .nan
  | .infinity, _ => .infinity
  | .negInfinity, _ => .negInfinity
  | .value q, n =>
    if n = 0 then (if q = 0 then .nan else if q > 0 then .infinity else .negInfinity)
    else roundDouble (q / (n : ℚ))

/-- The comparison `x >= bound` with a finite bound: false for `NaN`. -/
def jsGe : JsNumber → ℚ → Bool
  | .nan, _ => false
  | .infinity, _ => true
  | .negInfinity, _ => false
  | .value q, bound => decide (q ≥ bound)

/-- The comparison `x < bound` with a finite bound: false for `NaN`. -/
def jsLt : JsNumber → ℚ → Bool
  | .nan, _ => false
  | .infinity, _ => false
  | .negInfinity, _ => true
  | .value q, bound => decide (q < bound)

/-- One entry of the `questions` array of the results. -/
structure QuestionResult where
  question : Str
  userAnswer : Str
  correctAnswer : Str
  isCorrect : Bool
  score : Nat
  deriving DecidableEq, Repr

/-- The object returned by `calculateScore`. -/
structure QuizResults where
  questions : List QuestionResult
  totalScore : Nat
  maxScore : Nat
  percentage : JsNumber

/-- The callback of `questions.map` in `calculateScore` for the question `q` and
the entry `answer` of `answers` at its index; `questionType` is the state of the
component. -/
def scoreQuestion (questionType : Str) (q : Question) (answer : Option Str) :
    QuestionResult :=
  let verdict : Bool × Nat :=
    if questionType = "multiple".toList then
      let userAnswer := orElse (answer.map toUpperCase) []
      let correctAnswer := orElse (q.correctAnswer.map toUpperCase) []
      let isCorrect := decide (userAnswer = correctAnswer)
      (isCorrect, if isCorrect then 1 else 0)
    else if questionType = "short".toList then (true, 1)
    else if questionType = "long".toList then (true, 1)
    else (false, 0)
  ⟨q.question, orElse answer [], orElse q.correctAnswer (orElse q.expectedAnswer "N/A".toList),
    verdict.1, verdict.2⟩

/-- The traversal `questions.map((q, index) => ...)` of `calculateScore` from the
index `index` on, threading the counter `correctCount`; it returns the entries
and the final value of the counter. -/
def scoreLoop (questionType : Str) (answers : Nat → Option Str) :
    List Question → Nat → Nat → List QuestionResult × Nat
  | [], _, correctCount => ([], correctCount)
  | q :: rest, index, correctCount =>
    let result := scoreQuestion questionType q (answers index)
    let next := scoreLoop questionType answers rest (index + 1)
      (if result.isCorrect then correctCount + 1 else correctCount)
    (result :: next.1, next.2)

/-- The function `calculateScore` of `App.jsx`; `answers` maps a question index
to the answer given, if any. -/
def calculateScore (questionType : Str) (questions : List Question)
    (answers : Nat → Option Str) : QuizResults :=
  let run := scoreLoop questionType answers questions 0 0
  let totalScore := run.2
  let maxScore := questions.length
  ⟨run.1, totalScore, maxScore, jsTimes100 (jsDiv totalScore maxScore)⟩

/-- Two strings of ASCII characters are equal ignoring letter case: they are
equal once every letter A-Z is put in lower case. -/
def EqIgnoreCase (a b : Str) : Prop :=
  a.map Char.toLower = b.map Char.toLower

/-! ## Reference notions used to state the parser properties -/

/-- The text of `s` before the first occurrence of `sep` (all of `s` when `sep`
does not occur). -/
def beforeFirst (sep : Str) : Str → Str
  | [] => []
  | c :: rest => if sep.isPrefixOf (c :: rest) then [] else c :: beforeFirst sep rest

/-- The text of `s` after the first occurrence of `sep`, if `sep` occurs. -/
def afterFirst (sep : Str) : Str → Option Str
  | [] => none
  | c :: rest =>
    if sep.isPrefixOf (c :: rest) then some ((c :: rest).drop sep.length)
    else afterFirst sep rest

/-- The number of positions of `s` at which `sep` occurs. -/
def occurrences (sep : Str) : Str → Nat
  | [] => 0
  | c :: rest => (if sep.isPrefixOf (c :: rest) then 1 else 0) + occurrences sep rest

/-- The key points of a block as the specification words them: the text after
`Key Points:`, split on newlines, each piece trimmed; none without the marker. -/
def keyPointsAsStated (block : Str) : List Str :=
  match afterFirst "Key Points:".toList block with
  | some text => (splitLines text).map trim
  | none => []

/-- The line `line` contains a match of `Correct: ([A-D])` with letter `letter`,
starting after the prefix `pre`. -/
def CorrectMatch (line pre : Str) (letter : Char) : Prop :=
  (letter = 'A' ∨ letter = 'B' ∨ letter = 'C' ∨ letter = 'D') ∧
    ∃ post, line = pre ++ "Correct: ".toList ++ letter :: post

/-! ## Scorer of the quiz page (`calculateScore`, `components/Quiz.jsx` lines 110-133) -/

/-- The method `String.prototype.toLowerCase` on a string of ASCII characters
(code below 128): the letters A-Z become a-z and every other character is kept.
The mapping of the platform for the other characters is not modelled; the
properties stated with it are stated for ASCII strings. -/
def toLowerCase (s : Str) : Str :=
  s.map Char.toLower

namespace Quiz

/-- One entry of the `questions` array of the results of the quiz page. -/
structure QuestionResult where
  question : Str
  userAnswer : Str
  correctAnswer : Option Str
  isCorrect : Bool
  deriving DecidableEq, Repr

/-- The object returned by `calculateScore` of the quiz page. -/
structure QuizResults where
  totalScore : Nat
  maxScore : Nat
  percentage : JsNumber
  questions : List QuestionResult

/-- The callback of `questions.map` in `calculateScore` of the quiz page. -/
def scoreQuestion (q : Question) (answer : Option Str) : QuestionResult :=
  let userAnswer := orElse (answer.map toLowerCase) []
  let correctAnswer := orElse (q.correctAnswer.map toLowerCase) []
  let isCorrect := decide (userAnswer = correctAnswer)
  ⟨q.question, orElse answer "Not answered".toList, q.correctAnswer, isCorrect⟩

/-- The traversal `questions.map((q, index) => ...)` of the quiz page from the
index `index` on, threading the counter `totalScore`. -/
def scoreLoop (userAnswers : Nat → Option Str) :
    List Question → Nat → Nat → List QuestionResult × Nat
  | [], _, totalScore => ([], totalScore)
  | q :: rest, index, totalScore =>
    let result := scoreQuestion q (userAnswers index)
    let next := scoreLoop userAnswers rest (index + 1)
      (if result.isCorrect then totalScore + 1 else totalScore)
    (result :: next.1, next.2)

/-- The function `calculateScore` of `components/Quiz.jsx`; the states `questions`
and `userAnswers` of the component are its arguments here. -/
def calculateScore (questions : List Question) (userAnswers : Nat → Option Str) :
    QuizResults :=
  let maxScore := questions.length
  let run := scoreLoop userAnswers questions 0 0
  let totalScore := run.2
  ⟨totalScore, maxScore, jsTimes100 (jsDiv totalScore maxScore), run.1⟩

/-- The condition `questions.length > 0 && !showResults` under which the quiz
page renders the questions and the submit button. -/
def questionsShown (questionCount : Nat) (showResults : Bool) : Bool :=
  decide (questionCount > 0) && !showResults

/-- The attribute `disabled` of the submit button of the quiz page:
`loading || !file || questions.length === 0 ||
Object.keys(userAnswers).length !== questions.length`. -/
def submitDisabled (loading fileSelected : Bool) (questionCount answerKeys : Nat) : Bool :=
  loading || !fileSelected || questionCount == 0 || answerKeys != questionCount

end Quiz

/-! ## Retrying caller (`callWithRetry`, `App.jsx` lines 158-169) -/

/-- A value thrown by the wrapped call, as far as `callWithRetry` looks at it. -/
inductive Thrown where
  /-- The value `null` or `undefined`. -/
  | nullish
  /-- Any other value.  The number `tag` identifies it; `response` describes its
  property `response`: `none` when that property is missing or falsy,
  `some status` when it is truthy, where `status` is its property `status` when that
  is a natural number and `none` otherwise. -/
  | value (tag : Nat) (response : Option (Option Nat))
  /-- The `TypeError` raised when a property of `null` or `undefined` is read. -/
  | typeError
  deriving DecidableEq, Repr

/-- The condition `error.response?.status === 429 || !error.response` of the
`catch` block; reading `error.response` of a nullish `error` throws. -/
def retryCondition : Thrown → Except Thrown Bool
  | .nullish => .error .typeError
  | .typeError => .ok true
  | .value _ none => .ok true
  | .value _ (some status) => .ok (status == some 429)

/-- What a run of `callWithRetry` does: the value returned or thrown, the state of
the world afterwards, the number of invocations of the wrapped call and the
number of delays of `RATE_LIMIT_DELAY` milliseconds awaited. -/
structure RetryRun (σ α : Type) where
  result : Except Thrown α
  state : σ
  invocations : Nat
  delays : Nat
  deriving DecidableEq

/-- The function `callWithRetry`.  The wrapped call `fn` acts on a state of the
world and returns or throws; `sleep` is what awaiting the delay does to that
state; the second argument is `retries`. -/
def callWithRetry {σ α : Type} (fn : σ → Except Thrown α × σ) (sleep : σ → σ) :
    Nat → σ → RetryRun σ α
  | 0, s => ⟨(fn s).1, (fn s).2, 1, 0⟩
  | retries + 1, s =>
    match (fn s).1 with
    | .ok v => ⟨.ok v, (fn s).2, 1, 0⟩
    | .error error =>
      match retryCondition error with
      | .error thrown => ⟨.error thrown, (fn s).2, 1, 0⟩
      | .ok true =>
        let rest := callWithRetry fn sleep retries (sleep (fn s).2)
        ⟨rest.result, rest.state, rest.invocations + 1, rest.delays + 1⟩
      | .ok false => ⟨.error error, (fn s).2, 1, 0⟩

/-- The outcome of an invocation is a failure that `callWithRetry` retries: the
thrown value has the status 429 or no response at all. -/
def failsRetryable {α : Type} : Except Thrown α → Bool
  | .ok _ => false
  | .error error =>
    match retryCondition error with
    | .ok true => true
    | _ => false

/-- The state in which the invocation number `k` (from 0) of the wrapped call is
made when every earlier invocation is followed by a delay and a retry. -/
def stateAt {σ α : Type} (fn : σ → Except Thrown α × σ) (sleep : σ → σ) : Nat → σ → σ
  | 0, s => s
  | k + 1, s => stateAt fn sleep k (sleep (fn s).2)

/-- A wrapped call, on a counter of its invocations, that throws a value with the
status `status` on its first `failures` invocations and returns 7 afterwards. -/
def flakyCall (failures status : Nat) (k : Nat) : Except Thrown Nat × Nat :=
  (if k < failures then .error (.value k (some (some status))) else .ok 7, k + 1)

/-! ## Text clean-up of `readFileContent` (`App.jsx` lines 80-96 and 113-117) -/

/-- The method `String.prototype.replace` with a global pattern that never matches
the empty string and a literal replacement.  `matchAt` and `skip` are as in
`matchAllFrom`. -/
def replaceFrom (matchAt : Str → Option Nat) (replacement : Str) : Str → Nat → Str
  | [], _ => []
  | _ :: rest, skip + 1 => replaceFrom matchAt replacement rest skip
  | c :: rest, 0 =>
    match matchAt (c :: rest) with
    | some n => replacement ++ replaceFrom matchAt replacement rest (n - 1)
    | none => c :: replaceFrom matchAt replacement rest 0

/-- The pattern `\s+` anchored at the start of `s`: the maximal run of white
space, which has to be non-empty.  The class `\s` holds the characters that
`trim` strips. -/
def whitespaceRunAt (s : Str) : Option Nat :=
  let run := s.takeWhile isTrimSpace
  if run.isEmpty then none else some run.length

/-- The index of the last newline of `s`. -/
def lastNewline : Str → Option Nat
  | [] => none
  | c :: rest =>
    match lastNewline rest with
    | some j => some (j + 1)
    | none => if c = '\n' then some 0 else none

/-- The pattern `\n\s*\n` anchored at the start of `s`: a newline, then the
greedy `\s*`, which gives back characters until it is followed by a newline, that
is, up to the last newline of the white space that follows the first one. -/
def blankLinesAt (s : Str) : Option Nat :=
  match s with
  | [] => none
  | c :: rest =>
    if c = '\n' then (lastNewline (rest.takeWhile isTrimSpace)).map (fun j => j + 2)
    else none

/-- The clean-up `text.replace(/\s+/g, ' ').replace(/\n\s*\n/g, '\n\n').trim()`
that `readFileContent` applies to the text of a PDF or Word document. -/
def cleanUpText (text : Str) : Str :=
  trim (replaceFrom blankLinesAt "\n\n".toList
    (replaceFrom whitespaceRunAt " ".toList text 0) 0)

/-- The text of one PDF page:
`items.map(item => item.str).join(" ").replace(/\s+/g, ' ').trim()`. -/
def pageText (items : List Str) : Str :=
  trim (replaceFrom whitespaceRunAt " ".toList (List.intercalate " ".toList items) 0)

/-- The PDF branch of `readFileContent` on the text items of the pages: every
page text is followed by a blank line, then the whole is cleaned up. -/
def pdfText (pages : List (List Str)) : Str :=
  cleanUpText (pages.map (fun items => pageText items ++ "\n\n".toList)).flatten

/-! ## Prompt builder (`generatePrompt`, `App.jsx` lines 219-251) -/

/-- A run of `n` spaces, the indentation of the template lines. -/
def indent (n : Nat) : Str :=
  List.replicate n ' '

/-- The per-question format of the `multiple` template (lines 229-234), with the
bracketed placeholders as arguments and the indentation `ind` of its lines. -/
def multipleFormat (ind number question a b c d letter : Str) : Str :=
  ind ++ number ++ ". ".toList ++ question ++ "\n".toList
    ++ ind ++ "A) ".toList ++ a ++ "\n".toList
    ++ ind ++ "B) ".toList ++ b ++ "\n".toList
    ++ ind ++ "C) ".toList ++ c ++ "\n".toList
    ++ ind ++ "D) ".toList ++ d ++ "\n".toList
    ++ ind ++ "Correct: ".toList ++ letter

/-- The per-question format of the `short` template (lines 241-242). -/
def shortFormat (ind question answer : Str) : Str :=
  ind ++ "Question: ".toList ++ question ++ "\n".toList
    ++ ind ++ "Answer: ".toList ++ answer

/-- The per-question format of the `long` template (lines 247-248). -/
def longFormat (ind question keyPoints : Str) : Str :=
  ind ++ "Question: ".toList ++ question ++ "\n".toList
    ++ ind ++ "Key Points: ".toList ++ keyPoints

/-- The text of the `multiple` template before its per-question format. -/
def multipleHead (content : Str) : Str :=
  "Generate 5 multiple-choice questions with 4 options (A-D) from this content: ".toList
    ++ content ++ ". \n".toList
    ++ indent 12 ++ "For each question:\n".toList
    ++ indent 12 ++ "1. Make the correct answer clear and unambiguous\n".toList
    ++ indent 12
    ++ "2. Label the correct answer as \x27Correct: X\x27 where X is A, B, C, or D\n".toList
    ++ indent 12 ++ "3. Ensure all options are plausible but only one is correct\n".toList
    ++ indent 12 ++ "4. Format each question EXACTLY as follows:\n".toList
    ++ indent 15 ++ "\n".toList

/-- The text of the `multiple` template after its per-question format. -/
def multipleTail : Str :=
  "\n".toList ++ indent 15 ++ "\n".toList ++ indent 15
    ++ ("(Make sure to include a blank line between questions and keep each "
        ++ "question\x27s content together)").toList

/-- The text of the `short` template before its per-question format. -/
def shortHead (content : Str) : Str :=
  "Generate 5 short answer questions from this content: ".toList
    ++ content ++ ". \n".toList
    ++ indent 12 ++ "For each question:\n".toList
    ++ indent 12 ++ "1. Make the expected answer clear and concise\n".toList
    ++ indent 12 ++ "2. Format each question as:\n".toList

/-- The text of the `long` template before its per-question format. -/
def longHead (content : Str) : Str :=
  "Generate 3 essay questions from this content: ".toList
    ++ content ++ ". \n".toList
    ++ indent 12 ++ "For each question:\n".toList
    ++ indent 12 ++ "1. Provide clear key points that should be addressed\n".toList
    ++ indent 12 ++ "2. Format each question as:\n".toList

/-- The function `generatePrompt`: the template of the type with the content
spliced in; `none` when `prompts[type]` is not one of the three templates. -/
def generatePrompt (type content : Str) : Option Str :=
  if type = "multiple".toList then
    some (multipleHead content
      ++ multipleFormat (indent 15) "1".toList "[question text]".toList "[option A]".toList
          "[option B]".toList "[option C]".toList "[option D]".toList "[letter]".toList
      ++ multipleTail)
  else if type = "short".toList then
    some (shortHead content
      ++ shortFormat (indent 15) "[question text]".toList "[expected answer]".toList)
  else if type = "long".toList then
    some (longHead content
      ++ longFormat (indent 15) "[question text]".toList "[list of key points]".toList)
  else none

/-- A reply made of the given question texts with a blank line between them. -/
def replyOf (items : List Str) : Str :=
  List.intercalate "\n\n".toList items

/-! ## Quiz results on the server (`server/index.js` lines 187-268, `server/models/QuizResult.js`) -/

/-- An entry of the array `questions` of a quiz result, with the paths of the
schema; a path that is not set is `none`. -/
structure StoredQuestion where
  question : Option Str
  userAnswer : Option Str
  correctAnswer : Option Str
  isCorrect : Option Bool
  score : Option ℚ
  deriving DecidableEq

/-- A document of the model `QuizResult`, with the paths of its schema.  The
scores are given by their exact values; `percentage`, with which the statistics
compute, is any number of the type `Number`, which holds the infinities as well
as the finite numbers; `completedAt` is a time in milliseconds; the bookkeeping
paths that the database layer adds to every document are left out. -/
structure QuizResultDoc where
  userId : Str
  quizType : Str
  sourceFile : Str
  questions : List StoredQuestion
  totalScore : ℚ
  maxScore : ℚ
  percentage : JsNumber
  completedAt : Nat
  deriving DecidableEq

/-- The object from which a `QuizResult` document is built: for every path of the
schema the value given, if any, of the type of the schema; `otherKeys` lists the
keys given that are not paths of the schema. -/
structure QuizResultInput where
  userId : Option Str
  quizType : Option Str
  sourceFile : Option Str
  questions : Option (List StoredQuestion)
  totalScore : Option ℚ
  maxScore : Option ℚ
  percentage : Option ℚ
  completedAt : Option Nat
  otherKeys : List Str
  deriving DecidableEq

/-- The payload `req.user` of a verified token; `userId` is `none` when the
payload carries no string under that key. -/
structure TokenPayload where
  userId : Option Str
  deriving DecidableEq

/-- The collection of quiz results; `failure` is the message of the error with
which the operations on it fail, if they do. -/
structure Database where
  quizResults : List QuizResultDoc
  failure : Option Str
  deriving DecidableEq

/-- An operation sent to the collection. -/
inductive DbOp where
  | find (userId : Str)
  | save (doc : QuizResultDoc)
  deriving DecidableEq

/-- An entry of `recentScores`. -/
structure RecentScore where
  date : Nat
  score : JsNumber
  type : Str
  sourceFile : Str
  deriving DecidableEq

/-- The object `stats` of the statistics route; `strengths` and `weaknesses` are
`none` when the keys are not set. -/
structure QuizStats where
  totalQuizzes : Nat
  averageScore : JsNumber
  multipleCount : Nat
  shortCount : Nat
  longCount : Nat
  recentScores : List RecentScore
  strengths : Option (List Str)
  weaknesses : Option (List Str)
  deriving DecidableEq

/-- The JSON body of a response. -/
inductive ResponseBody where
  | error (message : Str)
  | errorWithDetails (message details : Str)
  | quizResult (doc : QuizResultDoc)
  | quizResults (docs : List QuizResultDoc)
  | stats (stats : QuizStats)
  deriving DecidableEq

/-- What a route handler does: the status and body of its response, the
collection afterwards and the operations it sent to the collection. -/
structure HandlerRun where
  status : Nat
  body : ResponseBody
  database : Database
  log : List DbOp
  deriving DecidableEq

/-- The values of the `enum` of the path `quizType`. -/
def quizTypes : List Str :=
  ["multiple".toList, "short".toList, "long".toList]

/-- The object `{ ...req.body, userId: req.user.userId }`: the key `userId` of
the body, if any, is replaced. -/
def withTokenUserId (body : QuizResultInput) (user : TokenPayload) : QuizResultInput :=
  ⟨user.userId, body.quizType, body.sourceFile, body.questions, body.totalScore,
    body.maxScore, body.percentage, body.completedAt, body.otherKeys⟩

/-- The document `new QuizResult(input)` created at the time `now`, when it passes
the validation of the schema on `save`: the required paths are set, the required
strings are not empty and `quizType` is in its `enum`; the array `questions`
defaults to the empty array and `completedAt` to `Date.now`; keys outside the
schema are dropped.  `none` when the validation fails. -/
def buildQuizResult (now : Nat) (input : QuizResultInput) : Option QuizResultDoc :=
  match input.userId, input.quizType, input.sourceFile, input.totalScore, input.maxScore,
    input.percentage with
  | some userId, some quizType, some sourceFile, some totalScore, some maxScore,
    some percentage =>
    if userId ≠ [] ∧ quizType ∈ quizTypes ∧ sourceFile ≠ [] then
      some ⟨userId, quizType, sourceFile, input.questions.getD [], totalScore, maxScore,
        .value percentage, input.completedAt.getD now⟩
    else none
  | _, _, _, _, _, _ => none

/-- The handler of `POST /api/quiz-results` for an authenticated request. -/
def postQuizResult (now : Nat) (body : QuizResultInput) (user : TokenPayload)
    (db : Database) : HandlerRun :=
  match buildQuizResult now (withTokenUserId body user) with
  | none => ⟨500, .error "Failed to save quiz result".toList, db, []⟩
  | some doc =>
    match db.failure with
    | some _ => ⟨500, .error "Failed to save quiz result".toList, db, [.save doc]⟩
    | none => ⟨201, .quizResult doc, ⟨db.quizResults ++ [doc], none⟩, [.save doc]⟩

/-- Insertion of a document in a list sorted by `completedAt`, latest first. -/
def insertByDate (doc : QuizResultDoc) : List QuizResultDoc → List QuizResultDoc
  | [] => [doc]
  | x :: rest =>
    if doc.completedAt < x.completedAt then x :: insertByDate doc rest
    else doc :: x :: rest

/-- The order `.sort({ completedAt: -1 })`; documents of the same time keep
their order. -/
def sortByDateDesc (docs : List QuizResultDoc) : List QuizResultDoc :=
  docs.foldr insertByDate []

/-- The query `QuizResult.find({ userId })`. -/
def findByUser (db : Database) (userId : Str) : List QuizResultDoc :=
  db.quizResults.filter (fun doc => doc.userId = userId)

/-- The handler of `GET /api/quiz-results/:userId` for an authenticated request. -/
def getQuizResults (paramsUserId : Str) (user : TokenPayload) (db : Database) :
    HandlerRun :=
  if some paramsUserId ≠ user.userId then
    ⟨403, .error "Unauthorized access".toList, db, []⟩
  else
    match db.failure with
    | some _ =>
      ⟨500, .error "Failed to fetch quiz results".toList, db, [.find paramsUserId]⟩
    | none =>
      ⟨200, .quizResults (sortByDateDesc (findByUser db paramsUserId)), db,
        [.find paramsUserId]⟩

/-- The mean `results.reduce((acc, curr) => acc + curr.percentage, 0) /
results.length` when there are results, 0 otherwise: the percentages are added
one by one to the accumulator, from 0, and the sum is divided by the count. -/
def averagePercentage (results : List QuizResultDoc) : JsNumber :=
  if results.length > 0 then
    jsOver (results.foldl (fun acc curr => jsAdd acc curr.percentage) (.value 0))
      results.length
  else .value 0

/-- The types of `questionTypes` whose mean percentage satisfies `keep`. -/
def typesWhere (results : List QuizResultDoc) (keep : JsNumber → Bool) : List Str :=
  quizTypes.filter (fun type =>
    keep (averagePercentage (results.filter (fun r => r.quizType = type))))

/-- The object `stats` computed from the results of a user. -/
def computeStats (results : List QuizResultDoc) : QuizStats :=
  ⟨results.length, averagePercentage results,
    (results.filter (fun r => r.quizType = "multiple".toList)).length,
    (results.filter (fun r => r.quizType = "short".toList)).length,
    (results.filter (fun r => r.quizType = "long".toList)).length,
    (results.take 5).map (fun r => ⟨r.completedAt, r.percentage, r.quizType, r.sourceFile⟩),
    if results.length > 0 then some (typesWhere results (fun a => jsGe a 70)) else none,
    if results.length > 0 then some (typesWhere results (fun a => jsLt a 70)) else none⟩

/-- The handler of `GET /api/quiz-stats/:userId` for an authenticated request. -/
def getQuizStats (paramsUserId : Str) (user : TokenPayload) (db : Database) :
    HandlerRun :=
  if some paramsUserId ≠ user.userId then
    ⟨403, .error "Unauthorized access".toList, db, []⟩
  else
    match db.failure with
    | some details =>
      ⟨500, .errorWithDetails "Failed to fetch quiz statistics".toList details, db,
        [.find paramsUserId]⟩
    | none => ⟨200, .stats (computeStats (findByUser db paramsUserId)), db, [.find paramsUserId]⟩

/-- The text of a reply before its first match of the pattern `\d+\.` (all of the
reply when there is no match). -/
def beforeMarker : Str → Str
  | [] => []
  | c :: rest => if (markerAt (c :: rest)).isSome then [] else c :: beforeMarker rest

/-! ## File reading (`readFileContent` and `handleFileChange`, `App.jsx` lines 70-135 and 328-357) -/

/-- An uploaded file as `readFileContent` sees it: its declared media type and
what the readers give for it.  The field `pdfPages` is what the PDF library
extracts, page by page the strings of the text items (`none` when reading
throws); `docxValue` is the raw text that the Word converter extracts (`none`
when it throws); `text` is the result of `file.text()` (`none` when it rejects). -/
structure UploadedFile where
  type : Str
  pdfPages : Option (List (List Str))
  docxValue : Option Str
  text : Option Str
  deriving DecidableEq

/-- The object `{ content, type }` that `readFileContent` returns. -/
structure FileContent where
  content : Str
  type : Str
  deriving DecidableEq

/-- The function `readFileContent` of `App.jsx`; the error is the message of the
`Error` it throws. -/
def readFileContent (file : UploadedFile) : Except Str FileContent :=
  if file.type = "application/pdf".toList then
    match file.pdfPages with
    | some pages => .ok ⟨pdfText pages, "text/plain".toList⟩
    | none => .error "Failed to read PDF file".toList
  else if file.type
        = "application/vnd.openxmlformats-officedocument.wordprocessingml.document".toList
      ∨ file.type = "application/msword".toList then
    match file.docxValue with
    | some value => .ok ⟨cleanUpText value, "text/plain".toList⟩
    | none => .error "Failed to read DOCX file".toList
  else
    match file.text with
    | some text => .ok ⟨text, "text/plain".toList⟩
    | none => .error "Failed to read file".toList

/-- The list `supportedTypes` of `handleFileChange`. -/
def supportedTypes : List Str :=
  ["text/plain".toList,
    "application/vnd.openxmlformats-officedocument.wordprocessingml.document".toList,
    "application/msword".toList,
    "application/pdf".toList,
    "application/vnd.openxmlformats-officedocument.presentationml.presentation".toList]

/-- The states `file` and `error` that `handleFileChange` sets. -/
structure FileSelection where
  file : Option UploadedFile
  error : Str
  deriving DecidableEq

/-- The function `handleFileChange`: `uploaded` is `e.target.files[0]`, `none`
when no file was chosen, in which case nothing is set. -/
def handleFileChange (uploaded : Option UploadedFile) (state : FileSelection) :
    FileSelection :=
  match uploaded with
  | none => state
  | some uploadedFile =>
    if supportedTypes.contains uploadedFile.type then ⟨some uploadedFile, []⟩
    else
      ⟨none, "Please upload a supported file type (TXT, DOC, DOCX, PDF, or PPTX).".toList⟩

/-! ## Image scaling (`processImage`, `components/ImageProblemSolver.jsx` lines 38-52) -/

/-- The constant `maxDimension` of `processImage`. -/
def maxDimension : Nat := 1200

/-- The variables `width` and `height` of `processImage` after the scaling step,
for an image of `width` by `height` pixels; the quotients are exact. -/
def processImage (width height : Nat) : ℚ × ℚ :=
  if width > height ∧ width > maxDimension then
    ((maxDimension : ℚ), ((height : ℚ) * (maxDimension : ℚ)) / (width : ℚ))
  else if height > maxDimension then
    (((width : ℚ) * (maxDimension : ℚ)) / (height : ℚ), (maxDimension : ℚ))
  else ((width : ℚ), (height : ℚ))

/-- The size of the canvas after `canvas.width = width; canvas.height = height`:
the assignment keeps the integer part. -/
def canvasSize (width height : Nat) : Nat × Nat :=
  (⌊(processImage width height).1⌋₊, ⌊(processImage width height).2⌋₊)

/-! ## Parser of the quiz page (`parseResponse`, `components/Quiz.jsx` lines 213-237) -/

/-- The call `s.replace(pattern, '')` for a pattern anchored at the start of
the string: the match, if there is one, is removed. -/
def removeLeading (matchAt : Str → Option Nat) (s : Str) : Str :=
  match matchAt s with
  | some n => s.drop n
  | none => s

/-- A pattern made of the literal `label` followed by `\s*`, at the start of `s`. -/
def labelAt (label : Str) (s : Str) : Option Nat :=
  if label.isPrefixOf s then
    some (label.length + ((s.drop label.length).takeWhile isTrimSpace).length)
  else none

/-- The pattern `Question \d+:\s*` at the start of `s`. -/
def questionLabelAt (s : Str) : Option Nat :=
  if "Question ".toList.isPrefixOf s then
    let digits := (s.drop 9).takeWhile isDigit
    if digits.isEmpty then none
    else
      match s.drop (9 + digits.length) with
      | ':' :: rest => some (9 + digits.length + 1 + (rest.takeWhile isTrimSpace).length)
      | _ => none
  else none

/-- The pattern `[A-D]\)\s*` at the start of `s`. -/
def optionLabelAt (s : Str) : Option Nat :=
  match s with
  | c :: ')' :: rest =>
    if c = 'A' ∨ c = 'B' ∨ c = 'C' ∨ c = 'D' then
      some (2 + (rest.takeWhile isTrimSpace).length)
    else none
  | _ => none

namespace Quiz

/-- The callback of `questions.map` in `parseResponse` of the quiz page, for one
piece `q` of the reply.  The error is the `TypeError` of `lines[0].replace` on a
piece without lines. -/
def parseQuestion (type : Str) (q : Str) : Except JsError Question :=
  match (splitLines q).filter (fun line => !(trim line).isEmpty) with
  | [] => .error .typeError
  | first :: others =>
    let questionText := removeLeading questionLabelAt first
    if type = "multiple".toList then
      let options := (others.take 4).map (removeLeading optionLabelAt)
      let correctAnswer :=
        match others.get? 4 with
        | some line => removeLeading (labelAt "Correct:".toList) line
        | none => []
      .ok ⟨questionText, some options, some correctAnswer, none, none⟩
    else if type = "short".toList then
      let answer :=
        match others.head? with
        | some line => removeLeading (labelAt "Answer:".toList) line
        | none => []
      .ok ⟨questionText, none, some answer, none, none⟩
    else if type = "long".toList then
      let keyPoints := others.map (removeLeading (labelAt "-".toList))
      .ok ⟨questionText, none, none, none, some keyPoints⟩
    else .ok ⟨questionText, none, none, none, none⟩

/-- The function `parseResponse` of the quiz page. -/
def parseResponse (response type : Str) : Except JsError (List Question) :=
  ((splitOnStr "\n\n".toList response).filter (fun q => !(trim q).isEmpty)).mapM
    (parseQuestion type)

end Quiz

/-! ## Question generation (`generateQuestionsForChunk`, `App.jsx` lines 171-217) -/

/-- The value of `data.candidates[0].content.parts[0].text` in a reply of the
server, as the test of `generateQuestionsForChunk` sees it. -/
inductive CandidateText where
  /-- A non-empty string. -/
  | text (s : Str)
  /-- The chain stops at a missing part or ends in a falsy value. -/
  | missing
  /-- Reading the chain throws, with this message. -/
  | unreadable (message : Str)
  deriving DecidableEq

/-- The JSON body of a reply of the server: the keys `details` and `error` of an
error reply and the candidate text. -/
structure ReplyData where
  details : Option Str
  error : Option Str
  candidate : CandidateText
  deriving DecidableEq

/-- An HTTP response as `fetch` resolves it; `json` is the result of
`response.json()`, an error message when the body is not JSON. -/
structure HttpResponse where
  status : Nat
  json : Except Str ReplyData
  deriving DecidableEq

/-- What the network does with one request: an HTTP response, whatever its
status, or a failure without a response. -/
inductive NetworkOutcome where
  | response (response : HttpResponse)
  | failure (tag : Nat)
  deriving DecidableEq

/-- The body `{ prompt, fileContent }` of the request. -/
structure GenerateRequest where
  prompt : Option Str
  fileContent : Str
  deriving DecidableEq

/-- The platform function `fetch` on a network `endpoint`: it resolves with the
response for every HTTP status and rejects, with an error that has no property
`response`, only when the network fails. -/
def fetchCall {σ : Type} (endpoint : GenerateRequest → σ → NetworkOutcome × σ)
    (request : GenerateRequest) (s : σ) : Except Thrown HttpResponse × σ :=
  match (endpoint request s).1 with
  | .response response => (.ok response, (endpoint request s).2)
  | .failure tag => (.error (.value tag none), (endpoint request s).2)

/-- The property `response.ok`: the status is in the range 200-299. -/
def HttpResponse.isOk (response : HttpResponse) : Bool :=
  decide (200 ≤ response.status) && decide (response.status ≤ 299)

/-- What a call of `generateQuestionsForChunk` does: the value it returns, the
message passed to `setError` if any, the state of the world afterwards, the
number of requests sent and of delays awaited. -/
structure GenerationRun (σ : Type) where
  result : JsValue
  error : Option Str
  state : σ
  requests : Nat
  delays : Nat
  deriving DecidableEq

/-- The function `generateQuestionsForChunk`; `message` gives the property
`message` of a thrown value. -/
def generateQuestionsForChunk {σ : Type}
    (endpoint : GenerateRequest → σ → NetworkOutcome × σ) (sleep : σ → σ)
    (message : Thrown → Str) (chunk type : Str) (s : σ) : GenerationRun σ :=
  let prompt := generatePrompt type chunk
  let run := callWithRetry (fetchCall endpoint ⟨prompt, chunk⟩) sleep MAX_RETRIES s
  let caught : Str → GenerationRun σ := fun text =>
    ⟨.array [], some ("Error: ".toList ++ text), run.state, run.invocations, run.delays⟩
  match run.result with
  | .error thrown => caught (message thrown)
  | .ok response =>
    match response.json with
    | .error text => caught text
    | .ok data =>
      if !response.isOk then
        caught (orElse data.details (orElse data.error "Failed to generate questions".toList))
      else
        match data.candidate with
        | .missing => caught "Invalid response format from server".toList
        | .unreadable text => caught text
        | .text reply =>
          match parseResponse reply type with
          | .ok value => ⟨value, none, run.state, run.invocations, run.delays⟩
          | .error _ => caught (message .typeError)

/-! ## Notes and flashcards routes (`server/index.js`) -/

/-- A document of the collection of notes, with the paths that the routes read
and write; `id` is the document's `_id`. -/
structure Note where
  id : Str
  userId : Str
  heading : Str
  content : Str
  deriving DecidableEq

/-- A document of the collection of flashcards (`models/Flashcard.js`, with the
timestamps of the schema); `id` is the document's `_id`. -/
structure Flashcard where
  id : Str
  userId : Str
  title : Str
  question : Str
  answer : Str
  createdAt : Nat
  updatedAt : Nat
  deriving DecidableEq

/-- A collection of documents; `failure` is the message of the error with which
the operations on it fail, if they do. -/
structure Collection (α : Type) where
  docs : List α
  failure : Option Str
  deriving DecidableEq

/-- The fields that `PUT /api/notes/:id` reads from `req.body`: a string, or
`none` when the key is not set. -/
structure NoteBody where
  heading : Option Str
  content : Option Str
  deriving DecidableEq

/-- The fields that `PUT /api/flashcards/:id` reads from `req.body`: a string, or
`none` when the key is not set. -/
structure FlashcardBody where
  question : Option Str
  answer : Option Str
  deriving DecidableEq

/-- The JSON body of a response of the notes and flashcards routes. -/
inductive RecordBody (α : Type) where
  | error (message : Str)
  | message (text : Str)
  | document (doc : α)
  deriving DecidableEq

/-- What a notes or flashcards handler does: the status and body of its response
and the collection afterwards. -/
structure RecordRun (α : Type) where
  status : Nat
  body : RecordBody α
  collection : Collection α
  deriving DecidableEq

/-- The test `!value` on a field of the body: true for a key that is not set and
for the empty string. -/
def isFalsy (value : Option Str) : Bool :=
  match value with
  | none => true
  | some text => decide (text = [])

/-- What the model `Note` does with the values that the handlers give it.  Its
schema, `models/Notes.js`, is not among the sources, so the casts of the filter
values `_id` and `userId` to the types of the schema (`none` when the cast
throws) and the document that `note.save()` stores after casting and validation
(`none` when the validation fails) are taken as given. -/
structure NoteModel where
  castId : Str → Option Str
  castUserId : Str → Option Str
  save : Note → Option Note

/-- A hexadecimal digit. -/
def isHexDigit (c : Char) : Bool :=
  ('0' ≤ c && c ≤ '9') || ('a' ≤ c && c ≤ 'f') || ('A' ≤ c && c ≤ 'F')

/-- The cast of a string of 24 hexadecimal digits, the written form of an
`ObjectId`, to the `ObjectId` it denotes (given by its lower-case form); every
other string is refused here. -/
def hexObjectId (s : Str) : Option Str :=
  if s.length = 24 ∧ s.all isHexDigit then some (s.map Char.toLower) else none

/-- The documents that match the filter `{ _id, userId }` once its values are
cast: the first one is what `findOne` and `findOneAndDelete` return. -/
def findNote (docs : List Note) (id userId : Str) : Option Note :=
  docs.find? (fun note => decide (note.id = id ∧ note.userId = userId))

/-- The first flashcard that matches the filter `{ _id, userId }` once its
values are cast. -/
def findFlashcard (docs : List Flashcard) (id userId : Str) : Option Flashcard :=
  docs.find? (fun card => decide (card.id = id ∧ card.userId = userId))

/-- The handler of `PUT /api/notes/:id` for an authenticated request whose token
carries the user id `tokenUserId`.  The query
`Note.findOne({ _id: id, userId: req.user.userId })` throws when a value of the
filter cannot be cast, and the handler then answers 500 from its `catch`. -/
def putNote (model : NoteModel) (id : Str) (body : NoteBody) (tokenUserId : Str)
    (db : Collection Note) : RecordRun Note :=
  if isFalsy body.heading || isFalsy body.content then
    ⟨400, .error "Heading and content are required".toList, db⟩
  else
    match model.castId id, model.castUserId tokenUserId, db.failure with
    | some noteId, some userId, none =>
      match findNote db.docs noteId userId with
      | none => ⟨404, .error "Note not found".toList, db⟩
      | some note =>
        match model.save ⟨note.id, note.userId, body.heading.getD [], body.content.getD []⟩ with
        | none => ⟨500, .error "Failed to update note".toList, db⟩
        | some stored =>
          ⟨200, .document stored,
            ⟨db.docs.map (fun doc => if doc.id = note.id then stored else doc), none⟩⟩
    | _, _, _ => ⟨500, .error "Failed to update note".toList, db⟩

/-- The handler of `DELETE /api/notes/:id` for an authenticated request whose
token carries the user id `tokenUserId`: `findOneAndDelete` removes the first
document that matches. -/
def deleteNote (model : NoteModel) (id : Str) (tokenUserId : Str) (db : Collection Note) :
    RecordRun Note :=
  match model.castId id, model.castUserId tokenUserId, db.failure with
  | some noteId, some userId, none =>
    match findNote db.docs noteId userId with
    | none => ⟨404, .error "Note not found".toList, db⟩
    | some note => ⟨200, .message "Note deleted successfully".toList, ⟨db.docs.erase note, none⟩⟩
  | _, _, _ => ⟨500, .error "Failed to delete note".toList, db⟩

/-- The document that `flashcard.save()` stores at the time `now` after
`flashcard.question = question; flashcard.answer = answer`: the strings are
trimmed by the schema, the required strings must not be empty, and `updatedAt`
is set when a path was modified.  `none` when the validation fails. -/
def saveFlashcard (now : Nat) (card : Flashcard) (question answer : Str) :
    Option Flashcard :=
  if card.title = [] ∨ trim question = [] ∨ trim answer = [] then none
  else
    some ⟨card.id, card.userId, card.title, trim question, trim answer, card.createdAt,
      if trim question = card.question ∧ trim answer = card.answer then card.updatedAt
      else now⟩

/-- The handler of `PUT /api/flashcards/:id` for an authenticated request whose
token carries the user id `tokenUserId`: the first of the handlers registered for
the route, which answers every request.  `cast` is the cast of a string to an
`ObjectId`, the type of `_id` and `userId` in the schema, `none` when it throws;
the handler then answers 500 from its `catch`. -/
def putFlashcard (cast : Str → Option Str) (now : Nat) (id : Str) (body : FlashcardBody)
    (tokenUserId : Str) (db : Collection Flashcard) : RecordRun Flashcard :=
  if isFalsy body.question || isFalsy body.answer then
    ⟨400, .error "Question and answer are required".toList, db⟩
  else
    match cast id, cast tokenUserId, db.failure with
    | some cardId, some userId, none =>
      match findFlashcard db.docs cardId userId with
      | none => ⟨404, .error "Flashcard not found".toList, db⟩
      | some card =>
        match saveFlashcard now card (body.question.getD []) (body.answer.getD []) with
        | none => ⟨500, .error "Failed to update flashcard".toList, db⟩
        | some stored =>
          ⟨200, .document stored,
            ⟨db.docs.map (fun doc => if doc.id = card.id then stored else doc), none⟩⟩
    | _, _, _ => ⟨500, .error "Failed to update flashcard".toList, db⟩

/-- The handler of `DELETE /api/flashcards/:id` for an authenticated request
whose token carries the user id `tokenUserId`. -/
def deleteFlashcard (cast : Str → Option Str) (id : Str) (tokenUserId : Str)
    (db : Collection Flashcard) : RecordRun Flashcard :=
  match cast id, cast tokenUserId, db.failure with
  | some cardId, some userId, none =>
    match findFlashcard db.docs cardId userId with
    | none => ⟨404, .error "Flashcard not found".toList, db⟩
    | some card =>
      ⟨200, .message "Flashcard deleted successfully".toList, ⟨db.docs.erase card, none⟩⟩
  | _, _, _ => ⟨500, .error "Failed to delete flashcard".toList, db⟩

/-! ## Lemmas on the platform operations -/

theorem length_trim_le (s : Str) : (trim s).length ≤ s.length := by
  unfold trim
  rw [List.length_reverse]
  exact le_trans (List.dropWhile_sublist _).length_le
    (by rw [List.length_reverse]; exact (List.dropWhile_sublist _).length_le)

theorem takeWhile_eq_self_of_forall {p : Char → Bool} :
    ∀ s : Str, (∀ c ∈ s, p c = true) → s.takeWhile p = s
  | [], _ => rfl
  | c :: rest, h => by
    have hc : p c = true := h c (List.mem_cons_self _ _)
    have hr := takeWhile_eq_self_of_forall rest (fun d hd => h d (List.mem_cons_of_mem _ hd))
    simp [List.takeWhile_cons, hc, hr]

theorem sentenceAt_pos {s : Str} {n : Nat} (h : sentenceAt s = some n) : 0 < n := by
  unfold sentenceAt at h
  simp only at h
  split at h
  · exact absurd h (by simp)
  · rename_i hne
    simp only [Bool.or_eq_true, not_or, List.isEmpty_iff] at hne
    have hb : 0 < (s.takeWhile (fun c => !isTerminator c)).length :=
      List.length_pos.mpr hne.1
    simp only [Option.some.injEq] at h
    omega

theorem sentenceAt_none_of_no_terminator (s : Str)
    (h : ∀ c ∈ s, isTerminator c = false) : sentenceAt s = none := by
  have hb : s.takeWhile (fun c => !isTerminator c) = s :=
    takeWhile_eq_self_of_forall s (fun c hc => by simp [h c hc])
  unfold sentenceAt
  simp [hb]

theorem matchAllFrom_ne_nil (matchAt : Str → Option Nat)
    (hpos : ∀ s n, matchAt s = some n → 0 < n) :
    ∀ (s : Str) (skip : Nat), ∀ m ∈ matchAllFrom matchAt s skip, m ≠ []
  | [], _, m, hm => by simp [matchAllFrom] at hm
  | _ :: rest, skip + 1, m, hm => by
    rw [matchAllFrom] at hm
    exact matchAllFrom_ne_nil matchAt hpos rest skip m hm
  | c :: rest, 0, m, hm => by
    rw [matchAllFrom] at hm
    split at hm
    · rename_i n hn
      have hn0 := hpos _ _ hn
      rcases List.mem_cons.mp hm with h | h
      · subst h
        obtain ⟨k, rfl⟩ : ∃ k, n = k + 1 := ⟨n - 1, by omega⟩
        simp
      · exact matchAllFrom_ne_nil matchAt hpos rest _ m h
    · exact matchAllFrom_ne_nil matchAt hpos rest 0 m hm

theorem sentencesOf_ne_nil (text : Str) : ∀ s ∈ sentencesOf text, s ≠ [] :=
  matchAllFrom_ne_nil sentenceAt (fun _ _ h => sentenceAt_pos h) text 0

theorem matchAllFrom_sentenceAt_nil :
    ∀ (s : Str) (skip : Nat), (∀ c ∈ s, isTerminator c = false) →
      matchAllFrom sentenceAt s skip = []
  | [], _, _ => by simp [matchAllFrom]
  | _ :: rest, skip + 1, h => by
    rw [matchAllFrom]
    exact matchAllFrom_sentenceAt_nil rest skip (fun d hd => h d (List.mem_cons_of_mem _ hd))
  | c :: rest, 0, h => by
    rw [matchAllFrom, sentenceAt_none_of_no_terminator _ h]
    exact matchAllFrom_sentenceAt_nil rest 0 (fun d hd => h d (List.mem_cons_of_mem _ hd))

/-! ## Lemmas on the chunk loop -/

theorem flatten_eq_nil_of_ne_nil {run : List Str} (h : ∀ s ∈ run, s ≠ []) :
    run.flatten = [] ↔ run = [] := by
  cases run with
  | nil => simp
  | cons a l =>
    have := h a (List.mem_cons_self _ _)
    simp [this]

theorem chunkLoop_eq_map_chunkRuns :
    ∀ (sentences run : List Str), (∀ s ∈ sentences, s ≠ []) → (∀ s ∈ run, s ≠ []) →
      chunkLoop sentences run.flatten
        = (chunkRuns sentences run).map (fun r => trim r.flatten)
  | [], run, _, hr => by
    have := flatten_eq_nil_of_ne_nil hr
    by_cases h : run = []
    · subst h; simp [chunkLoop, chunkRuns]
    · have h2 : run.flatten ≠ [] := fun e => h (this.mp e)
      simp [chunkLoop, chunkRuns, h, h2]
  | sentence :: rest, run, hs, hr => by
    have hrest : ∀ s ∈ rest, s ≠ [] := fun s m => hs s (List.mem_cons_of_mem _ m)
    have hsent : sentence ≠ [] := hs sentence (List.mem_cons_self _ _)
    rw [chunkLoop, chunkRuns]
    by_cases h : (run.flatten ++ sentence).length ≤ CHUNK_SIZE
    · rw [if_pos h, if_pos h]
      have := chunkLoop_eq_map_chunkRuns rest (run ++ [sentence]) hrest (by
        intro s m
        rcases List.mem_append.mp m with m | m
        · exact hr s m
        · rw [List.mem_singleton.mp m]; exact hsent)
      simpa using this
    · rw [if_neg h, if_neg h]
      have := chunkLoop_eq_map_chunkRuns rest [sentence] hrest (by
        intro s m
        rw [List.mem_singleton.mp m]; exact hsent)
      simp only [List.flatten_cons, List.flatten_nil, List.append_nil] at this
      simp [this]

theorem flatten_chunkRuns :
    ∀ (sentences run : List Str), (chunkRuns sentences run).flatten = run ++ sentences
  | [], run => by
    by_cases h : run = []
    · subst h; simp [chunkRuns]
    · simp [chunkRuns, h]
  | sentence :: rest, run => by
    rw [chunkRuns]
    split
    · rw [flatten_chunkRuns rest (run ++ [sentence])]; simp
    · rw [List.flatten_cons, flatten_chunkRuns rest [sentence]]; simp

theorem runBounded_singleton (s : Str) : RunBounded [s] := by
  by_cases h : s.length ≤ CHUNK_SIZE
  · exact Or.inl (by simpa using h)
  · exact Or.inr ⟨s, rfl, by omega⟩

theorem chunkRuns_bounded :
    ∀ (sentences run : List Str), RunBounded run →
      ∀ r ∈ chunkRuns sentences run, RunBounded r
  | [], run, hb, r, hr => by
    by_cases h : run = []
    · subst h; simp [chunkRuns] at hr
    · simp [chunkRuns, h] at hr
      subst hr; exact hb
  | sentence :: rest, run, hb, r, hr => by
    rw [chunkRuns] at hr
    split at hr
    · rename_i hle
      exact chunkRuns_bounded rest (run ++ [sentence]) (Or.inl (by simpa using hle)) r hr
    · rcases List.mem_cons.mp hr with h | h
      · subst h; exact hb
      · exact chunkRuns_bounded rest [sentence] (runBounded_singleton sentence) r h

theorem chunkRuns_ne_nil :
    ∀ (sentences run : List Str), run ≠ [] → ∀ r ∈ chunkRuns sentences run, r ≠ []
  | [], run, hne, r, hr => by
    simp [chunkRuns, hne] at hr
    subst hr; exact hne
  | sentence :: rest, run, hne, r, hr => by
    rw [chunkRuns] at hr
    split at hr
    · exact chunkRuns_ne_nil rest (run ++ [sentence]) (by simp) r hr
    · rcases List.mem_cons.mp hr with h | h
      · subst h; exact hne
      · exact chunkRuns_ne_nil rest [sentence] (by simp) r h

theorem chunkRuns_nil_tail_ne_nil (sentences : List Str) :
    ∀ r ∈ (chunkRuns sentences []).tail, r ≠ [] := by
  cases sentences with
  | nil => simp [chunkRuns]
  | cons sentence rest =>
    intro r hr
    rw [chunkRuns] at hr
    split at hr
    · exact chunkRuns_ne_nil rest _ (by simp) r (List.mem_of_mem_tail hr)
    · exact chunkRuns_ne_nil rest [sentence] (by simp) r (by simpa using hr)

theorem chunkContent_eq_runs {content text : Str} (h : atob content = some text) :
    chunkContent content
      = some ((chunkRuns (sentencesOf text) []).map (fun run => trim run.flatten)) := by
  have := chunkLoop_eq_map_chunkRuns (sentencesOf text) [] (sentencesOf_ne_nil text)
    (by simp)
  simp only [List.flatten_nil] at this
  simp [chunkContent, h, this]

/-! ## Chunker properties -/

/-- C1. Every chunk of `chunkContent` is the trimmed concatenation of a run of
consecutive sentences of the decoded text; a run of two or more sentences has at
most 2000 characters, and every chunk either has at most 2000 characters or is
(the trimmed form of) exactly one sentence that is itself longer than 2000. -/
theorem chunkContent_chunk_size (content text : Str) (h : atob content = some text) :
    ∃ runs : List (List Str),
      runs.flatten = sentencesOf text ∧
      chunkContent content = some (runs.map (fun run => trim run.flatten)) ∧
      (∀ run ∈ runs, 2 ≤ run.length → run.flatten.length ≤ CHUNK_SIZE) ∧
      (∀ run ∈ runs, run.flatten.length ≤ CHUNK_SIZE ∨
        ∃ s ∈ sentencesOf text, run = [s] ∧ CHUNK_SIZE < s.length) ∧
      (∀ chunks, chunkContent content = some chunks → ∀ chunk ∈ chunks,
        chunk.length ≤ CHUNK_SIZE ∨
          ∃ s ∈ sentencesOf text, chunk = trim s ∧ CHUNK_SIZE < s.length) := by
  have hfl : (chunkRuns (sentencesOf text) []).flatten = sentencesOf text := by
    simpa using flatten_chunkRuns (sentencesOf text) []
  have hb : ∀ run ∈ chunkRuns (sentencesOf text) [], run.flatten.length ≤ CHUNK_SIZE ∨
      ∃ s ∈ sentencesOf text, run = [s] ∧ CHUNK_SIZE < s.length := by
    intro run hrun
    rcases chunkRuns_bounded (sentencesOf text) [] (Or.inl (by simp)) run hrun with hle | ⟨s, rfl, hs⟩
    · exact Or.inl hle
    · refine Or.inr ⟨s, ?_, rfl, hs⟩
      rw [← hfl]
      exact List.mem_flatten.mpr ⟨[s], hrun, List.mem_singleton_self s⟩
  refine ⟨chunkRuns (sentencesOf text) [], hfl, chunkContent_eq_runs h, ?_, hb, ?_⟩
  · intro run hrun h2
    rcases hb run hrun with hle | ⟨s, _, rfl, _⟩
    · exact hle
    · simp at h2
  · intro chunks hchunks chunk hchunk
    rw [chunkContent_eq_runs h] at hchunks
    obtain rfl := Option.some.inj hchunks
    obtain ⟨run, hrun, rfl⟩ := List.mem_map.mp hchunk
    rcases hb run hrun with hle | ⟨s, hs, rfl, hlen⟩
    · exact Or.inl (le_trans (length_trim_le _) hle)
    · exact Or.inr ⟨s, hs, by simp, hlen⟩

/-- Witness for C1 at the base64 form of the text "Hi. There.". -/
theorem chunkContent_chunk_size_witness :
    atob "SGkuIFRoZXJlLg==".toList = some "Hi. There.".toList ∧
    ∃ runs : List (List Str),
      runs.flatten = sentencesOf "Hi. There.".toList ∧
      chunkContent "SGkuIFRoZXJlLg==".toList = some (runs.map (fun run => trim run.flatten)) ∧
      (∀ run ∈ runs, 2 ≤ run.length → run.flatten.length ≤ CHUNK_SIZE) ∧
      (∀ run ∈ runs, run.flatten.length ≤ CHUNK_SIZE ∨
        ∃ s ∈ sentencesOf "Hi. There.".toList, run = [s] ∧ CHUNK_SIZE < s.length) ∧
      (∀ chunks, chunkContent "SGkuIFRoZXJlLg==".toList = some chunks → ∀ chunk ∈ chunks,
        chunk.length ≤ CHUNK_SIZE ∨
          ∃ s ∈ sentencesOf "Hi. There.".toList, chunk = trim s ∧ CHUNK_SIZE < s.length) :=
  ⟨by decide, chunkContent_chunk_size _ _ (by decide)⟩

/-- C2. The chunks of `chunkContent` are, in order, the trimmed concatenations
of consecutive runs of the sentences of the decoded text: concatenating the runs
gives back the sentence list (same order, every sentence once, none split), and
no run after the first is empty. -/
theorem chunkContent_runs_partition (content text : Str) (h : atob content = some text) :
    ∃ runs : List (List Str),
      runs.flatten = sentencesOf text ∧
      chunkContent content = some (runs.map (fun run => trim run.flatten)) ∧
      (∀ run ∈ runs.tail, run ≠ []) :=
  ⟨chunkRuns (sentencesOf text) [], by simpa using flatten_chunkRuns (sentencesOf text) [],
    chunkContent_eq_runs h, chunkRuns_nil_tail_ne_nil _⟩

/-- Witness for C2 at the base64 form of the text "Hi. There.". -/
theorem chunkContent_runs_partition_witness :
    atob "SGkuIFRoZXJlLg==".toList = some "Hi. There.".toList ∧
    ∃ runs : List (List Str),
      runs.flatten = sentencesOf "Hi. There.".toList ∧
      chunkContent "SGkuIFRoZXJlLg==".toList = some (runs.map (fun run => trim run.flatten)) ∧
      (∀ run ∈ runs.tail, run ≠ []) :=
  ⟨by decide, chunkContent_runs_partition _ _ (by decide)⟩

/-- C3. When the decoded text contains none of `.`, `!`, `?` (in particular when
it is empty), `chunkContent` returns the empty sequence. -/
theorem chunkContent_no_terminator (content text : Str) (h : atob content = some text)
    (hno : ∀ c ∈ text, c ≠ '.' ∧ c ≠ '!' ∧ c ≠ '?') :
    chunkContent content = some [] := by
  have hs : sentencesOf text = [] :=
    matchAllFrom_sentenceAt_nil text 0 (fun c hc => by
      obtain ⟨h1, h2, h3⟩ := hno c hc
      simp [isTerminator, h1, h2, h3])
  simp [chunkContent, h, hs, chunkLoop]

/-- Witness for C3 at the base64 form of the text "Hi there" and at the empty
argument, which decodes to the empty text. -/
theorem chunkContent_no_terminator_witness :
    (atob "SGkgdGhlcmU=".toList = some "Hi there".toList ∧
      chunkContent "SGkgdGhlcmU=".toList = some []) ∧
    (atob [] = some [] ∧ chunkContent [] = some []) :=
  ⟨⟨by decide, chunkContent_no_terminator "SGkgdGhlcmU=".toList "Hi there".toList
      (by decide) (by decide)⟩,
    ⟨by decide, chunkContent_no_terminator [] [] (by decide) (by simp)⟩⟩

/-! ## Lemmas on `split` -/

theorem splitFrom_ne_nil (matchAt : Str → Option Nat) :
    ∀ (s : Str) (skip : Nat) (cur : Str), splitFrom matchAt s skip cur ≠ []
  | [], _, _ => by simp [splitFrom]
  | _ :: rest, skip + 1, cur => by
    rw [splitFrom]; exact splitFrom_ne_nil matchAt rest skip cur
  | c :: rest, 0, cur => by
    rw [splitFrom]
    split
    · simp
    · exact splitFrom_ne_nil matchAt rest 0 (c :: cur)

theorem splitFrom_drop (matchAt : Str → Option Nat) :
    ∀ (s : Str) (skip : Nat) (cur : Str), skip ≤ s.length →
      splitFrom matchAt s skip cur = splitFrom matchAt (s.drop skip) 0 cur
  | s, 0, cur, _ => by simp
  | [], skip + 1, cur, h => by simp at h
  | _ :: rest, skip + 1, cur, h => by
    rw [splitFrom, List.drop_succ_cons]
    exact splitFrom_drop matchAt rest skip cur (by simpa using h)

theorem splitFrom_literal (sep : Str) (hsep : sep ≠ []) :
    ∀ (s cur : Str), splitFrom (literalAt sep) s 0 cur
      = (cur.reverse ++ beforeFirst sep s) ::
          (match afterFirst sep s with
            | none => []
            | some t => splitFrom (literalAt sep) t 0 [])
  | [], cur => by simp [splitFrom, beforeFirst, afterFirst]
  | c :: rest, cur => by
    by_cases h : sep.isPrefixOf (c :: rest) = true
    · have hlen : sep.length ≤ (c :: rest).length :=
        (List.isPrefixOf_iff_prefix.mp h).length_le
      rw [splitFrom]
      simp only [literalAt, h, if_true, beforeFirst, afterFirst, List.append_nil]
      have h0 : 0 < sep.length := List.length_pos.mpr hsep
      rw [splitFrom_drop _ rest (sep.length - 1) [] (by simp at hlen; omega)]
      obtain ⟨k, hk⟩ : ∃ k, sep.length = k + 1 := ⟨sep.length - 1, by omega⟩
      simp [hk]
    · rw [splitFrom]
      simp only [literalAt, h, beforeFirst, afterFirst]
      rw [splitFrom_literal sep hsep rest (c :: cur)]
      simp

theorem splitOnStr_eq (sep s : Str) (hsep : sep ≠ []) :
    splitOnStr sep s = beforeFirst sep s ::
      (match afterFirst sep s with
        | none => []
        | some t => splitOnStr sep t) := by
  unfold splitOnStr
  rw [splitFrom_literal sep hsep]
  simp

theorem isPrefixOf_append_self (sep post : Str) : sep.isPrefixOf (sep ++ post) = true :=
  List.isPrefixOf_iff_prefix.mpr (List.prefix_append sep post)

theorem occurrences_cons (sep : Str) (c : Char) (rest : Str) :
    occurrences sep (c :: rest)
      = (if sep.isPrefixOf (c :: rest) then 1 else 0) + occurrences sep rest := rfl

theorem occurrences_le_append (sep : Str) :
    ∀ xs s : Str, occurrences sep s ≤ occurrences sep (xs ++ s)
  | [], _ => by simp
  | x :: xs, s => by
    have := occurrences_le_append sep xs s
    rw [List.cons_append, occurrences_cons]
    omega

theorem occurrences_self_append_pos (sep post : Str) (hsep : sep ≠ []) :
    0 < occurrences sep (sep ++ post) := by
  obtain ⟨d, sep2, rfl⟩ := List.exists_cons_of_ne_nil hsep
  have hp := isPrefixOf_append_self (d :: sep2) post
  rw [List.cons_append] at hp ⊢
  rw [occurrences_cons, if_pos hp]
  omega

theorem before_after_of_occurrences_zero (sep : Str) :
    ∀ s : Str, occurrences sep s = 0 → beforeFirst sep s = s ∧ afterFirst sep s = none
  | [], _ => by simp [beforeFirst, afterFirst]
  | c :: rest, h => by
    rw [occurrences_cons] at h
    have h1 : ¬ sep.isPrefixOf (c :: rest) = true := by
      intro hp; rw [if_pos hp] at h; omega
    have := before_after_of_occurrences_zero sep rest (by omega)
    simp [beforeFirst, afterFirst, h1, this]

theorem before_after_of_occurrences_one (sep post : Str) (hsep : sep ≠ []) :
    ∀ pre : Str, occurrences sep (pre ++ (sep ++ post)) = 1 →
      beforeFirst sep (pre ++ (sep ++ post)) = pre ∧
        afterFirst sep (pre ++ (sep ++ post)) = some post ∧ occurrences sep post = 0
  | [], h => by
    obtain ⟨d, sep2, rfl⟩ := List.exists_cons_of_ne_nil hsep
    have hp := isPrefixOf_append_self (d :: sep2) post
    have hle := occurrences_le_append (d :: sep2) sep2 post
    rw [List.nil_append, List.cons_append] at h ⊢
    rw [List.cons_append] at hp
    rw [occurrences_cons, if_pos hp] at h
    simp only [beforeFirst, afterFirst, hp, if_true, true_and]
    refine ⟨by simp, by omega⟩
  | c :: pre, h => by
    have hge : 0 < occurrences sep (pre ++ (sep ++ post)) := by
      have h1 := occurrences_self_append_pos sep post hsep
      have h2 := occurrences_le_append sep pre (sep ++ post)
      omega
    rw [List.cons_append, occurrences_cons] at h
    have h1 : ¬ sep.isPrefixOf (c :: (pre ++ (sep ++ post))) = true := by
      intro hp
      rw [if_pos hp] at h
      omega
    rw [if_neg h1] at h
    have ih := before_after_of_occurrences_one sep post hsep pre (by omega)
    rw [List.cons_append]
    simp [beforeFirst, afterFirst, h1, ih]

/-- A text that contains `sep` exactly once, namely right after `pre`, is split
into the text before and the text after that occurrence. -/
theorem splitOnStr_of_occurrences_one (sep pre post : Str) (hsep : sep ≠ [])
    (h : occurrences sep (pre ++ sep ++ post) = 1) :
    splitOnStr sep (pre ++ sep ++ post) = [pre, post] := by
  rw [List.append_assoc] at h ⊢
  obtain ⟨h1, h2, h3⟩ := before_after_of_occurrences_one sep post hsep pre h
  have hnone := before_after_of_occurrences_zero sep post h3
  rw [splitOnStr_eq _ _ hsep, h1, h2]
  simp only
  rw [splitOnStr_eq _ _ hsep, hnone.1, hnone.2]

/-! ## Lemmas on the `Correct:` pattern -/

theorem correctAt_eq_some_iff (s : Str) (letter : Char) :
    correctAt s = some letter ↔ CorrectMatch s [] letter := by
  unfold correctAt CorrectMatch
  constructor
  · intro h
    split at h
    · rename_i hp
      obtain ⟨t, ht⟩ := List.isPrefixOf_iff_prefix.mp hp
      subst ht
      rw [List.drop_left] at h
      cases t with
      | nil => exact absurd h (by simp)
      | cons c tl =>
        simp only at h
        split at h
        · rename_i hc
          obtain rfl := Option.some.inj h
          exact ⟨hc, tl, by simp⟩
        · exact absurd h (by simp)
    · exact absurd h (by simp)
  · rintro ⟨hl, post, rfl⟩
    have hp := isPrefixOf_append_self "Correct: ".toList (letter :: post)
    simp only [List.nil_append]
    rw [if_pos hp, List.drop_left]
    simp [hl]

theorem correctMatch_nil (pre : Str) (letter : Char) : ¬ CorrectMatch [] pre letter := by
  rintro ⟨_, post, h⟩
  have := congrArg List.length h
  simp at this
  omega

theorem correctMatch_cons_cons (c d : Char) (rest pre : Str) (letter : Char) :
    CorrectMatch (c :: rest) (d :: pre) letter → CorrectMatch rest pre letter := by
  rintro ⟨hl, post, h⟩
  refine ⟨hl, post, ?_⟩
  simp only [List.cons_append, List.cons.injEq] at h
  exact h.2

theorem matchCorrect_spec :
    ∀ line : Str,
      match matchCorrect line with
      | none => ∀ pre letter, ¬ CorrectMatch line pre letter
      | some letter =>
        ∃ pre, CorrectMatch line pre letter ∧
          ∀ pre2 letter2, CorrectMatch line pre2 letter2 → pre.length ≤ pre2.length
  | [] => by
    simp only [matchCorrect]
    exact fun pre letter => correctMatch_nil pre letter
  | c :: rest => by
    have ih := matchCorrect_spec rest
    rw [matchCorrect]
    cases hat : correctAt (c :: rest) with
    | some letter =>
      simp only
      exact ⟨[], (correctAt_eq_some_iff _ _).mp hat, fun _ _ _ => Nat.zero_le _⟩
    | none =>
      simp only
      have hnot : ∀ letter, ¬ CorrectMatch (c :: rest) [] letter := fun letter hm => by
        rw [(correctAt_eq_some_iff _ _).mpr hm] at hat
        exact absurd hat (by simp)
      cases hrest : matchCorrect rest with
      | none =>
        rw [hrest] at ih
        simp only at ih ⊢
        intro pre letter hm
        cases pre with
        | nil => exact hnot letter hm
        | cons d pre => exact ih pre letter (correctMatch_cons_cons _ _ _ _ _ hm)
      | some letter =>
        rw [hrest] at ih
        simp only at ih ⊢
        obtain ⟨pre, ⟨hl, post, hpost⟩, hmin⟩ := ih
        refine ⟨c :: pre, ⟨hl, post, by simp [hpost]⟩, ?_⟩
        intro pre2 letter2 hm
        cases pre2 with
        | nil => exact absurd hm (hnot letter2)
        | cons d pre2 =>
          have := hmin pre2 letter2 (correctMatch_cons_cons _ _ _ _ _ hm)
          simpa using this

/-! ## Response parser properties -/

/-- C4 (the code at the reply of the specification). For the reply
"1. Q?\nA) x\nB) y\nC) z\nD) w\nCorrect: B" and type `multiple`, `parseResponse`
returns one record with question "Q?" and correct letter "B", but its options
are the four lines as they stand, markers included: "A) x", "B) y", "C) z",
"D) w", not "x", "y", "z", "w". -/
theorem parseResponse_multiple_keeps_option_markers :
    parseResponse "1. Q?\nA) x\nB) y\nC) z\nD) w\nCorrect: B".toList "multiple".toList
      = .ok (.array [⟨"Q?".toList,
          some ["A) x".toList, "B) y".toList, "C) z".toList, "D) w".toList],
          some "B".toList, none, none⟩]) ∧
    parseResponse "1. Q?\nA) x\nB) y\nC) z\nD) w\nCorrect: B".toList "multiple".toList
      ≠ .ok (.array [⟨"Q?".toList,
          some ["x".toList, "y".toList, "z".toList, "w".toList],
          some "B".toList, none, none⟩]) := by
  decide

/-- C5. For the reply "1. Q?\nAnswer: 42" and type `short`, `parseResponse`
returns exactly the record with question "Q?" and expected answer "42"; for every
reply it returns one record per block, and for a block that contains `Answer:`
exactly once the question is the trimmed text before `Answer:` and the expected
answer is the trimmed text after it. -/
theorem parseResponse_short_answer :
    parseResponse "1. Q?\nAnswer: 42".toList "short".toList
      = .ok (.array [⟨"Q?".toList, none, none, some "42".toList, none⟩]) ∧
    (∀ reply : Str, parseResponse reply "short".toList
      = .ok (.array ((blocksOf reply).map parseShortBlock))) ∧
    (∀ pre post : Str,
      occurrences "Answer:".toList (pre ++ "Answer:".toList ++ post) = 1 →
      parseShortBlock (pre ++ "Answer:".toList ++ post)
        = ⟨trim pre, none, none, some (trim post), none⟩) := by
  refine ⟨by decide, fun reply => by simp [parseResponse], ?_⟩
  intro pre post h
  unfold parseShortBlock
  rw [splitOnStr_of_occurrences_one _ _ _ (by decide) h]
  rfl

/-- Witness for C5 at the block " Q?\nAnswer: 42" of the reply "1. Q?\nAnswer: 42". -/
theorem parseResponse_short_answer_witness :
    blocksOf "1. Q?\nAnswer: 42".toList = [" Q?\n".toList ++ "Answer:".toList ++ " 42".toList] ∧
    occurrences "Answer:".toList (" Q?\n".toList ++ "Answer:".toList ++ " 42".toList) = 1 ∧
    parseShortBlock (" Q?\n".toList ++ "Answer:".toList ++ " 42".toList)
      = ⟨trim " Q?\n".toList, none, none, some (trim " 42".toList), none⟩ :=
  ⟨by decide, by decide,
    parseResponse_short_answer.2.2 " Q?\n".toList " 42".toList (by decide)⟩

/-- C6 (the code at a failing reply). A digits-dot occurrence inside the
question text splits the block: for the reply "1. What is 3.5?" followed by four
option lines and "Correct: A", which has one leading question marker,
`parseResponse` returns two records for type `multiple`, the first with question
"What is" and no options, the second with question "5?"; types `short` and
`long` return two records as well. -/
theorem parseResponse_splits_inside_text :
    parseResponse "1. What is 3.5?\nA) a\nB) b\nC) c\nD) d\nCorrect: A".toList
        "multiple".toList
      = .ok (.array [⟨"What is".toList, some [], some [], none, none⟩,
          ⟨"5?".toList, some ["A) a".toList, "B) b".toList, "C) c".toList, "D) d".toList],
            some "A".toList, none, none⟩]) ∧
    parseResponse "1. What is 3.5?\nAnswer: 3.5".toList "short".toList
      = .ok (.array [⟨"What is".toList, none, none, none, none⟩,
          ⟨"5?".toList, none, none, some [], none⟩,
          ⟨"5".toList, none, none, none, none⟩]) ∧
    parseResponse "1. What is 3.5?\nKey Points:\nhalf of 7".toList "long".toList
      = .ok (.array [⟨"What is".toList, none, none, none, some []⟩,
          ⟨"5?".toList, none, none, none, some ["half of 7".toList]⟩]) := by
  decide

/-- C7. For every reply, `parseResponse` with type `multiple` throws nothing and
returns one record per block.  In the record of a block with lines
`question :: rest` (the lines of the trimmed block), `options` is the first four
lines of `rest` at most, all of `rest` when it is shorter; `correctAnswer` is the
empty string when `rest` has no fifth line or that line has no match of
`Correct: ([A-D])`, and otherwise the letter of the leftmost such match on that
line. -/
theorem parseResponse_multiple_records (reply : Str) :
    (∃ records, parseResponse reply "multiple".toList = .ok (.array records) ∧
      records = (blocksOf reply).map parseMultipleBlock ∧
      records.length = (blocksOf reply).length) ∧
    ∀ block : Str, ∃ question rest answer,
      splitLines (trim block) = question :: rest ∧
      parseMultipleBlock block = ⟨question, some (rest.take 4), some answer, none, none⟩ ∧
      (rest.take 4).length = min 4 rest.length ∧
      ((rest.get? 4 = none ∧ answer = []) ∨
        (∃ line, rest.get? 4 = some line ∧
          (∀ pre letter, ¬ CorrectMatch line pre letter) ∧ answer = []) ∨
        (∃ line pre letter, rest.get? 4 = some line ∧ CorrectMatch line pre letter ∧
          (∀ pre2 letter2, CorrectMatch line pre2 letter2 → pre.length ≤ pre2.length) ∧
          answer = [letter])) := by
  refine ⟨⟨_, by simp [parseResponse], rfl, by simp⟩, ?_⟩
  intro block
  unfold parseMultipleBlock
  cases hl : splitLines (trim block) with
  | nil => exact absurd hl (splitFrom_ne_nil _ _ _ _)
  | cons question rest =>
    refine ⟨question, rest, _, rfl, rfl, by simp, ?_⟩
    cases h4 : rest.get? 4 with
    | none => exact Or.inl ⟨rfl, by simp⟩
    | some line =>
      refine Or.inr ?_
      have hspec := matchCorrect_spec line
      cases hm : matchCorrect line with
      | none =>
        rw [hm] at hspec
        exact Or.inl ⟨line, rfl, hspec, by simp [hm]⟩
      | some letter =>
        rw [hm] at hspec
        obtain ⟨pre, hpre, hmin⟩ := hspec
        exact Or.inr ⟨line, pre, letter, rfl, hpre, hmin, by simp [hm]⟩

/-- C8 (counterexample). For the reply "1. Q\nKey Points:\na\nb" the only block
is " Q\nKey Points:\na\nb"; the text after `Key Points:` split on newlines and
trimmed piece by piece is "", "a", "b", but the record's key points are "a", "b":
the text is trimmed as a whole before it is split. -/
theorem parseResponse_long_keyPoints_not_as_stated :
    blocksOf "1. Q\nKey Points:\na\nb".toList = [" Q\nKey Points:\na\nb".toList] ∧
    keyPointsAsStated " Q\nKey Points:\na\nb".toList = [[], "a".toList, "b".toList] ∧
    parseResponse "1. Q\nKey Points:\na\nb".toList "long".toList
      = .ok (.array [⟨"Q".toList, none, none, none, some ["a".toList, "b".toList]⟩]) ∧
    parseResponse "1. Q\nKey Points:\na\nb".toList "long".toList
      ≠ .ok (.array [⟨"Q".toList, none, none, none,
          some (keyPointsAsStated " Q\nKey Points:\na\nb".toList)⟩]) := by
  decide

/-- C8 (amended). For every reply and type `long`, `parseResponse` returns one
record per block; the question of a record is the trimmed text of the block
before the first `Key Points:`; its key points are obtained from the text after
the first `Key Points:`, up to the next `Key Points:` if there is one, by
trimming that text, splitting it on newlines and trimming each piece; a block
without `Key Points:` gets the empty list. -/
theorem parseResponse_long_keyPoints (reply : Str) :
    parseResponse reply "long".toList = .ok (.array ((blocksOf reply).map parseLongBlock)) ∧
    ∀ block : Str,
      parseLongBlock block = ⟨trim (beforeFirst "Key Points:".toList block), none, none, none,
        some (match afterFirst "Key Points:".toList block with
          | none => []
          | some text =>
            (splitLines (trim (beforeFirst "Key Points:".toList text))).map trim)⟩ := by
  refine ⟨by simp [parseResponse], ?_⟩
  intro block
  unfold parseLongBlock
  rw [splitOnStr_eq _ _ (by decide)]
  cases afterFirst "Key Points:".toList block with
  | none => rfl
  | some text =>
    simp only
    rw [splitOnStr_eq _ _ (by decide)]
    rfl

/-- Types that are neither an own key of `parsers` nor a member of
`Object.prototype` give the empty array. -/
theorem parseResponse_unknown_type (response type : Str)
    (hown : type ∉ parsersOwnKeys) (hfun : type ∉ objectPrototypeFunctions)
    (hproto : type ≠ "__proto__".toList) :
    parseResponse response type = .ok (.array []) := by
  have h1 : type ≠ "multiple".toList := fun e => hown (by simp [parsersOwnKeys, e])
  have h2 : type ≠ "short".toList := fun e => hown (by simp [parsersOwnKeys, e])
  have h3 : type ≠ "long".toList := fun e => hown (by simp [parsersOwnKeys, e])
  have h4 : objectPrototypeFunctions.contains type = false := by
    simpa using hfun
  unfold parseResponse
  rw [if_neg h1, if_neg h2, if_neg h3, h4, if_neg (by simp), if_neg hproto]

/-- C9 (the code at failing types). For every reply, the type `__proto__`, which is
none of `multiple`, `short`, `long`, makes `parseResponse` throw a type error,
and the type `toString` makes it return the string "[object Object]" instead of
the empty sequence; a type such as `essay` does give the empty sequence. -/
theorem parseResponse_inherited_type (response : Str) :
    parseResponse response "__proto__".toList = .error .typeError ∧
    parseResponse response "toString".toList = .ok (.string "[object Object]".toList) ∧
    parseResponse response "essay".toList = .ok (.array []) := by
  refine ⟨?_, ?_, ?_⟩
  · unfold parseResponse
    rw [if_neg (by decide), if_neg (by decide), if_neg (by decide), if_neg (by decide),
      if_pos rfl]
  · unfold parseResponse
    rw [if_neg (by decide), if_neg (by decide), if_neg (by decide), if_pos (by decide)]
    unfold callInherited
    rw [if_neg (by decide), if_pos (by decide)]
  · exact parseResponse_unknown_type response _ (by decide) (by decide) (by decide)

/-! ## Scorer properties -/

theorem toLower_toUpper (c : Char) : c.toUpper.toLower = c.toLower := by
  by_cases h : 97 ≤ c.toNat ∧ c.toNat ≤ 122
  · have hc : c = Char.ofNat c.toNat := (Char.ofNat_toNat c).symm
    obtain ⟨h1, h2⟩ := h
    generalize c.toNat = n at hc h1 h2
    subst hc
    interval_cases n <;> rfl
  · have : c.toUpper = c := by
      unfold Char.toUpper
      simp only [ge_iff_le]
      rw [if_neg h]
    rw [this]

theorem toUpper_toLower (c : Char) : c.toLower.toUpper = c.toUpper := by
  by_cases h : 65 ≤ c.toNat ∧ c.toNat ≤ 90
  · have hc : c = Char.ofNat c.toNat := (Char.ofNat_toNat c).symm
    obtain ⟨h1, h2⟩ := h
    generalize c.toNat = n at hc h1 h2
    subst hc
    interval_cases n <;> rfl
  · have : c.toLower = c := by
      unfold Char.toLower
      simp only [ge_iff_le]
      rw [if_neg h]
    rw [this]

theorem toUpperCase_eq_iff (a b : Str) : toUpperCase a = toUpperCase b ↔ EqIgnoreCase a b := by
  unfold toUpperCase EqIgnoreCase
  constructor
  · intro h
    have := congrArg (List.map Char.toLower) h
    simpa [List.map_map, Function.comp_def, toLower_toUpper] using this
  · intro h
    have := congrArg (List.map Char.toUpper) h
    simpa [List.map_map, Function.comp_def, toUpper_toLower] using this

theorem orElse_map_toUpperCase (a : Option Str) :
    orElse (a.map toUpperCase) [] = toUpperCase (a.getD []) := by
  cases a with
  | none => rfl
  | some s => cases s <;> simp [orElse, toUpperCase]

theorem scoreLoop_getElem (questionType : Str) (answers : Nat → Option Str) :
    ∀ (questions : List Question) (index correctCount i : Nat),
      (scoreLoop questionType answers questions index correctCount).1.get? i
        = (questions.get? i).map (fun q => scoreQuestion questionType q (answers (index + i)))
  | [], _, _, _ => by simp [scoreLoop]
  | q :: rest, index, correctCount, 0 => by simp [scoreLoop]
  | q :: rest, index, correctCount, i + 1 => by
    simp only [scoreLoop, List.get?_cons_succ]
    rw [scoreLoop_getElem questionType answers rest (index + 1) _ i]
    have : index + 1 + i = index + (i + 1) := by omega
    rw [this]

/-- C10. For quiz type `multiple`, with an answer and a correct letter made of
ASCII characters (the parser gives the letters A to D; the answer is the empty
string when there is none), the entry of `calculateScore` for a question is
correct, with score 1, exactly when the answer and the correct letter are equal
ignoring letter case, and has score 0 otherwise; the answer "b" against the
correct letter "B" scores 1 and the answer "c" against "B" scores 0. -/
theorem calculateScore_multiple_ignores_case :
    (∀ (questions : List Question) (answers : Nat → Option Str) (i : Nat) (q : Question),
      questions.get? i = some q →
      (∀ c ∈ (answers i).getD [], c.toNat < 128) →
      (∀ c ∈ q.correctAnswer.getD [], c.toNat < 128) →
      ∃ r, (calculateScore "multiple".toList questions answers).questions.get? i = some r ∧
        (r.isCorrect = true ↔ EqIgnoreCase ((answers i).getD []) (q.correctAnswer.getD [])) ∧
        (r.score = 1 ↔ EqIgnoreCase ((answers i).getD []) (q.correctAnswer.getD [])) ∧
        (r.score = 0 ↔ ¬ EqIgnoreCase ((answers i).getD []) (q.correctAnswer.getD []))) ∧
    (calculateScore "multiple".toList [⟨"Q?".toList, some [], some "B".toList, none, none⟩]
        (fun _ => some "b".toList)).questions
      = [⟨"Q?".toList, "b".toList, "B".toList, true, 1⟩] ∧
    (calculateScore "multiple".toList [⟨"Q?".toList, some [], some "B".toList, none, none⟩]
        (fun _ => some "c".toList)).questions
      = [⟨"Q?".toList, "c".toList, "B".toList, false, 0⟩] := by
  refine ⟨?_, by decide, by decide⟩
  intro questions answers i q hq _ _
  refine ⟨scoreQuestion "multiple".toList q (answers i), ?_, ?_⟩
  · simp only [calculateScore]
    rw [scoreLoop_getElem, hq]
    simp
  · have hiff := toUpperCase_eq_iff ((answers i).getD []) (q.correctAnswer.getD [])
    simp only [scoreQuestion, if_true, orElse_map_toUpperCase]
    by_cases h : toUpperCase ((answers i).getD []) = toUpperCase (q.correctAnswer.getD [])
    · have he := hiff.mp h
      simp [h, he]
    · have he : ¬ EqIgnoreCase ((answers i).getD []) (q.correctAnswer.getD []) :=
        fun e => h (hiff.mpr e)
      simp [h, he]

/-- Witness for C10 at a one-question quiz with correct letter "B" and answer "b". -/
theorem calculateScore_multiple_ignores_case_witness :
    (∀ c ∈ (some "b".toList).getD [], c.toNat < 128) ∧
    (∀ c ∈ (some "B".toList).getD [], c.toNat < 128) ∧
    ∃ r, (calculateScore "multiple".toList
        [⟨"Q?".toList, some [], some "B".toList, none, none⟩]
        (fun _ => some "b".toList)).questions.get? 0 = some r ∧
      (r.isCorrect = true ↔ EqIgnoreCase ((some "b".toList).getD []) ((some "B".toList).getD [])) ∧
      (r.score = 1 ↔ EqIgnoreCase ((some "b".toList).getD []) ((some "B".toList).getD [])) ∧
      (r.score = 0 ↔ ¬ EqIgnoreCase ((some "b".toList).getD []) ((some "B".toList).getD [])) :=
  ⟨by decide, by decide,
    calculateScore_multiple_ignores_case.1
      [⟨"Q?".toList, some [], some "B".toList, none, none⟩] (fun _ => some "b".toList) 0
      ⟨"Q?".toList, some [], some "B".toList, none, none⟩ rfl (by decide) (by decide)⟩

theorem scoreLoop_fst_length (questionType : Str) (answers : Nat → Option Str) :
    ∀ (questions : List Question) (index correctCount : Nat),
      (scoreLoop questionType answers questions index correctCount).1.length = questions.length
  | [], _, _ => rfl
  | q :: rest, index, correctCount => by
    simp only [scoreLoop, List.length_cons]
    rw [scoreLoop_fst_length questionType answers rest]

theorem scoreLoop_snd (questionType : Str) (answers : Nat → Option Str) :
    ∀ (questions : List Question) (index correctCount : Nat),
      (scoreLoop questionType answers questions index correctCount).2
        = correctCount
          + (scoreLoop questionType answers questions index correctCount).1.countP
              (fun e => e.isCorrect)
  | [], _, _ => by simp [scoreLoop]
  | q :: rest, index, correctCount => by
    simp only [scoreLoop]
    rw [scoreLoop_snd questionType answers rest]
    cases h : (scoreQuestion questionType q (answers index)).isCorrect
    · simp [List.countP_cons, h]
    · simp [List.countP_cons, h]
      omega

theorem scoreLoop_mem (questionType : Str) (answers : Nat → Option Str) :
    ∀ (questions : List Question) (index correctCount : Nat),
      ∀ e ∈ (scoreLoop questionType answers questions index correctCount).1,
        ∃ q answer, e = scoreQuestion questionType q answer
  | [], _, _, e, he => by simp [scoreLoop] at he
  | q :: rest, index, correctCount, e, he => by
    simp only [scoreLoop, List.mem_cons] at he
    rcases he with h | h
    · exact ⟨q, answers index, h⟩
    · exact scoreLoop_mem questionType answers rest _ _ e h

theorem scoreQuestion_score (questionType : Str) (q : Question) (answer : Option Str) :
    ((scoreQuestion questionType q answer).score = 0 ∨
        (scoreQuestion questionType q answer).score = 1) ∧
      ((scoreQuestion questionType q answer).score = 1 ↔
        (scoreQuestion questionType q answer).isCorrect = true) := by
  unfold scoreQuestion
  by_cases h1 : questionType = "multiple".toList
  · simp only [h1, if_true]
    by_cases h : orElse (answer.map toUpperCase) [] = orElse (q.correctAnswer.map toUpperCase) []
    · simp [h]
    · simp [h]
  · by_cases h2 : questionType = "short".toList
    · simp [h1, h2]
    · by_cases h3 : questionType = "long".toList
      · simp [h1, h2, h3]
      · simp only [if_neg h1, if_neg h2, if_neg h3]
        simp

/-- C11 (counterexample). For an empty quiz, `calculateScore` of `App.jsx` and
`calculateScore` of the quiz page both return the percentage `NaN`, the value of
`(0 / 0) * 100`, and not 0. -/
theorem calculateScore_empty_percentage_nan :
    (calculateScore "multiple".toList [] (fun _ => none)).percentage = .nan ∧
    (calculateScore "multiple".toList [] (fun _ => none)).percentage ≠ .value 0 ∧
    (Quiz.calculateScore [] (fun _ => none)).percentage = .nan ∧
    (Quiz.calculateScore [] (fun _ => none)).percentage ≠ .value 0 := by
  refine ⟨rfl, ?_, rfl, ?_⟩
  · show JsNumber.nan ≠ JsNumber.value 0
    exact fun h => JsNumber.noConfusion h
  · show JsNumber.nan ≠ JsNumber.value 0
    exact fun h => JsNumber.noConfusion h

/-- C11 (amended). For a quiz without questions, `calculateScore` (of `App.jsx`
and of the quiz page) throws nothing and returns no entries, total score 0,
maximum score 0 and the percentage `NaN`: the quotient is not guarded.  The
quiz page renders its submit button only while there is at least one question
and disables it when there is none, so it does not score an empty quiz. -/
theorem calculateScore_empty (questionType : Str) (answers : Nat → Option Str) :
    (calculateScore questionType [] answers).questions = [] ∧
    (calculateScore questionType [] answers).totalScore = 0 ∧
    (calculateScore questionType [] answers).maxScore = 0 ∧
    (calculateScore questionType [] answers).percentage = .nan ∧
    (Quiz.calculateScore [] answers).questions = [] ∧
    (Quiz.calculateScore [] answers).totalScore = 0 ∧
    (Quiz.calculateScore [] answers).maxScore = 0 ∧
    (Quiz.calculateScore [] answers).percentage = .nan ∧
    (∀ showResults, Quiz.questionsShown 0 showResults = false) ∧
    (∀ loading fileSelected answerKeys,
      Quiz.submitDisabled loading fileSelected 0 answerKeys = true) := by
  refine ⟨rfl, rfl, rfl, rfl, rfl, rfl, rfl, rfl, fun _ => rfl, ?_⟩
  intro loading fileSelected answerKeys
  simp [Quiz.submitDisabled]

/-! ## Rounding to doubles -/

theorem roundTiesEven_near (x : ℚ) : |((roundTiesEven x : ℤ) : ℚ) - x| ≤ 1 / 2 := by
  have h1 := Int.floor_le x
  have h2 := Int.lt_floor_add_one x
  unfold roundTiesEven
  split_ifs with ha hb hc
  · rw [abs_le]; constructor <;> linarith
  · rw [abs_le]; push_cast; constructor <;> linarith
  · rw [abs_le]; constructor <;> linarith
  · rw [abs_le]; push_cast; constructor <;> linarith

theorem roundTiesEven_eq (x : ℚ) (n : ℤ) (h1 : (n : ℚ) - 1 / 2 < x) (h2 : x < (n : ℚ) + 1 / 2) :
    roundTiesEven x = n := by
  have hf1 := Int.floor_le x
  have hf2 := Int.lt_floor_add_one x
  by_cases hx : (n : ℚ) ≤ x
  · have hfl : ⌊x⌋ = n := by
      rw [Int.floor_eq_iff]; constructor <;> linarith
    unfold roundTiesEven
    rw [hfl, if_pos (by linarith)]
  · have hfl : ⌊x⌋ = n - 1 := by
      rw [Int.floor_eq_iff]; push_cast; constructor <;> linarith
    unfold roundTiesEven
    rw [hfl, if_neg (by push_cast; linarith), if_pos (by push_cast; linarith)]
    ring

theorem log_two_eq (r : ℚ) (k : ℤ) (h1 : (2 : ℚ) ^ k ≤ r) (h2 : r < (2 : ℚ) ^ (k + 1)) :
    Int.log 2 r = k := by
  have hr : 0 < r := lt_of_lt_of_le (by positivity) h1
  apply le_antisymm
  · have := (Int.lt_zpow_iff_log_lt (b := 2) (by norm_num) hr (x := k + 1)).mp
      (by simpa using h2)
    omega
  · exact (Int.zpow_le_iff_le_log (b := 2) (by norm_num) hr).mp (by simpa using h1)

theorem ulpExponent_eq (q : ℚ) (k : ℤ) (hk : -1022 ≤ k) (h1 : (2 : ℚ) ^ k ≤ |q|)
    (h2 : |q| < (2 : ℚ) ^ (k + 1)) : ulpExponent q = k - 52 := by
  unfold ulpExponent
  rw [log_two_eq |q| k h1 h2, max_eq_left hk]

theorem roundDouble_eq (q : ℚ) (e n : ℤ) (he : ulpExponent q = e)
    (h1 : ((n : ℚ) - 1 / 2) * 2 ^ e < q) (h2 : q < ((n : ℚ) + 1 / 2) * 2 ^ e)
    (hlo : -(2 : ℚ) ^ (1024 : ℕ) < (n : ℚ) * 2 ^ e) (hhi : (n : ℚ) * 2 ^ e < 2 ^ (1024 : ℕ)) :
    roundDouble q = .value ((n : ℚ) * 2 ^ e) := by
  have hpos : (0 : ℚ) < 2 ^ e := by positivity
  have hn : roundTiesEven (q / 2 ^ e) = n := by
    apply roundTiesEven_eq
    · rw [lt_div_iff₀ hpos]; exact h1
    · rw [div_lt_iff₀ hpos]; exact h2
  unfold roundDouble
  simp only [he, hn]
  rw [if_neg (not_le.mpr hhi), if_neg (not_le.mpr hlo)]

theorem roundDouble_zero : roundDouble 0 = .value 0 := by
  have he : ulpExponent 0 = -52 := by
    unfold ulpExponent
    have : Int.log 2 |(0 : ℚ)| = 0 := by simp [Int.log]
    rw [this]; norm_num
  have := roundDouble_eq 0 (-52) 0 he (by norm_num) (by norm_num)
    (by norm_num) (by norm_num)
  simpa using this


theorem roundDouble_rel (q : ℚ) (hlo : (2 : ℚ) ^ (-1022 : ℤ) ≤ q) (hhi : q ≤ 2 ^ (1023 : ℕ)) :
    ∃ r, roundDouble q = .value r ∧ |r - q| ≤ q / 2 ^ (53 : ℕ) := by
  have hq : 0 < q := lt_of_lt_of_le (by positivity) hlo
  have habs : |q| = q := abs_of_pos hq
  have hk1 : (2 : ℚ) ^ Int.log 2 q ≤ q := by
    simpa using Int.zpow_log_le_self (b := 2) (by norm_num) hq
  have hk0 : -1022 ≤ Int.log 2 q :=
    (Int.zpow_le_iff_le_log (b := 2) (by norm_num) hq).mp (by simpa using hlo)
  have he : ulpExponent q = Int.log 2 q - 52 := by
    unfold ulpExponent
    rw [habs, max_eq_left hk0]
  have hpos : (0 : ℚ) < 2 ^ (Int.log 2 q - 52) := by positivity
  have hnear := roundTiesEven_near (q / 2 ^ (Int.log 2 q - 52))
  have hsplit : (2 : ℚ) ^ (Int.log 2 q - 52) = 2 ^ Int.log 2 q / 2 ^ (52 : ℕ) := by
    rw [zpow_sub₀ (by norm_num : (2 : ℚ) ≠ 0)]
    norm_num
  have hu : (2 : ℚ) ^ (Int.log 2 q - 52) ≤ q / 2 ^ (52 : ℕ) := by
    rw [hsplit]
    exact div_le_div_of_nonneg_right hk1 (by positivity)
  have herr : |(roundTiesEven (q / 2 ^ (Int.log 2 q - 52)) : ℚ) * 2 ^ (Int.log 2 q - 52) - q|
      ≤ q / 2 ^ (53 : ℕ) := by
    have h1 : (roundTiesEven (q / 2 ^ (Int.log 2 q - 52)) : ℚ) * 2 ^ (Int.log 2 q - 52) - q
        = ((roundTiesEven (q / 2 ^ (Int.log 2 q - 52)) : ℚ) - q / 2 ^ (Int.log 2 q - 52))
          * 2 ^ (Int.log 2 q - 52) := by
      field_simp
    rw [h1, abs_mul, abs_of_pos hpos]
    calc |(roundTiesEven (q / 2 ^ (Int.log 2 q - 52)) : ℚ) - q / 2 ^ (Int.log 2 q - 52)|
          * 2 ^ (Int.log 2 q - 52)
        ≤ 1 / 2 * (q / 2 ^ (52 : ℕ)) := mul_le_mul hnear hu hpos.le (by norm_num)
      _ = q / 2 ^ (53 : ℕ) := by ring
  refine ⟨(roundTiesEven (q / 2 ^ (Int.log 2 q - 52)) : ℚ) * 2 ^ (Int.log 2 q - 52), ?_, herr⟩
  have hb := abs_le.mp herr
  have hsmall : q / 2 ^ (53 : ℕ) ≤ q := div_le_self hq.le (by norm_num)
  have hbig : q + q / 2 ^ (53 : ℕ) < 2 ^ (1024 : ℕ) := by
    have : q / 2 ^ (53 : ℕ) ≤ 2 ^ (1023 : ℕ) := le_trans hsmall hhi
    have h2 : (2 : ℚ) ^ (1024 : ℕ) = 2 ^ (1023 : ℕ) + 2 ^ (1023 : ℕ) := by ring
    have hlt : q / 2 ^ (53 : ℕ) < q := div_lt_self hq (by norm_num)
    linarith
  unfold roundDouble
  simp only [he]
  rw [if_neg (not_le.mpr (by linarith [hb.2])), if_neg (not_le.mpr (by
    have : (0 : ℚ) < 2 ^ (1024 : ℕ) := by positivity
    linarith [hb.1]))]

theorem jsTimes100_jsDiv_near (t m : Nat) (ht : t ≤ m) (hm0 : 0 < m) (hm : m < 2 ^ 32) :
    ∃ p, jsTimes100 (jsDiv t m) = .value p ∧
      |p - 100 * (t : ℚ) / (m : ℚ)| ≤ 100 * (t : ℚ) / (m : ℚ) / 2 ^ (51 : ℕ) := by
  have hmq : (0 : ℚ) < (m : ℚ) := by exact_mod_cast hm0
  unfold jsDiv
  rw [if_neg (by omega)]
  rcases Nat.eq_zero_or_pos t with h0 | htpos
  · subst h0
    refine ⟨0, ?_, by simp⟩
    simp [roundDouble_zero, jsTimes100]
  · have htq : (1 : ℚ) ≤ (t : ℚ) := by exact_mod_cast htpos
    have hq1 : (t : ℚ) / (m : ℚ) ≤ 1 := by
      rw [div_le_one hmq]; exact_mod_cast ht
    have hmle : (m : ℚ) ≤ 2 ^ (32 : ℕ) := by exact_mod_cast hm.le
    have hq0 : (1 : ℚ) / 2 ^ (32 : ℕ) ≤ (t : ℚ) / (m : ℚ) := by
      rw [le_div_iff₀ hmq]
      have : (1 : ℚ) / 2 ^ (32 : ℕ) * (m : ℚ) ≤ 1 := by
        rw [div_mul_eq_mul_div, one_mul, div_le_one (by positivity)]
        exact hmle
      linarith
    obtain ⟨r, hr, herr⟩ := roundDouble_rel ((t : ℚ) / (m : ℚ))
      (le_trans (by norm_num) hq0) (le_trans hq1 (by norm_num))
    have hb := abs_le.mp herr
    have hqpos : (0 : ℚ) < (t : ℚ) / (m : ℚ) := by positivity
    have hrlo : (t : ℚ) / (m : ℚ) / 2 ≤ r := by
      have : (t : ℚ) / (m : ℚ) / 2 ^ (53 : ℕ) ≤ (t : ℚ) / (m : ℚ) / 2 :=
        div_le_div_of_nonneg_left hqpos.le (by norm_num) (by norm_num)
      linarith [hb.1]
    have hrhi : r ≤ 2 := by
      have : (t : ℚ) / (m : ℚ) / 2 ^ (53 : ℕ) ≤ (t : ℚ) / (m : ℚ) :=
        div_le_self hqpos.le (by norm_num)
      linarith [hb.2]
    obtain ⟨p, hp, herr2⟩ := roundDouble_rel (r * 100)
      (by
        have : (1 : ℚ) / 2 ^ (32 : ℕ) / 2 * 100 ≤ r * 100 := by
          have : (1 : ℚ) / 2 ^ (32 : ℕ) / 2 ≤ r := le_trans (by linarith) hrlo
          linarith
        exact le_trans (by norm_num) this)
      (by
        have : r * 100 ≤ 200 := by linarith
        exact le_trans this (by norm_num))
    refine ⟨p, by rw [hr]; exact hp, ?_⟩
    have hb2 := abs_le.mp herr2
    set q := (t : ℚ) / (m : ℚ) with hqdef
    have e1 : 100 * (t : ℚ) / (m : ℚ) = 100 * q := by rw [hqdef]; ring
    rw [e1, abs_le]
    have hd53 : q / 2 ^ (53 : ℕ) = q * (1 / 2 ^ (53 : ℕ)) := by ring
    have hr53 : r * 100 / 2 ^ (53 : ℕ) = r * 100 * (1 / 2 ^ (53 : ℕ)) := by ring
    have hd51 : 100 * q / 2 ^ (51 : ℕ) = 100 * q * (4 * (1 / 2 ^ (53 : ℕ))) := by norm_num; ring
    rw [hd51]
    rw [hd53] at hb
    rw [hr53] at hb2
    have hc : (0 : ℚ) < 1 / 2 ^ (53 : ℕ) := by positivity
    have hc1 : (1 : ℚ) / 2 ^ (53 : ℕ) ≤ 1 := by norm_num
    generalize (1 : ℚ) / 2 ^ (53 : ℕ) = c at *
    have hrq : r ≤ 2 * q := by nlinarith [hb.2]
    constructor <;> nlinarith [hb.1, hb.2, hb2.1, hb2.2, mul_nonneg hqpos.le hc.le]

theorem jsDiv_11_20 : jsDiv 11 20 = .value (2476979795053773 / 2 ^ (52 : ℕ)) := by
  have he : ulpExponent (11 / 20) = -1 - 52 := by
    apply ulpExponent_eq <;> norm_num [abs_of_pos]
  have := roundDouble_eq (11/20) (-53) 4953959590107546 (by rw [he]; norm_num)
    (by norm_num) (by norm_num) (by norm_num) (by norm_num)
  simp only [jsDiv]
  norm_num
  rw [this]; norm_num

theorem jsTimes100_jsDiv_11_20 :
    jsTimes100 (jsDiv 11 20) = .value (55 + 1 / 2 ^ (47 : ℕ)) := by
  rw [jsDiv_11_20]
  simp only [jsTimes100]
  have he : ulpExponent (2476979795053773 / 2 ^ (52 : ℕ) * 100) = 5 - 52 := by
    apply ulpExponent_eq <;> norm_num [abs_of_pos]
  have := roundDouble_eq (2476979795053773 / 2 ^ (52 : ℕ) * 100) (-47) 7740561859543041
    (by rw [he]; norm_num) (by norm_num) (by norm_num) (by norm_num) (by norm_num)
  rw [this]; norm_num

/-- C12 (counterexample). A quiz of 20 multiple-choice questions of which 11 are
answered correctly has the percentage `55 + 2^-47`, the double that is written
55.00000000000001, not `100 * 11 / 20 = 55`: the quotient `11 / 20` is rounded
before it is multiplied by 100. -/
theorem calculateScore_percentage_rounded :
    (calculateScore "multiple".toList
        (List.replicate 20 ⟨"Q?".toList, some [], some "A".toList, none, none⟩)
        (fun i => if i < 11 then some "A".toList else some "B".toList)).totalScore = 11 ∧
    (calculateScore "multiple".toList
        (List.replicate 20 ⟨"Q?".toList, some [], some "A".toList, none, none⟩)
        (fun i => if i < 11 then some "A".toList else some "B".toList)).maxScore = 20 ∧
    (calculateScore "multiple".toList
        (List.replicate 20 ⟨"Q?".toList, some [], some "A".toList, none, none⟩)
        (fun i => if i < 11 then some "A".toList else some "B".toList)).percentage
      = .value (55 + 1 / 2 ^ (47 : ℕ)) ∧
    (calculateScore "multiple".toList
        (List.replicate 20 ⟨"Q?".toList, some [], some "A".toList, none, none⟩)
        (fun i => if i < 11 then some "A".toList else some "B".toList)).percentage
      ≠ .value (100 * 11 / 20) := by
  have ht : (calculateScore "multiple".toList
      (List.replicate 20 ⟨"Q?".toList, some [], some "A".toList, none, none⟩)
      (fun i => if i < 11 then some "A".toList else some "B".toList)).totalScore = 11 := by
    decide
  have hp : (calculateScore "multiple".toList
      (List.replicate 20 ⟨"Q?".toList, some [], some "A".toList, none, none⟩)
      (fun i => if i < 11 then some "A".toList else some "B".toList)).percentage
      = .value (55 + 1 / 2 ^ (47 : ℕ)) := by
    show jsTimes100 (jsDiv (calculateScore "multiple".toList
      (List.replicate 20 ⟨"Q?".toList, some [], some "A".toList, none, none⟩)
      (fun i => if i < 11 then some "A".toList else some "B".toList)).totalScore 20) = _
    rw [ht]
    exact jsTimes100_jsDiv_11_20
  refine ⟨ht, rfl, hp, ?_⟩
  rw [hp]
  intro h
  have := JsNumber.value.inj h
  norm_num at this

/-- C12 (amended). For every quiz type, question list and answer map,
`calculateScore` returns one entry per question, in question order (entry `i` is
the one computed from question `i` and answer `i`); the score of an entry is 0
or 1, and 1 exactly when the entry is correct; `totalScore` is the number of
correct entries, `maxScore` the number of questions, `totalScore ≤ maxScore`;
the percentage is the double `(totalScore / maxScore) * 100`, in which the
quotient and the product are each rounded to the nearest double: for a non-empty
quiz (an array has fewer than `2^32` elements) it is a finite number that
differs from `100 * totalScore / maxScore` by at most that value divided by
`2^51`. -/
theorem calculateScore_invariants (questionType : Str) (questions : List Question)
    (answers : Nat → Option Str) :
    (calculateScore questionType questions answers).questions.length = questions.length ∧
    (∀ i q, questions.get? i = some q →
      (calculateScore questionType questions answers).questions.get? i
          = some (scoreQuestion questionType q (answers i)) ∧
        (scoreQuestion questionType q (answers i)).question = q.question) ∧
    (∀ e ∈ (calculateScore questionType questions answers).questions,
      (e.score = 0 ∨ e.score = 1) ∧ (e.score = 1 ↔ e.isCorrect = true)) ∧
    (calculateScore questionType questions answers).totalScore
      = (calculateScore questionType questions answers).questions.countP
          (fun e => e.isCorrect) ∧
    (calculateScore questionType questions answers).maxScore = questions.length ∧
    (calculateScore questionType questions answers).totalScore
      ≤ (calculateScore questionType questions answers).maxScore ∧
    (calculateScore questionType questions answers).percentage
      = jsTimes100 (jsDiv (calculateScore questionType questions answers).totalScore
          (calculateScore questionType questions answers).maxScore) ∧
    (questions ≠ [] → questions.length < 2 ^ 32 →
      ∃ p, (calculateScore questionType questions answers).percentage = .value p ∧
        |p - 100 * ((calculateScore questionType questions answers).totalScore : ℚ)
            / ((calculateScore questionType questions answers).maxScore : ℚ)|
          ≤ 100 * ((calculateScore questionType questions answers).totalScore : ℚ)
            / ((calculateScore questionType questions answers).maxScore : ℚ)
            / 2 ^ (51 : ℕ)) := by
  have hlen := scoreLoop_fst_length questionType answers questions 0 0
  have hsnd := scoreLoop_snd questionType answers questions 0 0
  have hle : (scoreLoop questionType answers questions 0 0).2 ≤ questions.length := by
    rw [hsnd, Nat.zero_add, ← hlen]
    exact List.countP_le_length _
  refine ⟨hlen, ?_, ?_, ?_, rfl, hle, rfl, ?_⟩
  · intro i q hq
    refine ⟨?_, rfl⟩
    simp only [calculateScore]
    rw [scoreLoop_getElem, hq]
    simp
  · intro e he
    obtain ⟨q, answer, rfl⟩ := scoreLoop_mem questionType answers questions 0 0 e he
    exact scoreQuestion_score questionType q answer
  · simpa [calculateScore] using hsnd
  · intro hne hsize
    have hpos : 0 < questions.length := List.length_pos.mpr hne
    exact jsTimes100_jsDiv_near _ _ hle hpos hsize

/-- Witness for C12 at a quiz of two multiple-choice questions with answers "b"
and "c": one of two is correct and the percentage is a finite number within the
bound of 50. -/
theorem calculateScore_invariants_witness :
    (calculateScore "multiple".toList
        [⟨"Q1".toList, some [], some "B".toList, none, none⟩,
          ⟨"Q2".toList, some [], some "A".toList, none, none⟩]
        (fun i => if i = 0 then some "b".toList else some "c".toList)).questions
      = [⟨"Q1".toList, "b".toList, "B".toList, true, 1⟩,
          ⟨"Q2".toList, "c".toList, "A".toList, false, 0⟩] ∧
    (∃ p, (calculateScore "multiple".toList
        [⟨"Q1".toList, some [], some "B".toList, none, none⟩,
          ⟨"Q2".toList, some [], some "A".toList, none, none⟩]
        (fun i => if i = 0 then some "b".toList else some "c".toList)).percentage
        = .value p ∧
      |p - 100 * ((calculateScore "multiple".toList
          [⟨"Q1".toList, some [], some "B".toList, none, none⟩,
            ⟨"Q2".toList, some [], some "A".toList, none, none⟩]
          (fun i => if i = 0 then some "b".toList else some "c".toList)).totalScore : ℚ)
        / ((calculateScore "multiple".toList
          [⟨"Q1".toList, some [], some "B".toList, none, none⟩,
            ⟨"Q2".toList, some [], some "A".toList, none, none⟩]
          (fun i => if i = 0 then some "b".toList else some "c".toList)).maxScore : ℚ)|
        ≤ 100 * ((calculateScore "multiple".toList
          [⟨"Q1".toList, some [], some "B".toList, none, none⟩,
            ⟨"Q2".toList, some [], some "A".toList, none, none⟩]
          (fun i => if i = 0 then some "b".toList else some "c".toList)).totalScore : ℚ)
        / ((calculateScore "multiple".toList
          [⟨"Q1".toList, some [], some "B".toList, none, none⟩,
            ⟨"Q2".toList, some [], some "A".toList, none, none⟩]
          (fun i => if i = 0 then some "b".toList else some "c".toList)).maxScore : ℚ)
        / 2 ^ (51 : ℕ)) :=
  ⟨by decide,
    (calculateScore_invariants "multiple".toList
      [⟨"Q1".toList, some [], some "B".toList, none, none⟩,
        ⟨"Q2".toList, some [], some "A".toList, none, none⟩]
      (fun i => if i = 0 then some "b".toList else some "c".toList)).2.2.2.2.2.2.2
      (by simp) (by norm_num)⟩

/-- C13. For the quiz types `short` and `long`, `calculateScore` of `App.jsx`
marks every question as correct with score 1, whether or not an answer was
given, so in particular every answered question; the total score of a quiz of
`n` questions is `n`. -/
theorem calculateScore_short_long_all_correct (questionType : Str)
    (questions : List Question) (answers : Nat → Option Str)
    (htype : questionType = "short".toList ∨ questionType = "long".toList) :
    (∀ i q, questions.get? i = some q →
      ∃ e, (calculateScore questionType questions answers).questions.get? i = some e ∧
        e.isCorrect = true ∧ e.score = 1) ∧
    (∀ e ∈ (calculateScore questionType questions answers).questions,
      e.isCorrect = true ∧ e.score = 1) ∧
    (calculateScore questionType questions answers).totalScore = questions.length := by
  have hq : ∀ q answer, (scoreQuestion questionType q answer).isCorrect = true ∧
      (scoreQuestion questionType q answer).score = 1 := by
    intro q answer
    rcases htype with h | h <;> subst h <;> exact ⟨rfl, rfl⟩
  have hall : ∀ e ∈ (calculateScore questionType questions answers).questions,
      e.isCorrect = true ∧ e.score = 1 := by
    intro e he
    obtain ⟨q, answer, rfl⟩ := scoreLoop_mem questionType answers questions 0 0 e he
    exact hq q answer
  refine ⟨?_, hall, ?_⟩
  · intro i q hiq
    refine ⟨scoreQuestion questionType q (answers i), ?_, hq _ _⟩
    simp only [calculateScore]
    rw [scoreLoop_getElem, hiq]
    simp
  · have hsnd := scoreLoop_snd questionType answers questions 0 0
    have hlen := scoreLoop_fst_length questionType answers questions 0 0
    show (scoreLoop questionType answers questions 0 0).2 = questions.length
    rw [hsnd, Nat.zero_add, ← hlen]
    exact List.countP_eq_length.mpr (fun e he => (hall e he).1)

/-- Witness for C13 at a fully answered `short` quiz of two questions. -/
theorem calculateScore_short_long_all_correct_witness :
    ("short".toList = "short".toList ∨ "short".toList = "long".toList) ∧
    (calculateScore "short".toList
        [⟨"Q1".toList, none, none, some "x".toList, none⟩,
          ⟨"Q2".toList, none, none, some "y".toList, none⟩]
        (fun _ => some "z".toList)).totalScore = 2 :=
  ⟨Or.inl rfl,
    (calculateScore_short_long_all_correct "short".toList
      [⟨"Q1".toList, none, none, some "x".toList, none⟩,
        ⟨"Q2".toList, none, none, some "y".toList, none⟩]
      (fun _ => some "z".toList) (Or.inl rfl)).2.2⟩

/-! ## Retrying caller properties -/

theorem callWithRetry_zero {σ α : Type} (fn : σ → Except Thrown α × σ) (sleep : σ → σ)
    (s : σ) : callWithRetry fn sleep 0 s = ⟨(fn s).1, (fn s).2, 1, 0⟩ := rfl

theorem callWithRetry_succ_of_retryable {σ α : Type} (fn : σ → Except Thrown α × σ)
    (sleep : σ → σ) (retries : Nat) (s : σ) (h : failsRetryable (fn s).1 = true) :
    callWithRetry fn sleep (retries + 1) s
      = ⟨(callWithRetry fn sleep retries (sleep (fn s).2)).result,
          (callWithRetry fn sleep retries (sleep (fn s).2)).state,
          (callWithRetry fn sleep retries (sleep (fn s).2)).invocations + 1,
          (callWithRetry fn sleep retries (sleep (fn s).2)).delays + 1⟩ := by
  rw [callWithRetry]
  cases hout : (fn s).1 with
  | ok v => rw [hout] at h; simp [failsRetryable] at h
  | error error =>
    rw [hout] at h
    simp only [failsRetryable] at h
    cases hc : retryCondition error with
    | error thrown => rw [hc] at h; simp at h
    | ok b =>
      cases b with
      | false => rw [hc] at h; simp at h
      | true => simp only [hc]

theorem callWithRetry_of_not_retryable {σ α : Type} (fn : σ → Except Thrown α × σ)
    (sleep : σ → σ) (retries : Nat) (s : σ) (error : Thrown)
    (hout : (fn s).1 = .error error) (hc : retryCondition error = .ok false) :
    callWithRetry fn sleep retries s = ⟨.error error, (fn s).2, 1, 0⟩ := by
  cases retries with
  | zero => rw [callWithRetry_zero, hout]
  | succ retries =>
    rw [callWithRetry]
    simp only [hout, hc]

theorem callWithRetry_of_ok {σ α : Type} (fn : σ → Except Thrown α × σ)
    (sleep : σ → σ) (retries : Nat) (s : σ) (v : α) (hout : (fn s).1 = .ok v) :
    callWithRetry fn sleep retries s = ⟨.ok v, (fn s).2, 1, 0⟩ := by
  cases retries with
  | zero => rw [callWithRetry_zero, hout]
  | succ retries =>
    rw [callWithRetry]
    simp only [hout]

/-- After `k` retryable failures in a row the run continues as a run with `k`
retries fewer from the state reached. -/
theorem callWithRetry_after_retryable {σ α : Type} (fn : σ → Except Thrown α × σ)
    (sleep : σ → σ) (retries : Nat) :
    ∀ (k : Nat) (s : σ),
      (∀ j, j < k → failsRetryable (fn (stateAt fn sleep j s)).1 = true) →
      callWithRetry fn sleep (retries + k) s
        = ⟨(callWithRetry fn sleep retries (stateAt fn sleep k s)).result,
            (callWithRetry fn sleep retries (stateAt fn sleep k s)).state,
            (callWithRetry fn sleep retries (stateAt fn sleep k s)).invocations + k,
            (callWithRetry fn sleep retries (stateAt fn sleep k s)).delays + k⟩
  | 0, s, _ => rfl
  | k + 1, s, h => by
    have h0 : failsRetryable (fn s).1 = true := h 0 (Nat.succ_pos k)
    have ih := callWithRetry_after_retryable fn sleep retries k (sleep (fn s).2)
      (fun j hj => h (j + 1) (Nat.succ_lt_succ hj))
    have e : retries + (k + 1) = (retries + k) + 1 := rfl
    rw [e, callWithRetry_succ_of_retryable fn sleep (retries + k) s h0, ih]
    rfl

theorem callWithRetry_invocations_le {σ α : Type} (fn : σ → Except Thrown α × σ)
    (sleep : σ → σ) :
    ∀ (retries : Nat) (s : σ),
      1 ≤ (callWithRetry fn sleep retries s).invocations ∧
        (callWithRetry fn sleep retries s).invocations ≤ retries + 1 ∧
        (callWithRetry fn sleep retries s).delays + 1
          = (callWithRetry fn sleep retries s).invocations
  | 0, s => by simp [callWithRetry]
  | retries + 1, s => by
    have ih := callWithRetry_invocations_le fn sleep retries (sleep (fn s).2)
    rw [callWithRetry]
    cases (fn s).1 with
    | ok v => simp
    | error error =>
      cases hc : retryCondition error with
      | error thrown => simp [hc]
      | ok b =>
        cases b with
        | false => simp [hc]
        | true =>
          simp only [hc]
          omega

/-- C14. When the wrapped call throws a value with status 429 on each of its
first three invocations and returns on the fourth, `callWithRetry` with the
default budget `MAX_RETRIES` invokes it exactly four times, awaiting the delay
three times, and returns the value of the fourth invocation. -/
theorem callWithRetry_three_429_then_success {σ α : Type} (fn : σ → Except Thrown α × σ)
    (sleep : σ → σ) (s0 s1 s2 s3 s4 : σ) (t1 t2 t3 : Nat) (v : α)
    (h1 : fn s0 = (.error (.value t1 (some (some 429))), s1))
    (h2 : fn (sleep s1) = (.error (.value t2 (some (some 429))), s2))
    (h3 : fn (sleep s2) = (.error (.value t3 (some (some 429))), s3))
    (h4 : fn (sleep s3) = (.ok v, s4)) :
    callWithRetry fn sleep MAX_RETRIES s0 = ⟨.ok v, s4, 4, 3⟩ := by
  have e1 : stateAt fn sleep 1 s0 = sleep s1 := by simp [stateAt, h1]
  have e2 : stateAt fn sleep 2 s0 = sleep s2 := by simp [stateAt, h1, h2]
  have e3 : stateAt fn sleep 3 s0 = sleep s3 := by simp [stateAt, h1, h2, h3]
  have hpre := callWithRetry_after_retryable fn sleep 0 3 s0 (by
    intro j hj
    interval_cases j
    · simp [stateAt, h1, failsRetryable, retryCondition]
    · rw [e1, h2]; simp [failsRetryable, retryCondition]
    · rw [e2, h3]; simp [failsRetryable, retryCondition])
  have hM : MAX_RETRIES = 0 + 3 := rfl
  rw [hM, hpre, e3, callWithRetry_zero, h4]

/-- Witness for C14 at a call that fails with status 429 three times and then
returns 7. -/
theorem callWithRetry_three_429_then_success_witness :
    callWithRetry (flakyCall 3 429) id MAX_RETRIES 0 = ⟨.ok 7, 4, 4, 3⟩ :=
  callWithRetry_three_429_then_success (flakyCall 3 429) id 0 1 2 3 4 0 1 2 7
    rfl rfl rfl rfl

/-- C15. When an invocation of the wrapped call throws a value that carries a
response whose status is not 429, `callWithRetry` throws that same value without
invoking the call again: whatever the budget, a run that starts with such a
failure makes exactly one invocation and awaits no delay, and a run in which it
comes after `k` retried failures (`k` at most the budget) makes exactly `k + 1`
invocations. -/
theorem callWithRetry_no_retry_on_other_status {σ α : Type}
    (fn : σ → Except Thrown α × σ) (sleep : σ → σ) (retries k : Nat) (s : σ)
    (tag : Nat) (status : Option Nat)
    (hk : k ≤ retries)
    (hbefore : ∀ j, j < k → failsRetryable (fn (stateAt fn sleep j s)).1 = true)
    (hfail : (fn (stateAt fn sleep k s)).1 = .error (.value tag (some status)))
    (hstatus : status ≠ some 429) :
    callWithRetry fn sleep retries s
      = ⟨.error (.value tag (some status)), (fn (stateAt fn sleep k s)).2, k + 1, k⟩ := by
  have hc : retryCondition (.value tag (some status)) = .ok false := by
    simp [retryCondition, hstatus]
  obtain ⟨d, rfl⟩ : ∃ d, retries = d + k := ⟨retries - k, by omega⟩
  rw [callWithRetry_after_retryable fn sleep d k s hbefore,
    callWithRetry_of_not_retryable fn sleep d _ _ hfail hc]
  simp [Nat.add_comm]

/-- Witness for C15 at a call that throws a value with status 401 at once, and
at a call that does so after one failure with status 429. -/
theorem callWithRetry_no_retry_on_other_status_witness :
    callWithRetry (flakyCall 1 401) id MAX_RETRIES 0
      = ⟨.error (.value 0 (some (some 401))), 1, 1, 0⟩ ∧
    callWithRetry
        (fun k => if k = 0 then flakyCall 1 429 k else (.error (.value 9 (some (some 401))), k + 1))
        id MAX_RETRIES 0
      = ⟨.error (.value 9 (some (some 401))), 2, 2, 1⟩ :=
  ⟨callWithRetry_no_retry_on_other_status (flakyCall 1 401) id MAX_RETRIES 0 0 0 (some 401)
      (by decide) (by intro j hj; omega) rfl (by decide),
    callWithRetry_no_retry_on_other_status
      (fun k => if k = 0 then flakyCall 1 429 k else (.error (.value 9 (some (some 401))), k + 1))
      id MAX_RETRIES 1 0 9 (some 401)
      (by decide) (by intro j hj; interval_cases j; rfl) rfl (by decide)⟩

/-- C16. For every wrapped call and every budget `r`, `callWithRetry` is a total
function whose run makes at least one and at most `r + 1` invocations (at most 4
with the default budget 3), with a delay before every invocation but the first;
when each of the `r + 1` invocations fails with a retryable value (status 429 or
no response at all), the run makes exactly `r + 1` invocations and throws the
value thrown by the last one. -/
theorem callWithRetry_bounded {σ α : Type} (fn : σ → Except Thrown α × σ)
    (sleep : σ → σ) (r : Nat) (s : σ) :
    (1 ≤ (callWithRetry fn sleep r s).invocations ∧
      (callWithRetry fn sleep r s).invocations ≤ r + 1 ∧
      (callWithRetry fn sleep r s).delays + 1 = (callWithRetry fn sleep r s).invocations) ∧
    (callWithRetry fn sleep MAX_RETRIES s).invocations ≤ 4 ∧
    ((∀ j, j ≤ r → failsRetryable (fn (stateAt fn sleep j s)).1 = true) →
      (callWithRetry fn sleep r s).invocations = r + 1 ∧
      (callWithRetry fn sleep r s).result = (fn (stateAt fn sleep r s)).1 ∧
      (∃ error, (callWithRetry fn sleep r s).result = .error error) ∧
      (callWithRetry fn sleep r s).state = (fn (stateAt fn sleep r s)).2) := by
  refine ⟨callWithRetry_invocations_le fn sleep r s,
    (callWithRetry_invocations_le fn sleep MAX_RETRIES s).2.1, ?_⟩
  intro hall
  have hpre := callWithRetry_after_retryable fn sleep 0 r s
    (fun j hj => hall j (Nat.le_of_lt hj))
  rw [Nat.zero_add] at hpre
  rw [hpre, callWithRetry_zero]
  refine ⟨by simp [Nat.add_comm], rfl, ?_, rfl⟩
  have hlast := hall r (Nat.le_refl r)
  cases hout : (fn (stateAt fn sleep r s)).1 with
  | ok v => rw [hout] at hlast; simp [failsRetryable] at hlast
  | error error => exact ⟨error, rfl⟩

/-- Witness for C16 at a call that always fails with status 429, with the
default budget. -/
theorem callWithRetry_bounded_witness :
    (callWithRetry (flakyCall 10 429) id MAX_RETRIES 0).invocations = MAX_RETRIES + 1 ∧
    (callWithRetry (flakyCall 10 429) id MAX_RETRIES 0).result
      = (flakyCall 10 429 (stateAt (flakyCall 10 429) id MAX_RETRIES 0)).1 ∧
    (∃ error, (callWithRetry (flakyCall 10 429) id MAX_RETRIES 0).result = .error error) ∧
    (callWithRetry (flakyCall 10 429) id MAX_RETRIES 0).state
      = (flakyCall 10 429 (stateAt (flakyCall 10 429) id MAX_RETRIES 0)).2 :=
  (callWithRetry_bounded (flakyCall 10 429) id MAX_RETRIES 0).2.2
    (by intro j hj; have : j ≤ 3 := hj; interval_cases j <;> rfl)

/-! ## Clean-up properties -/

theorem trim_sublist (s : Str) : (trim s).Sublist s := by
  unfold trim
  have h1 : ((s.dropWhile isTrimSpace).reverse.dropWhile isTrimSpace).reverse.Sublist
      (s.dropWhile isTrimSpace).reverse.reverse :=
    List.reverse_sublist.mpr (List.dropWhile_sublist _)
  rw [List.reverse_reverse] at h1
  exact h1.trans (List.dropWhile_sublist _)

theorem whitespaceRunAt_none_iff (c : Char) (rest : Str) :
    whitespaceRunAt (c :: rest) = none → isTrimSpace c = false := by
  unfold whitespaceRunAt
  cases h : isTrimSpace c with
  | false => intro _; rfl
  | true => simp [List.takeWhile_cons, h]

theorem replaceFrom_whitespace_mem :
    ∀ (s : Str) (skip : Nat), ∀ c ∈ replaceFrom whitespaceRunAt " ".toList s skip,
      isTrimSpace c = false ∨ c = ' '
  | [], _, c, hc => by simp [replaceFrom] at hc
  | _ :: rest, skip + 1, c, hc => by
    rw [replaceFrom] at hc
    exact replaceFrom_whitespace_mem rest skip c hc
  | d :: rest, 0, c, hc => by
    rw [replaceFrom] at hc
    cases hm : whitespaceRunAt (d :: rest) with
    | some n =>
      rw [hm] at hc
      simp only at hc
      rcases List.mem_append.mp hc with h | h
      · exact Or.inr (by simpa using h)
      · exact replaceFrom_whitespace_mem rest _ c h
    | none =>
      rw [hm] at hc
      simp only at hc
      rcases List.mem_cons.mp hc with h | h
      · exact Or.inl (h ▸ whitespaceRunAt_none_iff d rest hm)
      · exact replaceFrom_whitespace_mem rest 0 c h

theorem replaceFrom_blankLines_of_no_newline :
    ∀ s : Str, '\n' ∉ s → replaceFrom blankLinesAt "\n\n".toList s 0 = s
  | [], _ => rfl
  | c :: rest, h => by
    have hc : c ≠ '\n' := fun e => h (e ▸ List.mem_cons_self _ _)
    have hrest : '\n' ∉ rest := fun m => h (List.mem_cons_of_mem _ m)
    rw [replaceFrom]
    simp only [blankLinesAt, if_neg hc]
    rw [replaceFrom_blankLines_of_no_newline rest hrest]

theorem not_newline_mem_collapse (text : Str) :
    '\n' ∉ replaceFrom whitespaceRunAt " ".toList text 0 := by
  intro h
  rcases replaceFrom_whitespace_mem text 0 _ h with h1 | h1
  · exact absurd h1 (by decide)
  · exact absurd h1 (by decide)

/-- C17 (the code on texts with paragraphs). The clean-up of `readFileContent`
never yields a newline: the first replacement turns every run of white space,
blank lines included, into one space, so the second finds nothing to do.  For
"First paragraph.\n\nSecond paragraph." it yields
"First paragraph. Second paragraph.", and the texts of two PDF pages end up on
one line. -/
theorem cleanUpText_drops_paragraph_breaks :
    (∀ text : Str, '\n' ∉ cleanUpText text) ∧
    (∀ text : Str, cleanUpText text = trim (replaceFrom whitespaceRunAt " ".toList text 0)) ∧
    cleanUpText "First paragraph.\n\nSecond paragraph.".toList
      = "First paragraph. Second paragraph.".toList ∧
    cleanUpText "First paragraph.\n \n\n\nSecond paragraph.\n".toList
      = "First paragraph. Second paragraph.".toList ∧
    pdfText [["Page".toList, "one.".toList], ["Page two.".toList]]
      = "Page one. Page two.".toList := by
  have heq : ∀ text : Str,
      cleanUpText text = trim (replaceFrom whitespaceRunAt " ".toList text 0) := by
    intro text
    unfold cleanUpText
    rw [replaceFrom_blankLines_of_no_newline _ (not_newline_mem_collapse text)]
  refine ⟨?_, heq, by decide, by decide, by decide⟩
  intro text h
  rw [heq] at h
  exact not_newline_mem_collapse text ((trim_sublist _).subset h)

/-! ## Prompt formats and the parser -/

theorem markerAt_none_of_not_digit (c : Char) (rest : Str) (h : isDigit c = false) :
    markerAt (c :: rest) = none := by
  unfold markerAt
  simp [List.takeWhile_cons, h]

theorem splitFrom_markerAt_of_no_digit :
    ∀ (s cur : Str), (∀ c ∈ s, isDigit c = false) →
      splitFrom markerAt s 0 cur = [cur.reverse ++ s]
  | [], cur, _ => by simp [splitFrom]
  | c :: rest, cur, h => by
    rw [splitFrom, markerAt_none_of_not_digit c rest (h c (List.mem_cons_self _ _))]
    simp only
    rw [splitFrom_markerAt_of_no_digit rest (c :: cur)
      (fun d hd => h d (List.mem_cons_of_mem _ hd))]
    simp

/-- A reply without any digit is one block for the parsers, whatever the number
of questions written in it: `short` and `long` return one record. -/
theorem parseResponse_one_record_of_no_digit (reply : Str) (hne : reply ≠ [])
    (hno : ∀ c ∈ reply, isDigit c = false) :
    parseResponse reply "short".toList = .ok (.array [parseShortBlock reply]) ∧
    parseResponse reply "long".toList = .ok (.array [parseLongBlock reply]) := by
  have hb : blocksOf reply = [reply] := by
    unfold blocksOf
    rw [splitFrom_markerAt_of_no_digit reply [] hno]
    cases reply with
    | nil => exact absurd rfl hne
    | cons c rest => simp
  constructor
  · simp [parseResponse, hb]
  · simp [parseResponse, hb]

/-- C18 (the code at replies in the formats of the templates). The templates
of `generatePrompt` end with the per-question formats below.  A reply of two
questions in the `short` format, separated by a blank line, is parsed into one
record, whose question is "Question: Qa" and whose expected answer runs into the
second question; a reply of two questions in the `long` format is parsed into
one record as well; only the `multiple` format, the one with a numbered marker,
gives two records. -/
theorem parseResponse_of_template_formats :
    (∀ content, generatePrompt "short".toList content
      = some (shortHead content ++ shortFormat (indent 15) "[question text]".toList
          "[expected answer]".toList)) ∧
    (∀ content, generatePrompt "long".toList content
      = some (longHead content ++ longFormat (indent 15) "[question text]".toList
          "[list of key points]".toList)) ∧
    (∀ content, generatePrompt "multiple".toList content
      = some (multipleHead content ++ multipleFormat (indent 15) "1".toList
          "[question text]".toList "[option A]".toList "[option B]".toList "[option C]".toList
          "[option D]".toList "[letter]".toList ++ multipleTail)) ∧
    parseResponse
        (replyOf [shortFormat [] "Qa".toList "Aa".toList, shortFormat [] "Qb".toList "Ab".toList])
        "short".toList
      = .ok (.array [⟨"Question: Qa".toList, none, none,
          some "Aa\n\nQuestion: Qb".toList, none⟩]) ∧
    parseResponse
        (replyOf [longFormat [] "Qa".toList "Ka".toList, longFormat [] "Qb".toList "Kb".toList])
        "long".toList
      = .ok (.array [⟨"Question: Qa".toList, none, none, none,
          some ["Ka".toList, [], "Question: Qb".toList]⟩]) ∧
    parseResponse
        (replyOf [multipleFormat [] "1".toList "Qa".toList "a".toList "b".toList "c".toList
            "d".toList "A".toList,
          multipleFormat [] "2".toList "Qb".toList "e".toList "f".toList "g".toList
            "h".toList "B".toList])
        "multiple".toList
      = .ok (.array [⟨"Qa".toList,
            some ["A) a".toList, "B) b".toList, "C) c".toList, "D) d".toList],
            some "A".toList, none, none⟩,
          ⟨"Qb".toList,
            some ["A) e".toList, "B) f".toList, "C) g".toList, "D) h".toList],
            some "B".toList, none, none⟩]) := by
  refine ⟨fun _ => ?_, fun _ => ?_, fun _ => ?_, by decide, by decide, by decide⟩
  · simp only [generatePrompt, if_true,
      if_neg (show "short".toList ≠ "multiple".toList by decide)]
  · simp only [generatePrompt, if_true,
      if_neg (show "long".toList ≠ "multiple".toList by decide),
      if_neg (show "long".toList ≠ "short".toList by decide)]
  · simp only [generatePrompt, if_true]

/-! ## Server route properties -/

/-- C19. For an authenticated request to `GET /api/quiz-results/:userId` or
`GET /api/quiz-stats/:userId` whose path `userId` differs from the `userId` of the
token, the handler answers 403 with an error body, sends no operation to the
collection and leaves it unchanged; the response is the same whatever the
collection holds. -/
theorem get_quiz_routes_forbidden (paramsUserId : Str) (user : TokenPayload)
    (db : Database) (hdiff : user.userId ≠ some paramsUserId) :
    getQuizResults paramsUserId user db
      = ⟨403, .error "Unauthorized access".toList, db, []⟩ ∧
    getQuizStats paramsUserId user db
      = ⟨403, .error "Unauthorized access".toList, db, []⟩ ∧
    (∀ other : Database,
      (getQuizResults paramsUserId user other).body
          = (getQuizResults paramsUserId user db).body ∧
        (getQuizStats paramsUserId user other).body
          = (getQuizStats paramsUserId user db).body) := by
  have h : some paramsUserId ≠ user.userId := fun e => hdiff e.symm
  refine ⟨by simp [getQuizResults, h], by simp [getQuizStats, h], ?_⟩
  intro other
  simp [getQuizResults, getQuizStats, h]

/-- Witness for C19: the token of "alice" on the path of "bob", over a collection
that holds a result of "bob". -/
theorem get_quiz_routes_forbidden_witness :
    (⟨some "alice".toList⟩ : TokenPayload).userId ≠ some "bob".toList ∧
    getQuizResults "bob".toList ⟨some "alice".toList⟩
        ⟨[⟨"bob".toList, "short".toList, "a.txt".toList, [], 1, 2, .value 50, 7⟩], none⟩
      = ⟨403, .error "Unauthorized access".toList,
          ⟨[⟨"bob".toList, "short".toList, "a.txt".toList, [], 1, 2, .value 50, 7⟩], none⟩, []⟩ :=
  ⟨by decide,
    (get_quiz_routes_forbidden "bob".toList ⟨some "alice".toList⟩
      ⟨[⟨"bob".toList, "short".toList, "a.txt".toList, [], 1, 2, .value 50, 7⟩], none⟩
      (by decide)).1⟩

/-- C20 (counterexample). A body without `completedAt` (and with the `userId`
"mallory"), posted with the token of "alice" at the time 1000, stores a record
whose `userId` is "alice" and whose `completedAt` is 1000, a value that the body
does not carry. -/
theorem postQuizResult_completedAt_default :
    (⟨some "mallory".toList, some "multiple".toList, some "notes.txt".toList, some [],
        some 1, some 1, some 100, none, []⟩ : QuizResultInput).completedAt = none ∧
    (postQuizResult 1000
        ⟨some "mallory".toList, some "multiple".toList, some "notes.txt".toList, some [],
          some 1, some 1, some 100, none, []⟩
        ⟨some "alice".toList⟩ ⟨[], none⟩).database.quizResults
      = [⟨"alice".toList, "multiple".toList, "notes.txt".toList, [], 1, 1, .value 100,
          1000⟩] := by
  refine ⟨rfl, ?_⟩
  simp [postQuizResult, buildQuizResult, withTokenUserId, quizTypes]

/-- C20 (amended). For an authenticated `POST /api/quiz-results` whose record
passes the validation of the schema, with the collection available, the handler
answers 201 and stores exactly one record: its `userId` is the one of the token,
whatever `userId` the body carries; its `quizType`, `sourceFile`, `totalScore`,
`maxScore` and `percentage` are the values of the body; its `questions` and
`completedAt` are the values of the body when the body carries them and the
defaults of the schema (no questions, the time of creation) otherwise; keys of
the body outside the schema are not stored. -/
theorem postQuizResult_stores (now : Nat) (body : QuizResultInput) (user : TokenPayload)
    (db : Database) (userId quizType sourceFile : Str) (totalScore maxScore percentage : ℚ)
    (huser : user.userId = some userId) (huser0 : userId ≠ [])
    (htype : body.quizType = some quizType) (henum : quizType ∈ quizTypes)
    (hfile : body.sourceFile = some sourceFile) (hfile0 : sourceFile ≠ [])
    (htotal : body.totalScore = some totalScore) (hmax : body.maxScore = some maxScore)
    (hpct : body.percentage = some percentage) (hdb : db.failure = none) :
    postQuizResult now body user db
      = ⟨201,
          .quizResult ⟨userId, quizType, sourceFile, body.questions.getD [], totalScore,
            maxScore, .value percentage, body.completedAt.getD now⟩,
          ⟨db.quizResults ++ [⟨userId, quizType, sourceFile, body.questions.getD [],
            totalScore, maxScore, .value percentage, body.completedAt.getD now⟩], none⟩,
          [.save ⟨userId, quizType, sourceFile, body.questions.getD [], totalScore,
            maxScore, .value percentage, body.completedAt.getD now⟩]⟩ := by
  simp [postQuizResult, buildQuizResult, withTokenUserId, huser, huser0, htype, henum,
    hfile, hfile0, htotal, hmax, hpct, hdb]

/-- Witness for C20 (amended) at the body of the counterexample. -/
theorem postQuizResult_stores_witness :
    postQuizResult 1000
        ⟨some "mallory".toList, some "multiple".toList, some "notes.txt".toList, none,
          some 1, some 1, some 100, none, ["extra".toList]⟩
        ⟨some "alice".toList⟩ ⟨[], none⟩
      = ⟨201,
          .quizResult ⟨"alice".toList, "multiple".toList, "notes.txt".toList, [], 1, 1,
            .value 100, 1000⟩,
          ⟨[] ++ [⟨"alice".toList, "multiple".toList, "notes.txt".toList, [], 1, 1,
            .value 100, 1000⟩], none⟩,
          [.save ⟨"alice".toList, "multiple".toList, "notes.txt".toList, [], 1, 1,
            .value 100, 1000⟩]⟩ :=
  postQuizResult_stores 1000
    ⟨some "mallory".toList, some "multiple".toList, some "notes.txt".toList, none,
      some 1, some 1, some 100, none, ["extra".toList]⟩
    ⟨some "alice".toList⟩ ⟨[], none⟩ "alice".toList "multiple".toList "notes.txt".toList
    1 1 100 rfl (by decide) rfl (by decide) rfl (by decide) rfl rfl rfl rfl

/-! ## Further chunker properties -/

theorem mem_dropWhile_of_false {p : Char → Bool} (c : Char) :
    ∀ s : Str, c ∈ s → p c = false → c ∈ s.dropWhile p
  | [], h, _ => by simp at h
  | d :: rest, h, hp => by
    by_cases hd : p d = true
    · rw [List.dropWhile_cons_of_pos hd]
      rcases List.mem_cons.mp h with e | e
      · rw [e, hd] at hp; exact absurd hp (by simp)
      · exact mem_dropWhile_of_false c rest e hp
    · rw [List.dropWhile_cons_of_neg hd]
      exact h

theorem mem_trim_of_not_space (c : Char) (s : Str) (h : c ∈ s) (hc : isTrimSpace c = false) :
    c ∈ trim s := by
  unfold trim
  rw [List.mem_reverse]
  apply mem_dropWhile_of_false c _ _ hc
  rw [List.mem_reverse]
  exact mem_dropWhile_of_false c s h hc

theorem not_space_of_terminator (c : Char) (h : isTerminator c = true) :
    isTrimSpace c = false := by
  simp only [isTerminator, Bool.or_eq_true, decide_eq_true_eq] at h
  rcases h with (h | h) | h <;> subst h <;> decide

theorem drop_length_takeWhile (p : Char → Bool) :
    ∀ s : Str, s.drop (s.takeWhile p).length = s.dropWhile p
  | [] => rfl
  | c :: rest => by
    by_cases h : p c = true
    · simp [List.takeWhile_cons, List.dropWhile_cons, h, drop_length_takeWhile p rest]
    · simp [List.takeWhile_cons, List.dropWhile_cons, h]

theorem sentenceAt_take {s : Str} {n : Nat} (h : sentenceAt s = some n) :
    ∃ c ∈ s.take n, isTerminator c = true := by
  unfold sentenceAt at h
  simp only at h
  split at h
  · exact absurd h (by simp)
  · rename_i hne
    simp only [Bool.or_eq_true, not_or, List.isEmpty_iff] at hne
    simp only [Option.some.injEq] at h
    rw [drop_length_takeWhile] at h hne
    obtain ⟨m0, marks, hm⟩ := List.exists_cons_of_ne_nil hne.2
    have hterm : isTerminator m0 = true := by
      have : m0 ∈ (s.dropWhile (fun c => !isTerminator c)).takeWhile isTerminator := by
        rw [hm]; exact List.mem_cons_self _ _
      exact List.mem_takeWhile_imp this
    obtain ⟨t, ht⟩ := List.takeWhile_prefix (p := isTerminator)
      (l := s.dropWhile (fun c => !isTerminator c))
    rw [hm] at ht h
    have key : m0 ∈ (s.takeWhile (fun c => !isTerminator c)
        ++ s.dropWhile (fun c => !isTerminator c)).take n := by
      rw [List.take_append_eq_append_take, ← ht, ← h]
      apply List.mem_append_right
      simp
    rw [List.takeWhile_append_dropWhile] at key
    exact ⟨m0, key, hterm⟩

theorem matchAllFrom_sentence_has_terminator :
    ∀ (s : Str) (skip : Nat), ∀ m ∈ matchAllFrom sentenceAt s skip,
      ∃ c ∈ m, isTerminator c = true
  | [], _, m, hm => by simp [matchAllFrom] at hm
  | _ :: rest, skip + 1, m, hm => by
    rw [matchAllFrom] at hm
    exact matchAllFrom_sentence_has_terminator rest skip m hm
  | c :: rest, 0, m, hm => by
    rw [matchAllFrom] at hm
    split at hm
    · rename_i n hn
      rcases List.mem_cons.mp hm with h | h
      · subst h; exact sentenceAt_take hn
      · exact matchAllFrom_sentence_has_terminator rest _ m h
    · exact matchAllFrom_sentence_has_terminator rest 0 m hm

theorem trim_flatten_ne_nil (text : Str) (run : List Str) (hne : run ≠ [])
    (hsub : ∀ s ∈ run, s ∈ sentencesOf text) : trim run.flatten ≠ [] := by
  obtain ⟨s, rest, rfl⟩ := List.exists_cons_of_ne_nil hne
  obtain ⟨c, hc, hterm⟩ :=
    matchAllFrom_sentence_has_terminator text 0 s (hsub s (List.mem_cons_self _ _))
  have hmem : c ∈ (s :: rest).flatten := by
    rw [List.flatten_cons]
    exact List.mem_append_left _ hc
  exact List.ne_nil_of_mem (mem_trim_of_not_space c _ hmem (not_space_of_terminator c hterm))

theorem chunkRuns_subset (sentences run : List Str) :
    ∀ r ∈ chunkRuns sentences run, ∀ s ∈ r, s ∈ run ++ sentences := by
  intro r hr s hs
  rw [← flatten_chunkRuns sentences run]
  exact List.mem_flatten.mpr ⟨r, hr, hs⟩

/-- C25. The output of `chunkContent` contains the empty string exactly when the
first sentence of the decoded text is longer than 2000 characters; the empty
chunk is then the first element, and no later chunk is ever empty. -/
theorem chunkContent_empty_chunk (content text : Str) (h : atob content = some text) :
    ∃ chunks : List Str, chunkContent content = some chunks ∧
      (([] : Str) ∈ chunks ↔
        ∃ s rest, sentencesOf text = s :: rest ∧ CHUNK_SIZE < s.length) ∧
      (([] : Str) ∈ chunks → chunks.head? = some []) ∧
      ([] : Str) ∉ chunks.tail := by
  refine ⟨_, chunkContent_eq_runs h, ?_⟩
  have hlater : ∀ (s : Str) (rest : List Str), sentencesOf text = s :: rest →
      ([] : Str) ∉ (chunkRuns rest [s]).map (fun run => trim run.flatten) := by
    intro s rest hS hmem
    obtain ⟨r, hr, he⟩ := List.mem_map.mp hmem
    refine trim_flatten_ne_nil text r (chunkRuns_ne_nil rest [s] (by simp) r hr) ?_ he
    intro x hx
    have := chunkRuns_subset rest [s] r hr x hx
    rw [hS]
    simpa using this
  cases hS : sentencesOf text with
  | nil => simp [chunkRuns]
  | cons s rest =>
    have hl := hlater s rest hS
    rw [chunkRuns]
    by_cases hle : (([] : List Str).flatten ++ s).length ≤ CHUNK_SIZE
    · rw [if_pos hle]
      have hle2 : s.length ≤ CHUNK_SIZE := by simpa using hle
      simp only [List.nil_append]
      refine ⟨⟨fun hm => absurd hm hl, ?_⟩, fun hm => absurd hm hl, ?_⟩
      · rintro ⟨s2, rest2, e, hlt⟩
        simp only [List.cons.injEq] at e
        rw [← e.1] at hlt
        omega
      · exact fun hm => hl (List.mem_of_mem_tail hm)
    · rw [if_neg hle]
      have hgt : CHUNK_SIZE < s.length := by
        have : ¬ s.length ≤ CHUNK_SIZE := by simpa using hle
        omega
      simp only [List.map_cons, List.tail_cons, List.head?_cons]
      refine ⟨⟨fun _ => ⟨s, rest, rfl, hgt⟩, fun _ => ?_⟩, fun _ => ?_, hl⟩
      · exact List.mem_cons.mpr (Or.inl (by simp [trim]))
      · simp [trim]

/-- Witness for C25 at the base64 form of the text "Hi. There.". -/
theorem chunkContent_empty_chunk_witness :
    atob "SGkuIFRoZXJlLg==".toList = some "Hi. There.".toList ∧
    ∃ chunks : List Str, chunkContent "SGkuIFRoZXJlLg==".toList = some chunks ∧
      (([] : Str) ∈ chunks ↔
        ∃ s rest, sentencesOf "Hi. There.".toList = s :: rest ∧ CHUNK_SIZE < s.length) ∧
      (([] : Str) ∈ chunks → chunks.head? = some []) ∧
      ([] : Str) ∉ chunks.tail :=
  ⟨by decide, chunkContent_empty_chunk "SGkuIFRoZXJlLg==".toList "Hi. There.".toList
    (by decide)⟩

theorem mapM_eq_none_of_mem {f : Char → Option Nat} (c : Char) (hc : f c = none) :
    ∀ l : Str, c ∈ l → l.mapM f = none
  | [], h => by simp at h
  | d :: rest, h => by
    rw [List.mapM_cons]
    cases hd : f d with
    | none => rfl
    | some v =>
      have hne : c ≠ d := by
        intro e; rw [e, hd] at hc; exact absurd hc (by simp)
      have hrest : c ∈ rest := by
        rcases List.mem_cons.mp h with e | e
        · exact absurd e hne
        · exact e
      rw [mapM_eq_none_of_mem c hc rest hrest]
      rfl

theorem mem_stripPadding (c : Char) (hc : c ≠ '=') (data : Str) (h : c ∈ data) :
    c ∈ stripPadding data := by
  unfold stripPadding
  have hrev : c ∈ data.reverse := List.mem_reverse.mpr h
  split
  · rename_i rest heq
    rw [heq] at hrev
    simp only [List.mem_cons] at hrev
    rcases hrev with e | e | e
    · exact absurd e hc
    · exact absurd e hc
    · exact List.mem_reverse.mpr e
  · rename_i rest _ heq
    rw [heq] at hrev
    simp only [List.mem_cons] at hrev
    rcases hrev with e | e
    · exact absurd e hc
    · exact List.mem_reverse.mpr e
  · exact h

theorem atob_none_of_terminator (content : Str) (c : Char) (hmem : c ∈ content)
    (hterm : isTerminator c = true) : atob content = none := by
  have hprops : base64Value c = none ∧ isAsciiWhitespace c = false ∧ c ≠ '=' := by
    simp only [isTerminator, Bool.or_eq_true, decide_eq_true_eq] at hterm
    rcases hterm with (h | h) | h <;> subst h <;> decide
  obtain ⟨hval, hws, heq⟩ := hprops
  have h1 : c ∈ content.filter (fun c => !isAsciiWhitespace c) :=
    List.mem_filter.mpr ⟨hmem, by simp [hws]⟩
  have hlast : ∀ data : Str, c ∈ data →
      (if data.length % 4 = 1 then none
        else (data.mapM base64Value).map decodeSextets) = none := by
    intro data hd
    by_cases hk : data.length % 4 = 1
    · rw [if_pos hk]
    · rw [if_neg hk, mapM_eq_none_of_mem c hval data hd]
      rfl
  unfold atob
  simp only
  by_cases h0 : (content.filter (fun c => !isAsciiWhitespace c)).length % 4 = 0
  · rw [if_pos h0]
    exact hlast _ (mem_stripPadding c heq _ h1)
  · rw [if_neg h0]
    exact hlast _ h1

/-- C26. The function `chunkContent` decodes its argument with `atob` before it
splits: when `atob` rejects the argument, the call fails and returns no chunks;
`atob` rejects every argument that contains `.`, `!` or `?`, so every plain text
with a sentence terminator fails; and whenever chunks are returned, they are the
chunks of the text that the argument encodes. -/
theorem chunkContent_requires_base64 :
    (∀ content : Str, atob content = none → chunkContent content = none) ∧
    (∀ (content : Str) (c : Char), c ∈ content → (c = '.' ∨ c = '!' ∨ c = '?') →
      atob content = none ∧ chunkContent content = none) ∧
    (∀ (content : Str) (chunks : List Str), chunkContent content = some chunks →
      ∃ text, atob content = some text ∧ chunks = chunkLoop (sentencesOf text) []) := by
  have h1 : ∀ content : Str, atob content = none → chunkContent content = none := by
    intro content h
    simp [chunkContent, h]
  refine ⟨h1, ?_, ?_⟩
  · intro content c hmem hc
    have hterm : isTerminator c = true := by
      rcases hc with h | h | h <;> subst h <;> decide
    have := atob_none_of_terminator content c hmem hterm
    exact ⟨this, h1 content this⟩
  · intro content chunks h
    unfold chunkContent at h
    cases hat : atob content with
    | none => rw [hat] at h; exact absurd h (by simp)
    | some text =>
      rw [hat] at h
      exact ⟨text, rfl, (Option.some.inj h).symm⟩

/-- Witness for C26 at the plain text "Hi. There." and at its base64 form. -/
theorem chunkContent_requires_base64_witness :
    (atob "Hi. There.".toList = none ∧ chunkContent "Hi. There.".toList = none) ∧
    (∃ text, atob "SGkuIFRoZXJlLg==".toList = some text ∧
      ["Hi. There.".toList] = chunkLoop (sentencesOf text) []) :=
  ⟨chunkContent_requires_base64.2.1 "Hi. There.".toList '.' (by decide) (Or.inl rfl),
    chunkContent_requires_base64.2.2 "SGkuIFRoZXJlLg==".toList ["Hi. There.".toList]
      (by decide)⟩

/-! ## Further parser and scorer properties -/

/-- C27. For the quiz type `multiple`, `calculateScore` marks a question as
correct, with score 1, when no answer was given for it and its `correctAnswer`
is the empty string, the value that the parser gives when it finds no
`Correct: <letter>`: both sides of the comparison are then the empty string.
For the reply "1. Q?\nA) x\nB) y\nC) z\nD) w" the parser gives such a question,
and the unanswered quiz has the total score 1. -/
theorem calculateScore_multiple_both_empty :
    (∀ (questions : List Question) (answers : Nat → Option Str) (i : Nat) (q : Question),
      questions.get? i = some q → q.correctAnswer = some [] → answers i = none →
      ∃ e, (calculateScore "multiple".toList questions answers).questions.get? i = some e ∧
        e.isCorrect = true ∧ e.score = 1 ∧ e.userAnswer = []) ∧
    parseResponse "1. Q?\nA) x\nB) y\nC) z\nD) w".toList "multiple".toList
      = .ok (.array [⟨"Q?".toList,
          some ["A) x".toList, "B) y".toList, "C) z".toList, "D) w".toList],
          some [], none, none⟩]) ∧
    (calculateScore "multiple".toList
        [⟨"Q?".toList, some ["A) x".toList, "B) y".toList, "C) z".toList, "D) w".toList],
          some [], none, none⟩]
        (fun _ => none)).questions
      = [⟨"Q?".toList, [], "N/A".toList, true, 1⟩] ∧
    (calculateScore "multiple".toList
        [⟨"Q?".toList, some ["A) x".toList, "B) y".toList, "C) z".toList, "D) w".toList],
          some [], none, none⟩]
        (fun _ => none)).totalScore = 1 := by
  refine ⟨?_, by decide, by decide, by decide⟩
  intro questions answers i q hq hc ha
  refine ⟨scoreQuestion "multiple".toList q (answers i), ?_, ?_⟩
  · simp only [calculateScore]
    rw [scoreLoop_getElem, hq]
    simp
  · rw [ha]
    simp [scoreQuestion, hc, orElse, toUpperCase]

/-- Witness for C27 at the question parsed from "1. Q?\nA) x\nB) y\nC) z\nD) w". -/
theorem calculateScore_multiple_both_empty_witness :
    ∃ e, (calculateScore "multiple".toList
        [⟨"Q?".toList, some ["A) x".toList, "B) y".toList, "C) z".toList, "D) w".toList],
          some [], none, none⟩]
        (fun _ => none)).questions.get? 0 = some e ∧
      e.isCorrect = true ∧ e.score = 1 ∧ e.userAnswer = [] :=
  calculateScore_multiple_both_empty.1
    [⟨"Q?".toList, some ["A) x".toList, "B) y".toList, "C) z".toList, "D) w".toList],
      some [], none, none⟩]
    (fun _ => none) 0
    ⟨"Q?".toList, some ["A) x".toList, "B) y".toList, "C) z".toList, "D) w".toList],
      some [], none, none⟩ rfl rfl rfl

theorem splitFrom_markerAt_head :
    ∀ (s cur : Str), ∃ numbered : List Str,
      splitFrom markerAt s 0 cur = (cur.reverse ++ beforeMarker s) :: numbered
  | [], cur => ⟨[], by simp [splitFrom, beforeMarker]⟩
  | c :: rest, cur => by
    rw [splitFrom, beforeMarker]
    cases hm : markerAt (c :: rest) with
    | some n => exact ⟨splitFrom markerAt rest (n - 1) [], by simp⟩
    | none =>
      obtain ⟨numbered, h⟩ := splitFrom_markerAt_head rest (c :: cur)
      exact ⟨numbered, by simp [h]⟩

/-- C28. The pieces of a reply are the text before the first digits-dot marker
followed by the pieces after the markers, and only the pieces that are the
empty string are dropped.  So when the text before the first marker is not
empty, be it an introduction or only white space, `parseResponse` (types
`multiple`, `short`, `long`) returns a first record built from it, followed by
the records of the non-empty numbered pieces: one record more than there are
such pieces. -/
theorem parseResponse_preamble_record (reply : Str) :
    ∃ numbered : List Str,
      splitFrom markerAt reply 0 [] = beforeMarker reply :: numbered ∧
      blocksOf reply = (beforeMarker reply :: numbered).filter (fun b => !b.isEmpty) ∧
      (beforeMarker reply ≠ [] →
        parseResponse reply "multiple".toList
          = .ok (.array (parseMultipleBlock (beforeMarker reply) ::
              (numbered.filter (fun b => !b.isEmpty)).map parseMultipleBlock)) ∧
        parseResponse reply "short".toList
          = .ok (.array (parseShortBlock (beforeMarker reply) ::
              (numbered.filter (fun b => !b.isEmpty)).map parseShortBlock)) ∧
        parseResponse reply "long".toList
          = .ok (.array (parseLongBlock (beforeMarker reply) ::
              (numbered.filter (fun b => !b.isEmpty)).map parseLongBlock)) ∧
        (blocksOf reply).length = (numbered.filter (fun b => !b.isEmpty)).length + 1) := by
  obtain ⟨numbered, h⟩ := splitFrom_markerAt_head reply []
  simp only [List.reverse_nil, List.nil_append] at h
  refine ⟨numbered, h, by rw [blocksOf, h], ?_⟩
  intro hne
  have hb : blocksOf reply
      = beforeMarker reply :: numbered.filter (fun b => !b.isEmpty) := by
    rw [blocksOf, h, List.filter_cons_of_pos]
    cases hbm : beforeMarker reply with
    | nil => exact absurd hbm hne
    | cons c rest => rfl
  refine ⟨?_, ?_, ?_, by rw [hb]; simp⟩
  · simp [parseResponse, hb]
  · simp [parseResponse, hb]
  · simp [parseResponse, hb]

/-- Witness for C28 at a reply that starts with an introductory line. -/
theorem parseResponse_preamble_record_witness :
    beforeMarker "Here you go:\n1. Q?\nAnswer: 42".toList ≠ [] ∧
    parseResponse "Here you go:\n1. Q?\nAnswer: 42".toList "short".toList
      = .ok (.array [⟨"Here you go:".toList, none, none, none, none⟩,
          ⟨"Q?".toList, none, none, some "42".toList, none⟩]) ∧
    ∃ numbered : List Str,
      splitFrom markerAt "Here you go:\n1. Q?\nAnswer: 42".toList 0 []
        = beforeMarker "Here you go:\n1. Q?\nAnswer: 42".toList :: numbered ∧
      blocksOf "Here you go:\n1. Q?\nAnswer: 42".toList
        = (beforeMarker "Here you go:\n1. Q?\nAnswer: 42".toList :: numbered).filter
            (fun b => !b.isEmpty) ∧
      (beforeMarker "Here you go:\n1. Q?\nAnswer: 42".toList ≠ [] →
        parseResponse "Here you go:\n1. Q?\nAnswer: 42".toList "multiple".toList
          = .ok (.array (parseMultipleBlock
              (beforeMarker "Here you go:\n1. Q?\nAnswer: 42".toList) ::
              (numbered.filter (fun b => !b.isEmpty)).map parseMultipleBlock)) ∧
        parseResponse "Here you go:\n1. Q?\nAnswer: 42".toList "short".toList
          = .ok (.array (parseShortBlock
              (beforeMarker "Here you go:\n1. Q?\nAnswer: 42".toList) ::
              (numbered.filter (fun b => !b.isEmpty)).map parseShortBlock)) ∧
        parseResponse "Here you go:\n1. Q?\nAnswer: 42".toList "long".toList
          = .ok (.array (parseLongBlock
              (beforeMarker "Here you go:\n1. Q?\nAnswer: 42".toList) ::
              (numbered.filter (fun b => !b.isEmpty)).map parseLongBlock)) ∧
        (blocksOf "Here you go:\n1. Q?\nAnswer: 42".toList).length
          = (numbered.filter (fun b => !b.isEmpty)).length + 1) :=
  ⟨by decide, by decide,
    parseResponse_preamble_record "Here you go:\n1. Q?\nAnswer: 42".toList⟩

/-! ## File reading properties -/

/-- C21 (counterexample). A file declared as `image/png` is not refused by
`readFileContent`: the text that `file.text()` gives for it is returned, with the
type `text/plain`.  The same holds for a presentation, a type that
`handleFileChange` accepts. -/
theorem readFileContent_other_type_as_text :
    readFileContent ⟨"image/png".toList, none, none, some "abc".toList⟩
      = .ok ⟨"abc".toList, "text/plain".toList⟩ ∧
    readFileContent
        ⟨"application/vnd.openxmlformats-officedocument.presentationml.presentation".toList,
          none, none, some "PK".toList⟩
      = .ok ⟨"PK".toList, "text/plain".toList⟩ ∧
    handleFileChange
        (some ⟨"application/vnd.openxmlformats-officedocument.presentationml.presentation".toList,
          none, none, some "PK".toList⟩) ⟨none, []⟩
      = ⟨some ⟨"application/vnd.openxmlformats-officedocument.presentationml.presentation".toList,
          none, none, some "PK".toList⟩, []⟩ := by
  decide

/-- C21 (amended). For every file whose declared media type is none of PDF or
Word (docx, msword), `readFileContent` of `App.jsx` reads the file as plain text:
it returns the text of `file.text()` as it is, with the type `text/plain`, and
fails, with "Failed to read file", only when that read fails.  Media types are
checked before, by `handleFileChange`: a file whose type is not in its list of
five supported types is not selected and an error message is set. -/
theorem readFileContent_fallback (file : UploadedFile)
    (hpdf : file.type ≠ "application/pdf".toList)
    (hdocx : file.type
      ≠ "application/vnd.openxmlformats-officedocument.wordprocessingml.document".toList)
    (hdoc : file.type ≠ "application/msword".toList) :
    (∀ text, file.text = some text →
      readFileContent file = .ok ⟨text, "text/plain".toList⟩) ∧
    (file.text = none → readFileContent file = .error "Failed to read file".toList) ∧
    (∀ state, file.type ∉ supportedTypes →
      handleFileChange (some file) state
        = ⟨none,
          "Please upload a supported file type (TXT, DOC, DOCX, PDF, or PPTX).".toList⟩) ∧
    (∀ state, file.type ∈ supportedTypes →
      handleFileChange (some file) state = ⟨some file, []⟩) := by
  have hword : ¬ (file.type
      = "application/vnd.openxmlformats-officedocument.wordprocessingml.document".toList
      ∨ file.type = "application/msword".toList) := fun h => h.elim hdocx hdoc
  refine ⟨?_, ?_, ?_, ?_⟩
  · intro text ht
    unfold readFileContent
    rw [if_neg hpdf, if_neg hword, ht]
  · intro ht
    unfold readFileContent
    rw [if_neg hpdf, if_neg hword, ht]
  · intro state hns
    have hc : supportedTypes.contains file.type = false := by simpa using hns
    unfold handleFileChange
    simp only [hc]
    rfl
  · intro state hs
    have hc : supportedTypes.contains file.type = true := by simpa using hs
    unfold handleFileChange
    simp only [hc]
    rfl

/-- Witness for C21 (amended) at a file declared as `image/png`. -/
theorem readFileContent_fallback_witness :
    readFileContent ⟨"image/png".toList, none, none, some "abc".toList⟩
      = .ok ⟨"abc".toList, "text/plain".toList⟩ ∧
    handleFileChange (some ⟨"image/png".toList, none, none, some "abc".toList⟩) ⟨none, []⟩
      = ⟨none,
        "Please upload a supported file type (TXT, DOC, DOCX, PDF, or PPTX).".toList⟩ :=
  ⟨(readFileContent_fallback ⟨"image/png".toList, none, none, some "abc".toList⟩
      (by decide) (by decide) (by decide)).1 "abc".toList rfl,
    (readFileContent_fallback ⟨"image/png".toList, none, none, some "abc".toList⟩
      (by decide) (by decide) (by decide)).2.2.1 ⟨none, []⟩ (by decide)⟩

/-! ## Image scaling properties -/

/-- C24. For every image of `w` by `h` pixels, the dimensions that `processImage`
computes are at most 1200 each, keep the aspect ratio in exact arithmetic
(`w' * h = h' * w`), and are `(w, h)` when both `w` and `h` are at most 1200. -/
theorem processImage_dimensions (w h : Nat) :
    (processImage w h).1 ≤ 1200 ∧ (processImage w h).2 ≤ 1200 ∧
    (processImage w h).1 * (h : ℚ) = (processImage w h).2 * (w : ℚ) ∧
    (w ≤ 1200 → h ≤ 1200 → processImage w h = ((w : ℚ), (h : ℚ))) := by
  unfold processImage maxDimension
  by_cases h1 : w > h ∧ w > 1200
  · rw [if_pos h1]
    obtain ⟨hwh, hw⟩ := h1
    have hwpos : (0 : ℚ) < (w : ℚ) := by exact_mod_cast (by omega : 0 < w)
    have hle : (h : ℚ) ≤ (w : ℚ) := by exact_mod_cast (by omega : h ≤ w)
    refine ⟨by norm_num, ?_, ?_, ?_⟩
    · simp only
      rw [div_le_iff₀ hwpos]
      push_cast
      nlinarith
    · simp only
      field_simp
      ring
    · intro hw2 _
      omega
  · rw [if_neg h1]
    by_cases h2 : h > 1200
    · rw [if_pos h2]
      have hhpos : (0 : ℚ) < (h : ℚ) := by exact_mod_cast (by omega : 0 < h)
      have hle : (w : ℚ) ≤ (h : ℚ) := by
        have : w ≤ h := by
          by_contra hc
          exact h1 ⟨by omega, by omega⟩
        exact_mod_cast this
      refine ⟨?_, by norm_num, ?_, ?_⟩
      · simp only
        rw [div_le_iff₀ hhpos]
        push_cast
        nlinarith
      · simp only
        field_simp
        ring
      · intro _ hh2
        omega
    · rw [if_neg h2]
      have hh : h ≤ 1200 := by omega
      have hw : w ≤ 1200 := by
        by_contra hc
        exact h1 ⟨by omega, by omega⟩
      refine ⟨by simp only; exact_mod_cast hw, by simp only; exact_mod_cast hh,
        by simp only; ring, fun _ _ => rfl⟩

/-- Witness for C24 at an image of 2400 by 1600 pixels and at one of 800 by 600. -/
theorem processImage_dimensions_witness :
    ((processImage 2400 1600).1 ≤ 1200 ∧ (processImage 2400 1600).2 ≤ 1200 ∧
      (processImage 2400 1600).1 * ((1600 : Nat) : ℚ)
        = (processImage 2400 1600).2 * ((2400 : Nat) : ℚ)) ∧
    processImage 800 600 = (((800 : Nat) : ℚ), ((600 : Nat) : ℚ)) :=
  ⟨⟨(processImage_dimensions 2400 1600).1, (processImage_dimensions 2400 1600).2.1,
      (processImage_dimensions 2400 1600).2.2.1⟩,
    (processImage_dimensions 800 600).2.2.2 (by decide) (by decide)⟩

/-! ## Quiz page scorer properties -/

/-- C22 (the code on an answered `short` and an answered `long` quiz). In the quiz
page the reply "Question 1: Capital of France?\nAnswer: Paris" of a `short` quiz
is parsed into a question whose `correctAnswer` is "Paris"; answered with
"London" it is scored as not correct, and the total score is 0.  The reply
"Question 1: Explain X\n- point a\n- point b" of a `long` quiz is parsed into a
question with key points and no `correctAnswer`; answered with "An essay" it is
scored as not correct: the answer is compared with the empty string. -/
theorem quiz_calculateScore_answered_not_correct :
    Quiz.parseResponse "Question 1: Capital of France?\nAnswer: Paris".toList "short".toList
      = .ok [⟨"Capital of France?".toList, none, some "Paris".toList, none, none⟩] ∧
    (Quiz.calculateScore [⟨"Capital of France?".toList, none, some "Paris".toList, none, none⟩]
        (fun _ => some "London".toList)).questions
      = [⟨"Capital of France?".toList, "London".toList, some "Paris".toList, false⟩] ∧
    (Quiz.calculateScore [⟨"Capital of France?".toList, none, some "Paris".toList, none, none⟩]
        (fun _ => some "London".toList)).totalScore = 0 ∧
    Quiz.parseResponse "Question 1: Explain X\n- point a\n- point b".toList "long".toList
      = .ok [⟨"Explain X".toList, none, none, none,
          some ["point a".toList, "point b".toList]⟩] ∧
    (Quiz.calculateScore
        [⟨"Explain X".toList, none, none, none, some ["point a".toList, "point b".toList]⟩]
        (fun _ => some "An essay".toList)).questions
      = [⟨"Explain X".toList, "An essay".toList, none, false⟩] := by
  decide

/-! ## Question generation properties -/

/-- C23 (the code on a rate-limited endpoint). When the endpoint answers
every request with an HTTP response of status 429, `generateQuestionsForChunk`
sends exactly one request and awaits no delay: `fetch` resolves with the
response, so `callWithRetry` has nothing to catch; the call then returns the
empty array and sets the error message of the reply.  A network failure without
a response, in contrast, is retried: four requests and three delays. -/
theorem generateQuestionsForChunk_no_retry_on_429 {σ : Type} (next : σ → σ)
    (data : ReplyData) (tag : Nat) (sleep : σ → σ) (message : Thrown → Str)
    (chunk type : Str) (s : σ) :
    generateQuestionsForChunk (fun _ st => (.response ⟨429, .ok data⟩, next st)) sleep
        message chunk type s
      = ⟨.array [],
          some ("Error: ".toList
            ++ orElse data.details (orElse data.error "Failed to generate questions".toList)),
          next s, 1, 0⟩ ∧
    (generateQuestionsForChunk (fun _ st => (.failure tag, next st)) sleep
        message chunk type s).requests = 4 ∧
    (generateQuestionsForChunk (fun _ st => (.failure tag, next st)) sleep
        message chunk type s).delays = 3 := by
  refine ⟨?_, ?_, ?_⟩
  · have hrun : callWithRetry
        (fetchCall (fun _ st => (NetworkOutcome.response ⟨429, .ok data⟩, next st))
          ⟨generatePrompt type chunk, chunk⟩) sleep MAX_RETRIES s
        = ⟨.ok ⟨429, .ok data⟩, next s, 1, 0⟩ :=
      callWithRetry_of_ok _ sleep MAX_RETRIES s ⟨429, .ok data⟩ rfl
    simp only [generateQuestionsForChunk, hrun]
    rfl
  · simp [generateQuestionsForChunk, callWithRetry, MAX_RETRIES, fetchCall, retryCondition]
  · simp [generateQuestionsForChunk, callWithRetry, MAX_RETRIES, fetchCall, retryCondition]

/-! ## Notes and flashcards route properties -/

theorem findNote_eq_none (docs : List Note) (id userId : Str)
    (h : ∀ note ∈ docs, note.id = id → note.userId ≠ userId) :
    findNote docs id userId = none := by
  simp only [findNote, List.find?_eq_none, decide_eq_true_eq, not_and]
  exact h

theorem findFlashcard_eq_none (docs : List Flashcard) (id userId : Str)
    (h : ∀ card ∈ docs, card.id = id → card.userId ≠ userId) :
    findFlashcard docs id userId = none := by
  simp only [findFlashcard, List.find?_eq_none, decide_eq_true_eq, not_and]
  exact h

/-- C30 (counterexample). A `PUT /api/notes/64b7f0c2a1d3e4f5a6b7c8d9` of the user
`5f1e2d3c4b5a69788796a5b5` whose body has no `heading`, for the note with that
id, owned by the user `5f1e2d3c4b5a69788796a5b4`, is answered with status 400, not
404; so is a `PUT` on the flashcard with that id whose body has an empty
`answer`.  A `DELETE /api/flashcards/7`, whose id is not the written form of an
`ObjectId`, is answered with 500. -/
theorem put_foreign_record_status_400 :
    (putNote ⟨hexObjectId, hexObjectId, fun note => some note⟩
        "64b7f0c2a1d3e4f5a6b7c8d9".toList ⟨none, some "mine".toList⟩
        "5f1e2d3c4b5a69788796a5b5".toList
        ⟨[⟨"64b7f0c2a1d3e4f5a6b7c8d9".toList, "5f1e2d3c4b5a69788796a5b4".toList,
            "Plan".toList, "Read".toList⟩],
          none⟩).status = 400 ∧
    (putFlashcard hexObjectId 9 "64b7f0c2a1d3e4f5a6b7c8d9".toList
        ⟨some "Q".toList, some []⟩ "5f1e2d3c4b5a69788796a5b5".toList
        ⟨[⟨"64b7f0c2a1d3e4f5a6b7c8d9".toList, "5f1e2d3c4b5a69788796a5b4".toList,
            "T".toList, "Q?".toList, "A".toList, 1, 1⟩], none⟩).status = 400 ∧
    (deleteFlashcard hexObjectId "7".toList "5f1e2d3c4b5a69788796a5b5".toList
        ⟨[⟨"64b7f0c2a1d3e4f5a6b7c8d9".toList, "5f1e2d3c4b5a69788796a5b4".toList,
            "T".toList, "Q?".toList, "A".toList, 1, 1⟩], none⟩).status = 500 := by
  decide

/-- C30 (amended). For an authenticated `PUT` or `DELETE` on `/api/notes/:id` or
`/api/flashcards/:id` whose id and whose token user id are well formed (the
database layer casts them) and whose id names no record of the token's user
(every record with that id is owned by another user), the handler leaves the
collection unchanged; a `PUT` whose body lacks a required field (heading or
content for a note, question or answer for a flashcard) is answered with 400,
otherwise the response is 500 when the database operation fails and 404 when it
succeeds. -/
theorem put_delete_foreign_record (model : NoteModel) (cast : Str → Option Str) (now : Nat)
    (id tokenUserId : Str) (noteBody : NoteBody) (cardBody : FlashcardBody)
    (notes : Collection Note) (cards : Collection Flashcard)
    (noteId noteUser cardId cardUser : Str)
    (hnoteId : model.castId id = some noteId)
    (hnoteUser : model.castUserId tokenUserId = some noteUser)
    (hcardId : cast id = some cardId) (hcardUser : cast tokenUserId = some cardUser)
    (hnotes : ∀ note ∈ notes.docs, note.id = noteId → note.userId ≠ noteUser)
    (hcards : ∀ card ∈ cards.docs, card.id = cardId → card.userId ≠ cardUser) :
    (putNote model id noteBody tokenUserId notes).collection = notes ∧
    (deleteNote model id tokenUserId notes).collection = notes ∧
    (putFlashcard cast now id cardBody tokenUserId cards).collection = cards ∧
    (deleteFlashcard cast id tokenUserId cards).collection = cards ∧
    (putNote model id noteBody tokenUserId notes).status
      = (if isFalsy noteBody.heading || isFalsy noteBody.content then 400
         else if notes.failure.isSome then 500 else 404) ∧
    (deleteNote model id tokenUserId notes).status
      = (if notes.failure.isSome then 500 else 404) ∧
    (putFlashcard cast now id cardBody tokenUserId cards).status
      = (if isFalsy cardBody.question || isFalsy cardBody.answer then 400
         else if cards.failure.isSome then 500 else 404) ∧
    (deleteFlashcard cast id tokenUserId cards).status
      = (if cards.failure.isSome then 500 else 404) := by
  have hn := findNote_eq_none notes.docs noteId noteUser hnotes
  have hc := findFlashcard_eq_none cards.docs cardId cardUser hcards
  refine ⟨?_, ?_, ?_, ?_, ?_, ?_, ?_, ?_⟩
  · unfold putNote
    split
    · rfl
    · cases hf : notes.failure <;> simp [hnoteId, hnoteUser, hn]
  · unfold deleteNote
    cases hf : notes.failure <;> simp [hnoteId, hnoteUser, hn]
  · unfold putFlashcard
    split
    · rfl
    · cases hf : cards.failure <;> simp [hcardId, hcardUser, hc]
  · unfold deleteFlashcard
    cases hf : cards.failure <;> simp [hcardId, hcardUser, hc]
  · unfold putNote
    split
    · rfl
    · cases hf : notes.failure <;> simp [hnoteId, hnoteUser, hn]
  · unfold deleteNote
    cases hf : notes.failure <;> simp [hnoteId, hnoteUser, hn]
  · unfold putFlashcard
    split
    · rfl
    · cases hf : cards.failure <;> simp [hcardId, hcardUser, hc]
  · unfold deleteFlashcard
    cases hf : cards.failure <;> simp [hcardId, hcardUser, hc]

/-- Witness for C30 (amended): the user `5f1e2d3c4b5a69788796a5b5` sends complete
bodies for the note and the flashcard `64b7f0c2a1d3e4f5a6b7c8d9` of the user
`5f1e2d3c4b5a69788796a5b4`; the requests are answered with 404 and the collections
are unchanged. -/
theorem put_delete_foreign_record_witness :
    hexObjectId "64b7f0c2a1d3e4f5a6b7c8d9".toList = some "64b7f0c2a1d3e4f5a6b7c8d9".toList ∧
    hexObjectId "5f1e2d3c4b5a69788796a5b5".toList = some "5f1e2d3c4b5a69788796a5b5".toList ∧
    (putNote ⟨hexObjectId, hexObjectId, fun note => some note⟩
        "64b7f0c2a1d3e4f5a6b7c8d9".toList ⟨some "H".toList, some "C".toList⟩
        "5f1e2d3c4b5a69788796a5b5".toList
        ⟨[⟨"64b7f0c2a1d3e4f5a6b7c8d9".toList, "5f1e2d3c4b5a69788796a5b4".toList,
            "Plan".toList, "Read".toList⟩],
          none⟩).collection
      = ⟨[⟨"64b7f0c2a1d3e4f5a6b7c8d9".toList, "5f1e2d3c4b5a69788796a5b4".toList,
            "Plan".toList, "Read".toList⟩],
          none⟩ ∧
    (putNote ⟨hexObjectId, hexObjectId, fun note => some note⟩
        "64b7f0c2a1d3e4f5a6b7c8d9".toList ⟨some "H".toList, some "C".toList⟩
        "5f1e2d3c4b5a69788796a5b5".toList
        ⟨[⟨"64b7f0c2a1d3e4f5a6b7c8d9".toList, "5f1e2d3c4b5a69788796a5b4".toList,
            "Plan".toList, "Read".toList⟩],
          none⟩).status = 404 ∧
    (deleteFlashcard hexObjectId "64b7f0c2a1d3e4f5a6b7c8d9".toList
        "5f1e2d3c4b5a69788796a5b5".toList
        ⟨[⟨"64b7f0c2a1d3e4f5a6b7c8d9".toList, "5f1e2d3c4b5a69788796a5b4".toList,
            "T".toList, "Q?".toList, "A".toList, 1, 1⟩], none⟩).status = 404 := by
  have h := put_delete_foreign_record ⟨hexObjectId, hexObjectId, fun note => some note⟩
    hexObjectId 9 "64b7f0c2a1d3e4f5a6b7c8d9".toList "5f1e2d3c4b5a69788796a5b5".toList
    ⟨some "H".toList, some "C".toList⟩ ⟨some "Q".toList, some "A".toList⟩
    ⟨[⟨"64b7f0c2a1d3e4f5a6b7c8d9".toList, "5f1e2d3c4b5a69788796a5b4".toList,
            "Plan".toList, "Read".toList⟩],
      none⟩
    ⟨[⟨"64b7f0c2a1d3e4f5a6b7c8d9".toList, "5f1e2d3c4b5a69788796a5b4".toList,
            "T".toList, "Q?".toList, "A".toList, 1, 1⟩], none⟩
    "64b7f0c2a1d3e4f5a6b7c8d9".toList "5f1e2d3c4b5a69788796a5b5".toList
    "64b7f0c2a1d3e4f5a6b7c8d9".toList "5f1e2d3c4b5a69788796a5b5".toList
    (by decide) (by decide) (by decide) (by decide) (by decide) (by decide)
  exact ⟨by decide, by decide, h.1, h.2.2.2.2.1, h.2.2.2.2.2.2.2⟩

/-! ## Statistics route properties -/

theorem roundDouble_ne_nan (q : ℚ) : roundDouble q ≠ .nan := by
  unfold roundDouble
  simp only
  split_ifs <;> exact fun h => JsNumber.noConfusion h

theorem jsAdd_ne_nan (a : JsNumber) (b : ℚ) (ha : a ≠ .nan) : jsAdd a (.value b) ≠ .nan := by
  cases a with
  | nan => exact absurd rfl ha
  | infinity => exact fun h => JsNumber.noConfusion h
  | negInfinity => exact fun h => JsNumber.noConfusion h
  | value q => exact roundDouble_ne_nan (q + b)

theorem foldl_jsAdd_ne_nan :
    ∀ (results : List QuizResultDoc) (acc : JsNumber), acc ≠ .nan →
      (∀ r ∈ results, ∃ q, r.percentage = .value q) →
      results.foldl (fun acc curr => jsAdd acc curr.percentage) acc ≠ .nan
  | [], acc, hacc, _ => hacc
  | r :: rest, acc, hacc, hfin => by
    obtain ⟨q, hq⟩ := hfin r (List.mem_cons_self r rest)
    rw [List.foldl_cons, hq]
    exact foldl_jsAdd_ne_nan rest _ (jsAdd_ne_nan acc q hacc)
      (fun x hx => hfin x (List.mem_cons_of_mem r hx))

theorem jsOver_ne_nan (x : JsNumber) (n : Nat) (hx : x ≠ .nan) (hn : 0 < n) :
    jsOver x n ≠ .nan := by
  cases x with
  | nan => exact absurd rfl hx
  | infinity => exact fun h => JsNumber.noConfusion h
  | negInfinity => exact fun h => JsNumber.noConfusion h
  | value q =>
    simp only [jsOver, if_neg (by omega : ¬ n = 0)]
    exact roundDouble_ne_nan _

theorem averagePercentage_ne_nan (results : List QuizResultDoc)
    (hfin : ∀ r ∈ results, ∃ q, r.percentage = .value q) :
    averagePercentage results ≠ .nan := by
  unfold averagePercentage
  split_ifs with h
  · exact jsOver_ne_nan _ _
      (foldl_jsAdd_ne_nan results _ (fun h => JsNumber.noConfusion h) hfin) h
  · exact fun h => JsNumber.noConfusion h

theorem jsLt_eq_not_jsGe (x : JsNumber) (bound : ℚ) (hx : x ≠ .nan) :
    jsLt x bound = !jsGe x bound := by
  cases x with
  | nan => exact absurd rfl hx
  | infinity => rfl
  | negInfinity => rfl
  | value q =>
    simp only [jsLt, jsGe]
    by_cases h : bound ≤ q
    · simp [h, not_lt.mpr h]
    · simp [h, not_le.mp h]

theorem mem_typesWhere (results : List QuizResultDoc) (keep : JsNumber → Bool) (type : Str) :
    type ∈ typesWhere results keep ↔ type ∈ quizTypes ∧
      keep (averagePercentage (results.filter (fun r => r.quizType = type))) = true := by
  simp [typesWhere, List.mem_filter]

theorem typesWhere_perm (results : List QuizResultDoc)
    (hnan : ∀ type ∈ quizTypes,
      averagePercentage (results.filter (fun r => r.quizType = type)) ≠ .nan) :
    (typesWhere results (fun a => jsGe a 70)
      ++ typesWhere results (fun a => jsLt a 70)).Perm quizTypes := by
  have := List.filter_append_perm (fun type =>
    jsGe (averagePercentage (results.filter (fun r => r.quizType = type))) 70) quizTypes
  have heq : typesWhere results (fun a => jsLt a 70)
      = quizTypes.filter (fun x => !(fun type =>
          jsGe (averagePercentage (results.filter (fun r => r.quizType = type))) 70) x) := by
    unfold typesWhere
    apply List.filter_congr
    intro x hx
    exact jsLt_eq_not_jsGe _ 70 (hnan x hx)
  rw [heq]
  exact this

theorem countP_typesWhere (results : List QuizResultDoc) (type : Str)
    (hnan : ∀ type ∈ quizTypes,
      averagePercentage (results.filter (fun r => r.quizType = type)) ≠ .nan)
    (h : type ∈ quizTypes) :
    List.countP (fun t => decide (t = type))
      (typesWhere results (fun a => jsGe a 70)
        ++ typesWhere results (fun a => jsLt a 70)) = 1 := by
  refine ((typesWhere_perm results hnan).countP_eq _).trans ?_
  simp only [quizTypes, List.mem_cons, List.mem_singleton, List.not_mem_nil, or_false] at h
  rcases h with h | h | h <;> subst h <;> decide

theorem roundDouble_exact (q : ℚ) (k n : ℤ) (hk : -1022 ≤ k) (hk2 : k < 1024)
    (h1 : (2 : ℚ) ^ k ≤ |q|) (h2 : |q| < (2 : ℚ) ^ (k + 1))
    (hq : q = (n : ℚ) * 2 ^ (k - 52)) : roundDouble q = .value q := by
  have he := ulpExponent_eq q k hk h1 h2
  have hpos : (0 : ℚ) < 2 ^ (k - 52) := by positivity
  have hlt : |q| < 2 ^ (1024 : ℕ) := by
    refine lt_of_lt_of_le h2 ?_
    calc (2 : ℚ) ^ (k + 1) ≤ (2 : ℚ) ^ ((1024 : ℕ) : ℤ) :=
          zpow_le_zpow_right₀ (by norm_num) (by omega)
      _ = 2 ^ (1024 : ℕ) := zpow_natCast 2 1024
  have hb := abs_lt.mp hlt
  have := roundDouble_eq q (k - 52) n he (by rw [hq]; nlinarith) (by rw [hq]; nlinarith)
    (by rw [← hq]; exact hb.1) (by rw [← hq]; exact hb.2)
  rw [this, hq]

/-- C29 (counterexample). For a user with two `multiple` results whose stored
percentages are `Infinity` and `-Infinity` (numbers that the type `Number` of the
schema holds), the sum is `NaN`, and so is the mean; `NaN >= 70` and `NaN < 70`
are both false, so `multiple` is neither a strength nor a weakness. -/
theorem computeStats_nan_mean_in_neither :
    averagePercentage
        [⟨"u".toList, "multiple".toList, "a.txt".toList, [], 1, 1, .infinity, 1⟩,
          ⟨"u".toList, "multiple".toList, "a.txt".toList, [], 0, 1, .negInfinity, 2⟩]
      = .nan ∧
    (computeStats
        [⟨"u".toList, "multiple".toList, "a.txt".toList, [], 1, 1, .infinity, 1⟩,
          ⟨"u".toList, "multiple".toList, "a.txt".toList, [], 0, 1, .negInfinity, 2⟩]).strengths
      = some [] ∧
    (computeStats
        [⟨"u".toList, "multiple".toList, "a.txt".toList, [], 1, 1, .infinity, 1⟩,
          ⟨"u".toList, "multiple".toList, "a.txt".toList, [], 0, 1, .negInfinity, 2⟩]).weaknesses
      = some ["short".toList, "long".toList] := by
  have hm : averagePercentage
      [⟨"u".toList, "multiple".toList, "a.txt".toList, [], 1, 1, .infinity, 1⟩,
        ⟨"u".toList, "multiple".toList, "a.txt".toList, [], 0, 1, .negInfinity, 2⟩]
      = .nan := rfl
  have h0 : averagePercentage [] = .value 0 := rfl
  refine ⟨hm, ?_, ?_⟩
  · simp +decide [computeStats, typesWhere, quizTypes, List.filter, hm, h0, jsGe]
  · simp +decide [computeStats, typesWhere, quizTypes, List.filter, hm, h0, jsLt, jsGe]

theorem averagePercentage_cons (r : QuizResultDoc) (rest : List QuizResultDoc) :
    averagePercentage (r :: rest)
      = jsOver ((r :: rest).foldl (fun acc curr => jsAdd acc curr.percentage) (.value 0))
          (r :: rest).length := by
  unfold averagePercentage
  rw [if_pos (by simp)]

theorem averagePercentage_rounded_mean :
    averagePercentage
        [⟨"u".toList, "multiple".toList, "a.txt".toList, [], 57, 100,
            .value (57 - 1 / 2 ^ (47 : ℕ)), 1⟩,
          ⟨"u".toList, "multiple".toList, "b.txt".toList, [], 83, 100, .value 83, 2⟩]
      = .value 70 := by
  have h1 : roundDouble (0 + (57 - 1 / 2 ^ (47 : ℕ))) = .value (57 - 1 / 2 ^ (47 : ℕ)) := by
    have := roundDouble_exact (0 + (57 - 1 / 2 ^ (47 : ℕ))) 5 8022036836253695
      (by norm_num) (by norm_num) (by norm_num [abs_of_pos]) (by norm_num [abs_of_pos])
      (by norm_num)
    rw [this]; norm_num
  have h2 : roundDouble (57 - 1 / 2 ^ (47 : ℕ) + 83) = .value 140 := by
    have he : ulpExponent (57 - 1 / 2 ^ (47 : ℕ) + 83) = 7 - 52 := by
      apply ulpExponent_eq <;> norm_num [abs_of_pos]
    have := roundDouble_eq (57 - 1 / 2 ^ (47 : ℕ) + 83) (-45) 4925812092436480
      (by rw [he]; norm_num) (by norm_num) (by norm_num) (by norm_num) (by norm_num)
    rw [this]; norm_num
  have h3 : roundDouble 70 = .value 70 :=
    roundDouble_exact 70 6 4925812092436480
      (by norm_num) (by norm_num) (by norm_num [abs_of_pos]) (by norm_num [abs_of_pos])
      (by norm_num)
  rw [averagePercentage_cons]
  simp only [List.foldl_cons, List.foldl_nil, List.length_cons, List.length_nil, jsAdd, h1, h2,
    jsOver]
  norm_num
  exact h3

theorem typesWhere_eq (results : List QuizResultDoc) (keep : JsNumber → Bool) :
    typesWhere results keep
      = (if keep (averagePercentage
            (results.filter (fun r => r.quizType = "multiple".toList))) = true
          then ["multiple".toList] else [])
        ++ ((if keep (averagePercentage
            (results.filter (fun r => r.quizType = "short".toList))) = true
          then ["short".toList] else [])
        ++ (if keep (averagePercentage
            (results.filter (fun r => r.quizType = "long".toList))) = true
          then ["long".toList] else [])) := by
  unfold typesWhere quizTypes
  simp only [List.filter_cons, List.filter_nil]
  split_ifs <;> rfl

theorem typesWhere_rounded_mean :
    typesWhere
        [⟨"u".toList, "multiple".toList, "a.txt".toList, [], 57, 100,
          .value (57 - 1 / 2 ^ (47 : ℕ)), 1⟩,
        ⟨"u".toList, "multiple".toList, "b.txt".toList, [], 83, 100, .value 83, 2⟩]
        (fun a => jsGe a 70) = ["multiple".toList] ∧
    typesWhere
        [⟨"u".toList, "multiple".toList, "a.txt".toList, [], 57, 100,
          .value (57 - 1 / 2 ^ (47 : ℕ)), 1⟩,
        ⟨"u".toList, "multiple".toList, "b.txt".toList, [], 83, 100, .value 83, 2⟩]
        (fun a => jsLt a 70) = ["short".toList, "long".toList] := by
  have hm := averagePercentage_rounded_mean
  have he : averagePercentage [] = .value 0 := rfl
  have hfm : List.filter (fun r : QuizResultDoc => decide (r.quizType = "multiple".toList))
      [⟨"u".toList, "multiple".toList, "a.txt".toList, [], 57, 100,
          .value (57 - 1 / 2 ^ (47 : ℕ)), 1⟩,
        ⟨"u".toList, "multiple".toList, "b.txt".toList, [], 83, 100, .value 83, 2⟩]
      = [⟨"u".toList, "multiple".toList, "a.txt".toList, [], 57, 100,
          .value (57 - 1 / 2 ^ (47 : ℕ)), 1⟩,
        ⟨"u".toList, "multiple".toList, "b.txt".toList, [], 83, 100, .value 83, 2⟩] := rfl
  have hfs : List.filter (fun r : QuizResultDoc => decide (r.quizType = "short".toList))
      [⟨"u".toList, "multiple".toList, "a.txt".toList, [], 57, 100,
          .value (57 - 1 / 2 ^ (47 : ℕ)), 1⟩,
        ⟨"u".toList, "multiple".toList, "b.txt".toList, [], 83, 100, .value 83, 2⟩]
      = [] := rfl
  have hfl : List.filter (fun r : QuizResultDoc => decide (r.quizType = "long".toList))
      [⟨"u".toList, "multiple".toList, "a.txt".toList, [], 57, 100,
          .value (57 - 1 / 2 ^ (47 : ℕ)), 1⟩,
        ⟨"u".toList, "multiple".toList, "b.txt".toList, [], 83, 100, .value 83, 2⟩]
      = [] := rfl
  have c1 : decide ((70 : ℚ) ≥ 70) = true := by simp
  have c2 : decide ((0 : ℚ) ≥ 70) = false := by simp
  have c3 : decide ((70 : ℚ) < 70) = false := by simp
  have c4 : decide ((0 : ℚ) < 70) = true := by simp
  have g1 : jsGe (averagePercentage (List.filter
      (fun r : QuizResultDoc => decide (r.quizType = "multiple".toList))
      [⟨"u".toList, "multiple".toList, "a.txt".toList, [], 57, 100,
          .value (57 - 1 / 2 ^ (47 : ℕ)), 1⟩,
        ⟨"u".toList, "multiple".toList, "b.txt".toList, [], 83, 100, .value 83, 2⟩])) 70 = true := by
    rw [hfm, hm]; exact c1
  have g2 : jsGe (averagePercentage (List.filter
      (fun r : QuizResultDoc => decide (r.quizType = "short".toList))
      [⟨"u".toList, "multiple".toList, "a.txt".toList, [], 57, 100,
          .value (57 - 1 / 2 ^ (47 : ℕ)), 1⟩,
        ⟨"u".toList, "multiple".toList, "b.txt".toList, [], 83, 100, .value 83, 2⟩])) 70 = false := by
    rw [hfs, he]; exact c2
  have g3 : jsGe (averagePercentage (List.filter
      (fun r : QuizResultDoc => decide (r.quizType = "long".toList))
      [⟨"u".toList, "multiple".toList, "a.txt".toList, [], 57, 100,
          .value (57 - 1 / 2 ^ (47 : ℕ)), 1⟩,
        ⟨"u".toList, "multiple".toList, "b.txt".toList, [], 83, 100, .value 83, 2⟩])) 70 = false := by
    rw [hfl, he]; exact c2
  have l1 : jsLt (averagePercentage (List.filter
      (fun r : QuizResultDoc => decide (r.quizType = "multiple".toList))
      [⟨"u".toList, "multiple".toList, "a.txt".toList, [], 57, 100,
          .value (57 - 1 / 2 ^ (47 : ℕ)), 1⟩,
        ⟨"u".toList, "multiple".toList, "b.txt".toList, [], 83, 100, .value 83, 2⟩])) 70 = false := by
    rw [hfm, hm]; exact c3
  have l2 : jsLt (averagePercentage (List.filter
      (fun r : QuizResultDoc => decide (r.quizType = "short".toList))
      [⟨"u".toList, "multiple".toList, "a.txt".toList, [], 57, 100,
          .value (57 - 1 / 2 ^ (47 : ℕ)), 1⟩,
        ⟨"u".toList, "multiple".toList, "b.txt".toList, [], 83, 100, .value 83, 2⟩])) 70 = true := by
    rw [hfs, he]; exact c4
  have l3 : jsLt (averagePercentage (List.filter
      (fun r : QuizResultDoc => decide (r.quizType = "long".toList))
      [⟨"u".toList, "multiple".toList, "a.txt".toList, [], 57, 100,
          .value (57 - 1 / 2 ^ (47 : ℕ)), 1⟩,
        ⟨"u".toList, "multiple".toList, "b.txt".toList, [], 83, 100, .value 83, 2⟩])) 70 = true := by
    rw [hfl, he]; exact c4
  constructor
  · rw [typesWhere_eq]
    simp only [g1, g2, g3]
    rfl
  · rw [typesWhere_eq]
    simp only [l1, l2, l3]
    rfl

/-- C29 (amended). In the statistics of `GET /api/quiz-stats/:userId`, the mean of
a type is computed in doubles: the percentages are added to 0 one by one and the
sum is divided by the count, each operation rounded.  When every stored
percentage is finite, no mean is `NaN`.  When no mean of a type is `NaN` and there
is at least one result, `strengths` and `weaknesses` are set; a type of
'multiple', 'short', 'long' is a strength exactly when it has results and their
computed mean is at least 70, and a weakness otherwise; no type is in both, both
hold only these types, every type occurs exactly once in the two lists together
(their concatenation is a rearrangement of the three types), and a type without
results is a weakness.  With no results both keys are absent and `totalQuizzes`
and `averageScore` are 0. -/
theorem computeStats_strengths_weaknesses (results : List QuizResultDoc) :
    ((∀ r ∈ results, ∃ q, r.percentage = .value q) →
      ∀ type, averagePercentage (results.filter (fun r => r.quizType = type)) ≠ .nan) ∧
    ((∀ type ∈ quizTypes,
        averagePercentage (results.filter (fun r => r.quizType = type)) ≠ .nan) →
      results ≠ [] →
      ∃ strengths weaknesses,
        (computeStats results).strengths = some strengths ∧
        (computeStats results).weaknesses = some weaknesses ∧
        (∀ type ∈ quizTypes,
          (type ∈ strengths ↔
            results.filter (fun r => r.quizType = type) ≠ [] ∧
            jsGe (jsOver
              ((results.filter (fun r => r.quizType = type)).foldl
                (fun acc curr => jsAdd acc curr.percentage) (.value 0))
              (results.filter (fun r => r.quizType = type)).length) 70 = true) ∧
          (type ∈ weaknesses ↔ type ∉ strengths) ∧
          List.countP (fun t => decide (t = type)) (strengths ++ weaknesses) = 1 ∧
          (results.filter (fun r => r.quizType = type) = [] → type ∈ weaknesses)) ∧
        (strengths ++ weaknesses).Perm quizTypes ∧
        (∀ type, type ∈ strengths ++ weaknesses → type ∈ quizTypes) ∧
        (∀ type, ¬ (type ∈ strengths ∧ type ∈ weaknesses))) ∧
    (results = [] →
      (computeStats results).strengths = none ∧ (computeStats results).weaknesses = none ∧
      (computeStats results).totalQuizzes = 0 ∧
      (computeStats results).averageScore = .value 0) := by
  refine ⟨?_, ?_, ?_⟩
  · intro hfin type
    exact averagePercentage_ne_nan _ (fun r hr => hfin r (List.mem_of_mem_filter hr))
  · intro hnan hne
    have hlen : results.length > 0 := List.length_pos.mpr hne
    refine ⟨typesWhere results (fun a => jsGe a 70),
      typesWhere results (fun a => jsLt a 70), ?_, ?_, ?_, typesWhere_perm results hnan,
      ?_, ?_⟩
    · simp only [computeStats, if_pos hlen]
    · simp only [computeStats, if_pos hlen]
    · intro type htype
      have hs : type ∈ typesWhere results (fun a => jsGe a 70) ↔
          jsGe (averagePercentage (results.filter (fun r => r.quizType = type))) 70
            = true := by
        rw [mem_typesWhere]; simp [htype]
      have hw : type ∈ typesWhere results (fun a => jsLt a 70) ↔
          jsLt (averagePercentage (results.filter (fun r => r.quizType = type))) 70
            = true := by
        rw [mem_typesWhere]; simp [htype]
      refine ⟨?_, ?_, countP_typesWhere results type hnan htype, ?_⟩
      · rw [hs]
        cases hf : results.filter (fun r => r.quizType = type) with
        | nil =>
          have : averagePercentage [] = .value 0 := rfl
          rw [this]
          simp [jsGe]
        | cons r rest =>
          rw [averagePercentage_cons]
          simp
      · rw [hs, hw, jsLt_eq_not_jsGe _ 70 (hnan type htype)]
        simp
      · intro hempty
        rw [hw, hempty]
        have : averagePercentage [] = .value 0 := rfl
        rw [this]
        simp [jsLt]
    · intro type hmem
      rcases List.mem_append.mp hmem with h | h
      · exact ((mem_typesWhere _ _ _).mp h).1
      · exact ((mem_typesWhere _ _ _).mp h).1
    · rintro type ⟨hs, hw⟩
      have htype := ((mem_typesWhere _ _ _).mp hs).1
      have h1 := ((mem_typesWhere _ _ _).mp hs).2
      have h2 := ((mem_typesWhere _ _ _).mp hw).2
      rw [jsLt_eq_not_jsGe _ 70 (hnan type htype)] at h2
      simp only at h1 h2
      rw [h1] at h2
      exact absurd h2 (by simp)
  · intro hnil
    subst hnil
    exact ⟨rfl, rfl, rfl, rfl⟩

/-- Witness for C29 (amended): two `multiple` results with the percentages
56.99999999999999 (the double `57 - 2^-47`) and 83.  Their sum is rounded to 140
and the mean is 70, so `multiple` is the strength, and `short` and `long`, without
results, are the weaknesses. -/
theorem computeStats_strengths_weaknesses_witness :
    (computeStats
        [⟨"u".toList, "multiple".toList, "a.txt".toList, [], 57, 100,
            .value (57 - 1 / 2 ^ (47 : ℕ)), 1⟩,
          ⟨"u".toList, "multiple".toList, "b.txt".toList, [], 83, 100, .value 83, 2⟩]).strengths
      = some ["multiple".toList] ∧
    (computeStats
        [⟨"u".toList, "multiple".toList, "a.txt".toList, [], 57, 100,
            .value (57 - 1 / 2 ^ (47 : ℕ)), 1⟩,
          ⟨"u".toList, "multiple".toList, "b.txt".toList, [], 83, 100, .value 83, 2⟩]).weaknesses
      = some ["short".toList, "long".toList] ∧
    (∃ strengths weaknesses,
      (computeStats
        [⟨"u".toList, "multiple".toList, "a.txt".toList, [], 57, 100,
            .value (57 - 1 / 2 ^ (47 : ℕ)), 1⟩,
          ⟨"u".toList, "multiple".toList, "b.txt".toList, [], 83, 100, .value 83, 2⟩]).strengths
        = some strengths ∧
      (computeStats
        [⟨"u".toList, "multiple".toList, "a.txt".toList, [], 57, 100,
            .value (57 - 1 / 2 ^ (47 : ℕ)), 1⟩,
          ⟨"u".toList, "multiple".toList, "b.txt".toList, [], 83, 100, .value 83, 2⟩]).weaknesses
        = some weaknesses ∧
      (strengths ++ weaknesses).Perm quizTypes) ∧
    (computeStats []).strengths = none ∧ (computeStats []).totalQuizzes = 0 := by
  have hfin : ∀ r ∈
      ([⟨"u".toList, "multiple".toList, "a.txt".toList, [], 57, 100,
          .value (57 - 1 / 2 ^ (47 : ℕ)), 1⟩,
        ⟨"u".toList, "multiple".toList, "b.txt".toList, [], 83, 100, .value 83, 2⟩] :
        List QuizResultDoc), ∃ q, r.percentage = .value q := by
    intro r hr
    simp only [List.mem_cons, List.mem_singleton, List.not_mem_nil, or_false] at hr
    rcases hr with h | h <;> subst h <;> exact ⟨_, rfl⟩
  have hthm := computeStats_strengths_weaknesses
    [⟨"u".toList, "multiple".toList, "a.txt".toList, [], 57, 100,
        .value (57 - 1 / 2 ^ (47 : ℕ)), 1⟩,
      ⟨"u".toList, "multiple".toList, "b.txt".toList, [], 83, 100, .value 83, 2⟩]
  have h := hthm.2.1 (fun type _ => hthm.1 hfin type) (by simp)
  have h0 := (computeStats_strengths_weaknesses []).2.2 rfl
  obtain ⟨strengths, weaknesses, hs, hw, _, hperm, _, _⟩ := h
  have ht := typesWhere_rounded_mean
  refine ⟨?_, ?_, ⟨strengths, weaknesses, hs, hw, hperm⟩, h0.1, h0.2.2.1⟩
  · simp only [computeStats, ht.1]
    rfl
  · simp only [computeStats, ht.2]
    rfl

end StudyApp
